import Mathlib

/-!
# Verification of the task/record lifecycle engine

Shallow embedding of the core modules of the repository:

* `src/agents/tools/duplicate_detector.py` (similarity, duplicate detection, merge)
* `src/agents/tools/task_validator.py` (structural validation / filtering)
* `src/agents/tools/task_formatter.py` and `src/agents/tools/formatter.py` (text codec)
* `src/agents/tools/task_approval_flow.py` and `src/agents/tools/approval.py`
  (approval actions, item mutations, persistence reads/writes)
* data models from `src/agents/tools/task_models.py`, `src/agents/models/minutes.py`,
  `src/agents/models/approval.py`

Modelling conventions:

* Python `str` is Lean `String` (in this toolchain a wrapper around `List Char`,
  i.e. a list of Unicode code points, matching Python's code-point semantics of
  `len`, indexing and slicing).  The Python string operations used by the code
  (`strip`, `lower`, `split("\n")`, `"\n".join`, `startswith`, substring search,
  f-string concatenation) are modelled by executable functions defined below on
  the underlying character lists.  `strip`/`lower` are modelled for the ASCII
  range (the whitespace and cased characters the data actually contains).
* Python `float` arithmetic on similarity scores is modelled with `ℚ`.  All
  concrete inputs used in counterexamples are chosen so that the Python float
  computation is exact (denominators are powers of two or the value is 0/1),
  hence ℚ and float agree on them.
* `datetime.date` is `PyDate` (year/month/day); `datetime.datetime` as rendered
  by the minutes formatter is `PyDateTime` (down to seconds; the layout carries
  only minutes).  Timestamps that are never rendered (`created_at`,
  `updated_at`, `expires_at` of approval metadata) are modelled as `Nat`
  epoch seconds; `datetime.now()` becomes an explicit `now` parameter.
* `raise`/`try` is `Except String`; pydantic construction-time validation of a
  model with constrained fields is an explicit `Except`-valued smart
  constructor.
-/

/-! ## String primitives (models of the Python `str` operations used) -/

/-- Characters treated as whitespace by Python's `str.strip` (ASCII range). -/
def pyWS (c : Char) : Bool :=
  c = ' ' || c = '\t' || c = '\n' || c = '\r' || c = '\x0b' || c = '\x0c'

/-- Strip `pyWS` characters from both ends of a character list. -/
def trimCore (l : List Char) : List Char :=
  ((l.dropWhile pyWS).reverse.dropWhile pyWS).reverse

/-- Model of Python `s.strip()`. -/
def pyStrip (s : String) : String := ⟨trimCore s.data⟩

/-- Model of Python `s.lower()` (ASCII case folding). -/
def pyLower (s : String) : String := ⟨s.data.map Char.toLower⟩

/-- Number of code points of a string, Python's `len`. -/
def lenS (s : String) : Nat := s.data.length

/-- Drop the first `n` code points, Python's `s[n:]`. -/
def charDrop (n : Nat) (s : String) : String := ⟨s.data.drop n⟩

/-- Split a character list at every `'\n'` (Python `s.split("\n")`). -/
def linesCore : List Char → List (List Char)
  | [] => [[]]
  | c :: cs =>
    match linesCore cs with
    | [] => [[]]
    | l :: ls => if c = '\n' then [] :: l :: ls else (c :: l) :: ls

/-- Join character lists with `'\n'` (Python `"\n".join(...)`). -/
def joinCore : List (List Char) → List Char
  | [] => []
  | [l] => l
  | l :: ls => l ++ '\n' :: joinCore ls

/-- Python `s.split("\n")`. -/
def pySplitLines (s : String) : List String := (linesCore s.data).map String.mk

/-- Python `"\n".join(ls)`. -/
def pyJoinLines (ls : List String) : String := ⟨joinCore (ls.map String.data)⟩

/-- Is `p` a prefix of `l`? (`List.isPrefixOf`, which matches Python's
`startswith` semantics). -/
def isPrefixCore (p l : List Char) : Bool := List.isPrefixOf p l

/-- Python `s.startswith(p)`. -/
def hasPrefixS (p s : String) : Bool := isPrefixCore p.data s.data

/-- Split `l` around the first occurrence of `pat`:
`some (before, after)`, or `none` when `pat` does not occur. -/
def splitAtFirstCore (pat : List Char) : List Char → Option (List Char × List Char)
  | [] => if pat = [] then some ([], []) else none
  | c :: cs =>
    if isPrefixCore pat (c :: cs) then some ([], (c :: cs).drop pat.length)
    else
      match splitAtFirstCore pat cs with
      | some (pre, post) => some (c :: pre, post)
      | none => none

/-- Does `pat` occur in `s` (character-list level)? -/
def occursIn (pat s : List Char) : Bool := (splitAtFirstCore pat s).isSome

/-- Python `pat in s` (substring containment). -/
def containsS (s pat : String) : Bool := (splitAtFirstCore pat.data s.data).isSome

/-- The part of `s` after the first occurrence of `pat`, when `pat` occurs. -/
def afterFirstS (pat s : String) : Option String :=
  (splitAtFirstCore pat.data s.data).map fun pr => ⟨pr.2⟩

/-- Intercalate strings with a separator (Python `sep.join(ls)`). -/
def joinWith (sep : String) : List String → String
  | [] => ""
  | [l] => l
  | l :: ls => l ++ sep ++ joinWith sep ls

/-- Decidable equality of `Except` results (used to evaluate the codec and
flow functions on concrete inputs). -/
instance {ε α : Type} [DecidableEq ε] [DecidableEq α] : DecidableEq (Except ε α) :=
  fun x y =>
    match x, y with
    | .ok a, .ok b =>
      if h : a = b then isTrue (by rw [h])
      else isFalse fun hh => h (Except.ok.inj hh)
    | .error e, .error f =>
      if h : e = f then isTrue (by rw [h])
      else isFalse fun hh => h (Except.error.inj hh)
    | .ok _, .error _ => isFalse fun hh => Except.noConfusion hh
    | .error _, .ok _ => isFalse fun hh => Except.noConfusion hh

/-! ## Digits and dates -/

def digitChar (n : Nat) : Char := Char.ofNat (48 + n)

def isDigitC (c : Char) : Bool := 48 ≤ c.toNat && c.toNat ≤ 57

def digitVal (c : Char) : Nat := c.toNat - 48

/-- `%02d` for arguments in `[0, 99]` (all uses are bounds-checked). -/
def pad2 (n : Nat) : String := ⟨[digitChar (n / 10 % 10), digitChar (n % 10)]⟩

/-- `%04d` for arguments in `[0, 9999]` (all uses are bounds-checked). -/
def pad4 (n : Nat) : String :=
  ⟨[digitChar (n / 1000 % 10), digitChar (n / 100 % 10),
    digitChar (n / 10 % 10), digitChar (n % 10)]⟩

/-- `datetime.date`: a calendar date. -/
structure PyDate where
  year : Nat
  month : Nat
  day : Nat
deriving DecidableEq, Repr

/-- `due_date.strftime("%Y-%m-%d")` / `date.isoformat()`. -/
def PyDate.strftimeISO (d : PyDate) : String :=
  pad4 d.year ++ "-" ++ pad2 d.month ++ "-" ++ pad2 d.day

/-- Python `date` comparison (lexicographic on year, month, day). -/
def PyDate.ltB (a b : PyDate) : Bool :=
  a.year < b.year ||
    (a.year = b.year && (a.month < b.month ||
      (a.month = b.month && a.day < b.day)))

/-- Structural bounds guaranteed by Python `date` (day-in-month refinement
elided: no claim distinguishes e.g. Feb 30, which Python `date` cannot hold). -/
def dateValidB (y m d : Nat) : Bool :=
  1 ≤ y && y ≤ 9999 && 1 ≤ m && m ≤ 12 && 1 ≤ d && d ≤ 31

def PyDate.ValidB (d : PyDate) : Bool := dateValidB d.year d.month d.day

/-- Match a leading `\d{4}-\d{2}-\d{2}` pattern (no calendar validation):
the numeric fields and the remaining characters. -/
def matchDateCore : List Char → Option ((Nat × Nat × Nat) × List Char)
  | y1 :: y2 :: y3 :: y4 :: '-' :: m1 :: m2 :: '-' :: d1 :: d2 :: rest =>
    if (isDigitC y1 && isDigitC y2 && isDigitC y3 && isDigitC y4 &&
        isDigitC m1 && isDigitC m2 && isDigitC d1 && isDigitC d2) then
      let y := ((digitVal y1 * 10 + digitVal y2) * 10 + digitVal y3) * 10 + digitVal y4
      let m := digitVal m1 * 10 + digitVal m2
      let d := digitVal d1 * 10 + digitVal d2
      some ((y, m, d), rest)
    else none
  | _ => none

/-- The leading `\d{4}-\d{2}-\d{2}` characters themselves, when present
(the pattern is always exactly 10 characters long). -/
def matchDateDigits (l : List Char) : Option (List Char) :=
  match matchDateCore l with
  | some _ => some (l.take 10)
  | none => none

/-- `date.fromisoformat`: the whole string must be a valid `YYYY-MM-DD`. -/
def dateFromIso (s : String) : Option PyDate :=
  match matchDateCore s.data with
  | some ((y, m, d), []) => if dateValidB y m d then some ⟨y, m, d⟩ else none
  | _ => none

/-- A wall-clock timestamp with the fields the minutes layout renders
(plus seconds, which it does not). -/
structure PyDateTime where
  year : Nat
  month : Nat
  day : Nat
  hour : Nat
  minute : Nat
  second : Nat
deriving DecidableEq, Repr

/-- `dt.strftime("%Y-%m-%d %H:%M")` (seconds are not rendered). -/
def PyDateTime.strftimeMinute (t : PyDateTime) : String :=
  pad4 t.year ++ "-" ++ pad2 t.month ++ "-" ++ pad2 t.day ++ " " ++
    pad2 t.hour ++ ":" ++ pad2 t.minute

def PyDateTime.ValidB (t : PyDateTime) : Bool :=
  dateValidB t.year t.month t.day && t.hour ≤ 23 && t.minute ≤ 59 && t.second ≤ 59

/-- `datetime.strptime(s, "%Y-%m-%d %H:%M")` on the canonical zero-padded
form the formatter emits (the whole string must match; fields validated,
seconds default to 0). -/
def strptimeMinute (s : String) : Option PyDateTime :=
  match matchDateCore s.data with
  | some ((y, m, d), ' ' :: h1 :: h2 :: ':' :: n1 :: n2 :: []) =>
    if isDigitC h1 && isDigitC h2 && isDigitC n1 && isDigitC n2 then
      let h := digitVal h1 * 10 + digitVal h2
      let n := digitVal n1 * 10 + digitVal n2
      if dateValidB y m d && h ≤ 23 && n ≤ 59 then some ⟨y, m, d, h, n, 0⟩ else none
    else none
  | _ => none


/-! ## Data model (`src/agents/tools/task_models.py`)

Everything below lives in the `Agents` namespace, mirroring the `agents`
package (`Task` alone would clash with the Lean core type of that name). -/

namespace Agents

/-- `Priority(str, Enum)`. -/
inductive Priority
  | high
  | medium
  | low
deriving DecidableEq, Repr

/-- `.value` of the str-enum. -/
def Priority.value : Priority → String
  | .high => "high"
  | .medium => "medium"
  | .low => "low"

/-- `Task`.  `created_at` (never rendered by the codec and touched by no
claim) is omitted from the embedding; all other fields are carried. -/
structure Task where
  id : String
  title : String
  description : String
  assignee : Option String
  due_date : Option PyDate
  priority : Priority
  source_quote : String
deriving DecidableEq, Repr

instance : Inhabited Task :=
  ⟨⟨"", "", "", none, none, .medium, ""⟩⟩

/-- `TaskListStatus(str, Enum)`. -/
inductive TaskListStatus
  | pending
  | approved
  | revision_requested
  | cancelled
deriving DecidableEq, Repr

def TaskListStatus.value : TaskListStatus → String
  | .pending => "pending"
  | .approved => "approved"
  | .revision_requested => "revision_requested"
  | .cancelled => "cancelled"

/-- `TaskListStatus(s)`: the str-enum constructor, `ValueError` on other
strings (modelled as `none`). -/
def TaskListStatus.ofString (s : String) : Option TaskListStatus :=
  if s = "pending" then some .pending
  else if s = "approved" then some .approved
  else if s = "revision_requested" then some .revision_requested
  else if s = "cancelled" then some .cancelled
  else none

/-- Terminal statuses of a task batch (spec glossary: no legal outgoing
transition). -/
def TaskListStatus.isTerminal : TaskListStatus → Bool
  | .approved => true
  | .cancelled => true
  | _ => false

/-- `TaskList`.  `created_at`/`updated_at` are epoch-second timestamps. -/
structure TaskList where
  session_id : String
  minutes_id : String
  tasks : List Task
  status : TaskListStatus
  created_at : Nat
  updated_at : Nat
deriving DecidableEq, Repr

/-! ## Duplicate detector (`src/agents/tools/duplicate_detector.py`) -/

namespace DuplicateDetector

/-- `SIMILARITY_THRESHOLD = 0.8`. -/
def SIMILARITY_THRESHOLD : ℚ := 8 / 10

/-- Inner loop of `_levenshtein_distance`: one row of the DP table.
`prev` is `previous_row` starting at column `j`, `curLast` the last entry
appended to `current_row`. -/
def levInner (c1 : Char) : List Char → List Nat → Nat → List Nat
  | [], _, _ => []
  | _, [], _ => []
  | c2 :: rest, pj :: ptail, curLast =>
    let insertions := ptail.headD 0 + 1
    let deletions := curLast + 1
    let substitutions := pj + (if c1 = c2 then 0 else 1)
    let v := min insertions (min deletions substitutions)
    v :: levInner c1 rest ptail v

/-- Outer loop of `_levenshtein_distance` over the rows. -/
def levRows (s2 : List Char) : List Char → List Nat → Nat → Nat
  | [], prev, _ => prev.getLastD 0
  | c1 :: s1rest, prev, i =>
    levRows s2 s1rest ((i + 1) :: levInner c1 s2 prev (i + 1)) (i + 1)

/-- `DuplicateDetector._levenshtein_distance` (row-based DP; the initial
swap makes the second argument the shorter one). -/
def levenshtein_distance (s1 s2 : String) : Nat :=
  let a := if s1.data.length < s2.data.length then s2.data else s1.data
  let b := if s1.data.length < s2.data.length then s1.data else s2.data
  if b.length = 0 then a.length
  else levRows b a (List.range (b.length + 1)) 0

/-- `DuplicateDetector.calculate_similarity` (the merge engine's scorer).
Returns `0.0` when either input is empty, `1.0` on normalized equality,
otherwise `max 0 (1 - distance / max_len)`. -/
def calculate_similarity (title1 title2 : String) : ℚ :=
  if title1 = "" || title2 = "" then 0
  else
    let t1 := pyLower (pyStrip title1)
    let t2 := pyLower (pyStrip title2)
    if t1 = t2 then 1
    else
      let distance := levenshtein_distance t1 t2
      let max_len := max t1.data.length t2.data.length
      if max_len = 0 then 1
      else max 0 (1 - (distance : ℚ) / (max_len : ℚ))

/-- `tasks[i]` (indices produced by the scan are always in range). -/
def taskAt (tasks : List Task) (i : Nat) : Task := tasks.getD i default

/-- `DuplicateDetector.detect_duplicates`: the O(n²) first-match scan.
State: (accumulated `duplicates`, `processed` merged indices). -/
def detect_duplicates (tasks : List Task) : List (Nat × Nat) :=
  let n := tasks.length
  ((List.range n).foldl
    (fun (st : List (Nat × Nat) × List Nat) i =>
      if i ∈ st.2 then st
      else
        (List.range' (i + 1) (n - (i + 1))).foldl
          (fun st2 j =>
            if j ∈ st2.2 then st2
            else
              if SIMILARITY_THRESHOLD ≤
                  calculate_similarity (taskAt tasks i).title (taskAt tasks j).title then
                (st2.1 ++ [(i, j)], st2.2 ++ [j])
              else st2)
          st)
    ([], [])).1

/-- Python `task.assignee` truthiness (`None` and `""` are falsy). -/
def assigneeTruthy : Option String → Bool
  | none => false
  | some s => s ≠ ""

/-- Python `max(l, key)`: the first element with maximal key. -/
def pickMaxBy (key : Task → Nat) (h : Task) (t : List Task) : Task :=
  t.foldl (fun best x => if key best < key x then x else best) h

/-- `priority_order = {"high": 3, "medium": 2, "low": 1}` with `.get(…, 0)`. -/
def priority_order : Priority → Nat
  | .high => 3
  | .medium => 2
  | .low => 1

/-- The source-quote accumulation of `_merge_task_details`: trimmed quotes,
empty ones dropped, deduplicated by exact text, input order. -/
def collectQuotes (all_tasks : List Task) : List String :=
  (all_tasks.foldl
    (fun (st : List String × List String) t =>
      let quote := pyStrip t.source_quote
      if quote ≠ "" && quote ∉ st.2 then (st.1 ++ [quote], st.2 ++ [quote]) else st)
    ([], [])).1

/-- `DuplicateDetector._merge_task_details`. -/
def _merge_task_details (primary : Task) (others : List Task) : Task :=
  let all_tasks := primary :: others
  let most_detailed := pickMaxBy (fun t => t.description.data.length) primary others
  let merged := most_detailed
  let merged :=
    match all_tasks.find? (fun t => assigneeTruthy t.assignee) with
    | some t => { merged with assignee := t.assignee }
    | none => merged
  let dates := all_tasks.filterMap (·.due_date)
  let merged :=
    match dates with
    | [] => merged
    | d :: ds =>
      { merged with due_date := some (ds.foldl (fun m x => if PyDate.ltB x m then x else m) d) }
  let highest := pickMaxBy (fun t => priority_order t.priority) primary others
  let merged := { merged with priority := highest.priority }
  { merged with source_quote := joinWith "\n---\n" (collectQuotes all_tasks) }

/-- Association-map append (`merge_map[keep_idx].append(merge_idx)`). -/
def mapAppend : List (Nat × List Nat) → Nat → Nat → List (Nat × List Nat)
  | [], k, v => [(k, [v])]
  | (k0, vs) :: rest, k, v =>
    if k0 = k then (k0, vs ++ [v]) :: rest else (k0, vs) :: mapAppend rest k v

def mapLookup : List (Nat × List Nat) → Nat → Option (List Nat)
  | [], _ => none
  | (k0, vs) :: rest, k => if k0 = k then some vs else mapLookup rest k

/-- `DuplicateDetector.merge_duplicates`. -/
def merge_duplicates (tasks : List Task) : List Task :=
  if tasks.isEmpty then []
  else
    let duplicates := detect_duplicates tasks
    if duplicates.isEmpty then tasks
    else
      let merged_indices := duplicates.map (·.2)
      let merge_map := duplicates.foldl (fun m kv => mapAppend m kv.1 kv.2) []
      (List.range tasks.length).foldl
        (fun result i =>
          if i ∈ merged_indices then result
          else
            match mapLookup merge_map i with
            | some js => result ++ [_merge_task_details (taskAt tasks i) (js.map (taskAt tasks))]
            | none => result ++ [taskAt tasks i])
        []

end DuplicateDetector

/-- `Duplicate_Detector.calculate_similarity` (the GitHub-issue scorer):
empty-string conventions are decided before normalization; the non-empty
case delegates to `difflib.SequenceMatcher.ratio`, an external stdlib
function modelled as an explicit parameter. -/
def Duplicate_Detector.calculate_similarity
    (ratio : String → String → ℚ) (title1 title2 : String) : ℚ :=
  if title1 = "" && title2 = "" then 1
  else if title1 = "" || title2 = "" then 0
  else ratio (pyLower (pyStrip title1)) (pyLower (pyStrip title2))

/-! ## Task validator (`src/agents/tools/task_validator.py`)

The validator guards the boundary where field values may still be malformed
(its tests bypass pydantic and assign raw values), so its task type carries
`title`/`priority` as unconstrained strings and `due_date` as a runtime value
that is either an actual `date` or a string placeholder. -/

/-- A runtime `due_date` value: an actual `datetime.date` or something else
(the tests use a string placeholder); `isinstance(…, date)` accepts only the
former. -/
inductive DueVal
  | dateVal (d : PyDate)
  | strVal (s : String)
deriving DecidableEq, Repr

/-- A task as seen by the validator: unvalidated field values. -/
structure RawTask where
  id : String
  title : String
  description : String
  assignee : Option String
  due_date : Option DueVal
  priority : String
  source_quote : String
deriving DecidableEq, Repr

/-- A task list over raw tasks (input of `validate_and_filter`). -/
structure RawTaskList where
  session_id : String
  minutes_id : String
  tasks : List RawTask
  status : TaskListStatus
  created_at : Nat
  updated_at : Nat
deriving DecidableEq, Repr

namespace Task_Validator

def MAX_TITLE_LENGTH : Nat := 100

/-- `Task_Validator.validate_task`: raises `TaskValidationError`
(modelled as `Except.error`) on the first failing check. -/
def validate_task (task : RawTask) : Except String Unit :=
  if task.title = "" || pyStrip task.title = "" then
    .error "タイトルが空です"
  else if MAX_TITLE_LENGTH < task.title.data.length then
    .error "タイトルが100文字を超えています"
  else if !(task.priority = "high" || task.priority = "medium" || task.priority = "low") then
    .error "無効な優先度です"
  else
    match task.due_date with
    | some (.strVal _) => .error "無効な日付形式です"
    | _ => .ok ()

/-- The `for … try/except continue` loop of `validate_task_list`. -/
def validateTasksAux : List RawTask → List RawTask
  | [] => []
  | t :: rest =>
    match validate_task t with
    | .ok _ => t :: validateTasksAux rest
    | .error _ => validateTasksAux rest

/-- `Task_Validator.validate_task_list`. -/
def validate_task_list (task_list : RawTaskList) : List RawTask :=
  validateTasksAux task_list.tasks

/-- `Task_Validator.validate_and_filter`. -/
def validate_and_filter (task_list : RawTaskList) : RawTaskList :=
  { task_list with tasks := validate_task_list task_list }

end Task_Validator

/-! ## Task approval flow (`src/agents/tools/task_approval_flow.py`)

Side effects that leave this core (Slack Block Kit payloads, STM conversation
logging) are not modelled; `datetime.now()` is the explicit `now` argument. -/

namespace TaskApprovalFlow

/-- The dictionary returned by `handle_action`. -/
structure ActionResult where
  status : TaskListStatus
  message : String
  updated_at : Nat
  user_id : Option String
deriving DecidableEq, Repr

/-- `TaskApprovalFlow.handle_action`: maps the action id to a result; the
body never reads any stored state, so the outcome cannot depend on the
session's current status.  Unknown ids raise `ValueError`. -/
def handle_action (action_id : String) (session_id : String)
    (user_id : Option String) (now : Nat) : Except String ActionResult :=
  if action_id = "approve_tasks" then
    .ok ⟨.approved, "✅ タスクリストが承認されました。GitHub Issuesへの登録を準備します。", now, user_id⟩
  else if action_id = "request_task_revision" then
    .ok ⟨.revision_requested, "✏️ 修正内容を入力してください。", now, user_id⟩
  else if action_id = "cancel_tasks" then
    .ok ⟨.cancelled, "❌ タスクリストがキャンセルされました。", now, user_id⟩
  else
    .error ("Unknown action_id: " ++ action_id)

/-- `TaskApprovalFlow.delete_task`: `ValueError` when no task has the id,
otherwise a fresh `TaskList` with the matching tasks removed and
`updated_at = datetime.now()`. -/
def delete_task (task_list : TaskList) (task_id : String) (now : Nat) :
    Except String TaskList :=
  match task_list.tasks.find? (fun t => t.id = task_id) with
  | none => .error ("Task with id " ++ task_id ++ " not found")
  | some _ =>
    .ok ⟨task_list.session_id, task_list.minutes_id,
      task_list.tasks.filter (fun t => t.id ≠ task_id), task_list.status,
      task_list.created_at, now⟩

/-- `TaskApprovalFlow.add_task`: always succeeds, appends at the end. -/
def add_task (task_list : TaskList) (task : Task) (now : Nat) : TaskList :=
  ⟨task_list.session_id, task_list.minutes_id, task_list.tasks ++ [task],
    task_list.status, task_list.created_at, now⟩

/-- The DynamoDB item written by `save_pending_tasks` (`status` is stored
as its string value, as `put_item` serializes it). -/
structure TaskDbItem where
  session_id : String
  status : String
  created_at : Nat
  updated_at : Nat
  slack_message_ts : Option String
  slack_channel_id : Option String
  memory_blob_id : String
  expires_at : Nat
  task_count : Nat
deriving DecidableEq, Repr

/-- `TaskApprovalFlow.save_pending_tasks`: serializes the task list into the
memory store under a fresh blob id (serialization round-trip is the identity
at the model level) and puts the metadata item, with
`expires_at = now + timedelta(hours=24)`. -/
def save_pending_tasks (table : List (String × TaskDbItem))
    (memory : List (String × TaskList)) (blob_id : String) (session_id : String)
    (task_list : TaskList) (slack_channel_id slack_message_ts : Option String)
    (now : Nat) : List (String × TaskDbItem) × List (String × TaskList) :=
  let memory2 := (blob_id, task_list) :: memory
  let item : TaskDbItem :=
    ⟨session_id, task_list.status.value, now, now, slack_message_ts,
      slack_channel_id, blob_id, now + 24 * 60 * 60, task_list.tasks.length⟩
  ((session_id, item) :: table, memory2)

/-- `TaskApprovalFlow.get_pending_tasks`: metadata lookup, blob lookup,
deserialize.  The `now` argument is the wall clock at read time; the body
performs no clock read and never consults `expires_at`. -/
def get_pending_tasks (table : List (String × TaskDbItem))
    (memory : List (String × TaskList)) (session_id : String) (now : Nat) :
    Except String TaskList :=
  match table.lookup session_id with
  | none => .error ("No pending tasks found for session_id: " ++ session_id)
  | some item =>
    match memory.lookup item.memory_blob_id with
    | none => .error "Failed to get blob content from Memory"
    | some task_list => .ok task_list

end TaskApprovalFlow

/-! ## Minutes approval flow (`src/agents/tools/approval.py`,
`src/agents/models/approval.py`, `src/agents/models/minutes.py`) -/

/-- `ApprovalStatus(str, Enum)`. -/
inductive ApprovalStatus
  | pending
  | approved
  | revision_requested
  | expired
deriving DecidableEq, Repr

def ApprovalStatus.value : ApprovalStatus → String
  | .pending => "pending"
  | .approved => "approved"
  | .revision_requested => "revision_requested"
  | .expired => "expired"

def ApprovalStatus.ofString (s : String) : Option ApprovalStatus :=
  if s = "pending" then some .pending
  else if s = "approved" then some .approved
  else if s = "revision_requested" then some .revision_requested
  else if s = "expired" then some .expired
  else none

/-- Terminal statuses of a minutes record (spec glossary). -/
def ApprovalStatus.isTerminal : ApprovalStatus → Bool
  | .approved => true
  | .expired => true
  | _ => false

/-- `ActionItem` (pydantic: `description` has `min_length=1`; `due_date` is a
plain optional string). -/
structure ActionItem where
  description : String
  assignee : Option String
  due_date : Option String
  completed : Bool
deriving DecidableEq, Repr

/-- `Minutes` (pydantic: `title` and `discussion` have `min_length=1`). -/
structure Minutes where
  title : String
  date : PyDateTime
  participants : List String
  agenda : List String
  discussion : String
  decisions : List String
  action_items : List ActionItem
deriving DecidableEq, Repr

/-- `PendingMinutesRecord`. -/
structure PendingMinutesRecord where
  session_id : String
  status : ApprovalStatus
  created_at : Nat
  updated_at : Nat
  slack_message_ts : Option String
  slack_channel_id : Option String
  memory_blob_id : String
  revision_count : Nat
  expires_at : Nat
deriving DecidableEq, Repr

/-- `PendingMinutesBlob` (the minutes body is stored deserialized: pydantic
JSON round-trip is the identity at the model level). -/
structure PendingMinutesBlob where
  session_id : String
  minutes : Minutes
  source_transcript : String
  revision_history : List String
deriving DecidableEq, Repr

/-- The DynamoDB item written by `save_pending_minutes` (datetimes and the
status are stored serialized; the status as its string value). -/
structure MinutesDbItem where
  session_id : String
  status : String
  created_at : Nat
  updated_at : Nat
  slack_message_ts : Option String
  slack_channel_id : Option String
  memory_blob_id : String
  revision_count : Nat
  expires_at : Nat
deriving DecidableEq, Repr

namespace ApprovalFlow

/-- The dictionary returned by `ApprovalFlow.handle_action`. -/
structure MinutesActionResult where
  status : ApprovalStatus
  message : String
  updated_at : Nat
  user_id : Option String
deriving DecidableEq, Repr

/-- `ApprovalFlow.handle_action`: as for tasks, a pure map from the action
id, with no read of stored state. -/
def handle_action (action_id : String) (session_id : String)
    (user_id : Option String) (now : Nat) : Except String MinutesActionResult :=
  if action_id = "approve_minutes" then
    .ok ⟨.approved, "✅ 議事録が承認されました。S3に保存します。", now, user_id⟩
  else if action_id = "request_revision" then
    .ok ⟨.revision_requested, "✏️ 修正内容を入力してください。", now, user_id⟩
  else
    .error ("Unknown action_id: " ++ action_id)

/-- `ApprovalFlow.save_pending_minutes`: stores the blob and the metadata
item with `status = PENDING` and `expires_at = now + timedelta(hours=24)`. -/
def save_pending_minutes (table : List (String × MinutesDbItem))
    (memory : List (String × PendingMinutesBlob)) (blob_id : String)
    (session_id : String) (minutes : Minutes) (source_transcript : String)
    (slack_channel_id slack_message_ts : Option String) (now : Nat) :
    List (String × MinutesDbItem) × List (String × PendingMinutesBlob) :=
  let blob : PendingMinutesBlob := ⟨session_id, minutes, source_transcript, []⟩
  let memory2 := (blob_id, blob) :: memory
  let item : MinutesDbItem :=
    ⟨session_id, ApprovalStatus.pending.value, now, now, slack_message_ts,
      slack_channel_id, blob_id, 0, now + 24 * 60 * 60⟩
  ((session_id, item) :: table, memory2)

/-- `ApprovalFlow.get_pending_minutes`: metadata lookup, status
reconstruction with `ApprovalStatus(item["status"])`, blob lookup.  The
`now` argument is the wall clock at read time; the body performs no clock
read and never consults `expires_at`. -/
def get_pending_minutes (table : List (String × MinutesDbItem))
    (memory : List (String × PendingMinutesBlob)) (session_id : String)
    (now : Nat) : Except String (PendingMinutesRecord × Minutes) :=
  match table.lookup session_id with
  | none => .error ("No pending minutes found for session_id: " ++ session_id)
  | some item =>
    match ApprovalStatus.ofString item.status with
    | none => .error "invalid status value"
    | some st =>
      match memory.lookup item.memory_blob_id with
      | none => .error "Failed to get blob content from Memory"
      | some blob =>
        .ok (⟨item.session_id, st, item.created_at, item.updated_at,
          item.slack_message_ts, item.slack_channel_id, item.memory_blob_id,
          item.revision_count, item.expires_at⟩, blob.minutes)

end ApprovalFlow

/-! ## Task text codec (`src/agents/tools/task_formatter.py`)

`to_markdown` builds a list of lines and joins them with `"\n"`;
`from_markdown` strips and splits the string and scans the lines.  The
shared regex searches are modelled by the labelled-search functions below
(first-occurrence semantics; commentary at each function notes the one
regex behaviour that is narrowed, none of which is reachable from the
renderer's output). -/

/-- `re.search(label + r"\s*(.+)", markdown)` followed by `.group(1).strip()`:
after the first occurrence of `label`, skip whitespace (newlines included),
capture to the end of that line, strip.  `none` when the label is absent or
only whitespace follows it.  -/
def searchLabelValue (label : String) (markdown : String) : Option String :=
  match splitAtFirstCore label.data markdown.data with
  | none => none
  | some (_, after) =>
    let rest := after.dropWhile pyWS
    if rest.isEmpty then none
    else some (pyStrip ⟨rest.takeWhile (fun c => c ≠ '\n')⟩)

/-- `re.search(r"担当:\s*([^,]+)", content)`: capture after the first
`担当:` up to a comma.  (When the capture would be empty Python retries at
later occurrences; modelled as no match — indistinguishable on any input
whose labels occur once.) -/
def searchAssigneeComma (content : String) : Option String :=
  match splitAtFirstCore "担当:".data content.data with
  | none => none
  | some (_, after) =>
    let cap := (after.dropWhile pyWS).takeWhile (fun c => c ≠ ',')
    if cap.isEmpty then none else some (pyStrip ⟨cap⟩)

/-- `re.search(r"期限:\s*(\d{4}-\d{2}-\d{2})", content)` followed by
`date.fromisoformat` under `try/except: pass`: a date, or `none` both when
the pattern fails and when the date is invalid. -/
def searchDueDate (content : String) : Option PyDate :=
  match splitAtFirstCore "期限:".data content.data with
  | none => none
  | some (_, after) =>
    match matchDateDigits (after.dropWhile pyWS) with
    | some cs => dateFromIso ⟨cs⟩
    | none => none

namespace Task_Formatter

/-- `PRIORITY_ORDER` (sort key). -/
def PRIORITY_ORDER : Priority → Nat
  | .high => 0
  | .medium => 1
  | .low => 2

/-- `task.priority.value.upper()`. -/
def priorityUpper : Priority → String
  | .high => "HIGH"
  | .medium => "MEDIUM"
  | .low => "LOW"

/-- Python `sorted(tasks, key=PRIORITY_ORDER[…])`: a stable sort by the
priority key.  (`sorted` is stable; any stable sort with the same key
computes the same list, and insertion sort with a non-strict key
comparison is stable.) -/
def sortedByPriority (tasks : List Task) : List Task :=
  tasks.insertionSort (fun a b => PRIORITY_ORDER a.priority ≤ PRIORITY_ORDER b.priority)

/-- The lines appended for one task (checkbox line, optional detail line,
description, ID, quote, blank). -/
def renderTaskLines (task : Task) : List String :=
  ["- [ ] " ++ task.title]
  ++ (let details :=
        (match task.assignee with
         | some a => if a ≠ "" then ["担当: " ++ a] else []
         | none => [])
        ++ (match task.due_date with
            | some d => ["期限: " ++ d.strftimeISO]
            | none => [])
      if details.isEmpty then ([] : List String)
      else ["  - " ++ joinWith ", " details])
  ++ ["  - 説明: " ++ task.description,
      "  - ID: " ++ task.id,
      "  - 引用: " ++ task.source_quote,
      ""]

/-- The task section: a `## PRIORITY` heading whenever the priority differs
from the previous task's (`current_priority` starts as `None`). -/
def renderTasksGrouped : Option Priority → List Task → List String
  | _, [] => []
  | cur, t :: rest =>
    (if cur = some t.priority then ([] : List String)
     else ["## " ++ priorityUpper t.priority, ""])
    ++ renderTaskLines t ++ renderTasksGrouped (some t.priority) rest

/-- `Task_Formatter.to_markdown`, as the list of appended lines. -/
def to_markdown_lines (task_list : TaskList) : List String :=
  ["# タスクリスト", "",
   "- **Session ID**: " ++ task_list.session_id,
   "- **Minutes ID**: " ++ task_list.minutes_id,
   "- **Status**: " ++ task_list.status.value,
   ""]
  ++ (if task_list.tasks.isEmpty then ["タスクはありません。"]
      else renderTasksGrouped none (sortedByPriority task_list.tasks))

/-- `Task_Formatter.to_markdown`. -/
def to_markdown (task_list : TaskList) : String :=
  pyJoinLines (to_markdown_lines task_list)

/-- `re.match(r"^- \[ \] (.+)$", line.strip())` with `.group(1).strip()`. -/
def matchTaskLine (line : String) : Option String :=
  let s := pyStrip line
  if hasPrefixS "- [ ] " s then
    let rest := charDrop 6 s
    if rest.data.isEmpty then none else some (pyStrip rest)
  else none

/-- The inner-loop boundary test:
`detail_line.startswith("- [ ]") or detail_line.startswith("## ")`. -/
def isBoundaryLine (line : String) : Bool :=
  hasPrefixS "- [ ]" (pyStrip line) || hasPrefixS "## " (pyStrip line)

/-- The backward search for the nearest `## ` heading, carried forward:
`prev_line[3:].strip().lower()`, defaulting to `medium`. -/
def headingPriority (strippedLine : String) : Priority :=
  let w := pyLower (pyStrip (charDrop 3 strippedLine))
  if w = "high" then .high
  else if w = "medium" then .medium
  else if w = "low" then .low
  else .medium

/-- The per-task detail accumulator (`assignee`, `due_date`, `description`,
`task_id`, `source_quote`, all initially `None`). -/
structure DetailState where
  assignee : Option String
  due_date : Option PyDate
  description : Option String
  task_id : Option String
  source_quote : Option String
deriving DecidableEq, Repr

/-- One iteration of the detail loop: the `if "- "`-prefixed chain of the
source, in its order (担当+期限 / 担当 / 期限 / 説明 / ID / 引用). -/
def updateDetail (st : DetailState) (line : String) : DetailState :=
  let detail_line := pyStrip line
  if hasPrefixS "- " detail_line then
    let content := pyStrip (charDrop 2 detail_line)
    if containsS content "担当:" && containsS content "期限:" then
      let st2 :=
        match searchAssigneeComma content with
        | some a => { st with assignee := some a }
        | none => st
      match searchDueDate content with
      | some d => { st2 with due_date := some d }
      | none => st2
    else if containsS content "担当:" then
      match searchLabelValue "担当:" content with
      | some a => { st with assignee := some a }
      | none => st
    else if containsS content "期限:" then
      match searchDueDate content with
      | some d => { st with due_date := some d }
      | none => st
    else if hasPrefixS "説明:" content then
      { st with description := some (pyStrip (charDrop 3 content)) }
    else if hasPrefixS "ID:" content then
      { st with task_id := some (pyStrip (charDrop 3 content)) }
    else if hasPrefixS "引用:" content then
      { st with source_quote := some (pyStrip (charDrop 3 content)) }
    else st
  else st

/-- pydantic validation of `Task(id=…, title=…, …)` as called by
`from_markdown`: an explicit `None` id is rejected (`id: str` has a
`default_factory`, which explicit `None` does not trigger), `title` must
have length 1–100, `description` and `source_quote` length ≥ 1. -/
def mkTask (task_id : Option String) (title description : String)
    (assignee : Option String) (due_date : Option PyDate) (priority : Priority)
    (source_quote : String) : Except String Task :=
  match task_id with
  | none => .error "ValidationError: id: Input should be a valid string"
  | some i =>
    if title.data.length = 0 || 100 < title.data.length then
      .error "ValidationError: title length not in 1..100"
    else if description.data.length = 0 then
      .error "ValidationError: description too short"
    else if source_quote.data.length = 0 then
      .error "ValidationError: source_quote too short"
    else .ok ⟨i, title, description, assignee, due_date, priority, source_quote⟩

/-- Finalizing one checkbox item at the end of its detail span: the task
is constructed only when description and quote are truthy (otherwise the
item is silently dropped); construction errors propagate. -/
def finalizeTask (cur : Priority) (title : String) (st : DetailState) :
    Except String (Option Task) :=
  let descT := match st.description with | some d => d ≠ "" | none => false
  let quoteT := match st.source_quote with | some q => q ≠ "" | none => false
  if descT && quoteT then
    let tid :=
      match st.task_id with
      | some s => if s ≠ "" then some s else none
      | none => none
    match mkTask tid title (st.description.getD "") st.assignee st.due_date cur
        (st.source_quote.getD "") with
    | .error e => .error e
    | .ok t => .ok (some t)
  else .ok none

/-- Prepend a finalized item to the remaining parse. -/
def consParsed (ot : Option Task) : Except String (List Task) → Except String (List Task)
  | .error e => .error e
  | .ok ts =>
    match ot with
    | none => .ok ts
    | some t => .ok (t :: ts)

/-- The scanning loop of `from_markdown` as the state machine the Python
`while` loop implements: the second argument is the checkbox item whose
detail lines are currently being collected (`None` at the outer level).
Headings update the current priority; a boundary line (`- [ ]` or `## `)
ends the open item's detail span, finalizes it, and is reprocessed as the
outer loop does after its `i -= 1` adjustment. -/
def parseLoop : Priority → Option (String × DetailState) → List String →
    Except String (List Task)
  | _, none, [] => .ok []
  | cur, some (title, st), [] =>
    (match finalizeTask cur title st with
     | .error e => .error e
     | .ok none => .ok []
     | .ok (some t) => .ok [t])
  | cur, none, l :: rest =>
    if hasPrefixS "## " (pyStrip l) then
      parseLoop (headingPriority (pyStrip l)) none rest
    else
      match matchTaskLine l with
      | some title => parseLoop cur (some (title, ⟨none, none, none, none, none⟩)) rest
      | none => parseLoop cur none rest
  | cur, some (title, st), l :: rest =>
    if isBoundaryLine l then
      match finalizeTask cur title st with
      | .error e => .error e
      | .ok ot =>
        if hasPrefixS "## " (pyStrip l) then
          consParsed ot (parseLoop (headingPriority (pyStrip l)) none rest)
        else
          match matchTaskLine l with
          | some title2 =>
            consParsed ot (parseLoop cur (some (title2, ⟨none, none, none, none, none⟩)) rest)
          | none => consParsed ot (parseLoop cur none rest)
    else parseLoop cur (some (title, updateDetail st l)) rest

/-- `Task_Formatter.from_markdown`.  `created_at`/`updated_at` of the result
are construction-time defaults (modelled as 0; no claim touches them). -/
def from_markdown (markdown : String) : Except String TaskList :=
  let lines := pySplitLines (pyStrip markdown)
  match searchLabelValue "**Session ID**:" markdown with
  | none => .error "Session IDが見つかりません"
  | some session_id =>
    match searchLabelValue "**Minutes ID**:" markdown with
    | none => .error "Minutes IDが見つかりません"
    | some minutes_id =>
      match searchLabelValue "**Status**:" markdown with
      | none => .error "Statusが見つかりません"
      | some status_str =>
        match TaskListStatus.ofString status_str with
        | none => .error ("無効なステータス: " ++ status_str)
        | some status =>
          match parseLoop .medium none lines with
          | .error e => .error e
          | .ok tasks => .ok ⟨session_id, minutes_id, tasks, status, 0, 0⟩

end Task_Formatter

/-! ## Minutes text codec (`src/agents/tools/formatter.py`) -/

namespace MinutesFormatter

/-- The line appended for one action item. -/
def renderActionItem (action : ActionItem) : String :=
  let checkbox := if action.completed then "[x]" else "[ ]"
  let base := "- " ++ checkbox ++ " " ++ action.description
  let details :=
    (match action.assignee with
     | some a => if a ≠ "" then ["担当: " ++ a] else []
     | none => [])
    ++ (match action.due_date with
        | some d => if d ≠ "" then ["期限: " ++ d] else []
        | none => [])
  if details.isEmpty then base
  else base ++ " (" ++ joinWith ", " details ++ ")"

/-- `MinutesFormatter.to_markdown`, as the list of appended lines (empty
lists render their explicit `不明`/`なし` markers). -/
def to_markdown_lines (minutes : Minutes) : List String :=
  ["# " ++ minutes.title, "", "## 日時", minutes.date.strftimeMinute, "", "## 参加者"]
  ++ (if minutes.participants.isEmpty then ["不明"]
      else minutes.participants.map (fun p => "- " ++ p))
  ++ ["", "## 議題"]
  ++ (if minutes.agenda.isEmpty then ["なし"]
      else minutes.agenda.map (fun a => "- " ++ a))
  ++ ["", "## 議論内容", minutes.discussion, "", "## 決定事項"]
  ++ (if minutes.decisions.isEmpty then ["なし"]
      else minutes.decisions.map (fun d => "- " ++ d))
  ++ ["", "## アクションアイテム"]
  ++ (if minutes.action_items.isEmpty then ["なし"]
      else minutes.action_items.map renderActionItem)
  ++ [""]

/-- `MinutesFormatter.to_markdown`. -/
def to_markdown (minutes : Minutes) : String :=
  pyJoinLines (to_markdown_lines minutes)

/-- `re.search(r"^# (.+)$", markdown, re.MULTILINE)` with
`.group(1).strip()`: the first line starting with `# ` and non-empty after
it. -/
def searchTitleAux : List String → Option String
  | [] => none
  | l :: rest =>
    if hasPrefixS "# " l && !(charDrop 2 l).data.isEmpty then
      some (pyStrip (charDrop 2 l))
    else searchTitleAux rest

def searchTitle (markdown : String) : Option String :=
  searchTitleAux (pySplitLines markdown)

/-- Does this raw line match `^## {name}\s*\n` up to its newline?
(`name` followed by only whitespace). -/
def isHeadingLine (name l : String) : Bool :=
  hasPrefixS ("## " ++ name) l &&
    ((charDrop (3 + name.data.length) l).data.all pyWS)

/-- The raw lines of the section after the first `## name` heading line, up
to the next line starting `## ` (the `(?=^## |\Z)` lookahead).  The heading
must be followed by a newline, i.e. must not be the last raw line. -/
def sectionLinesAux (name : String) : List String → Option (List String)
  | [] => none
  | l :: rest =>
    if isHeadingLine name l && !rest.isEmpty then
      some (rest.takeWhile (fun x => !(hasPrefixS "## " x)))
    else sectionLinesAux name rest

/-- `extract_section(name)`: the matched block, stripped; `""` when the
heading is missing (both "no match" and "empty section" give `""`, exactly
as in the source). -/
def extract_section (name : String) (markdown : String) : String :=
  match sectionLinesAux name (pySplitLines markdown) with
  | none => ""
  | some ls => pyStrip (pyJoinLines ls)

/-- The per-line bullet harvest of the list sections. -/
def parseBulletItems (content : String) : List String :=
  (pySplitLines content).filterMap fun l =>
    let s := pyStrip l
    if hasPrefixS "- " s then some (pyStrip (charDrop 2 s)) else none

/-- `re.match(r"^- \[([ x])\] (.+)$", line)`:
completed flag and the non-empty rest, stripped. -/
def matchCheckbox (s : String) : Option (Bool × String) :=
  match s.data with
  | '-' :: ' ' :: '[' :: c :: ']' :: ' ' :: rest =>
    if (c = ' ' || c = 'x') && !rest.isEmpty then some (c = 'x', pyStrip ⟨rest⟩)
    else none
  | _ => none

/-- `re.search(r"\((.+)\)$", rest)`: succeeds when the final character is
`)` and at least one character separates it from the first `(`; yields
`(rest[:start].strip(), group(1))`. -/
def splitDetailsParen (rest : String) : Option (String × String) :=
  if rest.data.getLast? = some ')' then
    match splitAtFirstCore ['('] rest.data with
    | some (before, after) =>
      if 2 ≤ after.length then some (pyStrip ⟨before⟩, ⟨after.dropLast⟩)
      else none
    | none => none
  else none

/-- `re.search(r"担当:\s*([^,)]+)", details)` with `.group(1).strip()`. -/
def searchAssigneeParen (details : String) : Option String :=
  match splitAtFirstCore "担当:".data details.data with
  | none => none
  | some (_, after) =>
    let cap := (after.dropWhile pyWS).takeWhile (fun c => c ≠ ',' && c ≠ ')')
    if cap.isEmpty then none else some (pyStrip ⟨cap⟩)

/-- `re.search(r"期限:\s*(\d{4}-\d{2}-\d{2})", details)` with
`.group(1).strip()`: the matched characters as a string (`ActionItem`'s
`due_date` is a plain string; no calendar validation here). -/
def searchDueStr (details : String) : Option String :=
  match splitAtFirstCore "期限:".data details.data with
  | none => none
  | some (_, after) =>
    (matchDateDigits (after.dropWhile pyWS)).map fun cs => pyStrip ⟨cs⟩

/-- The action-item loop: non-checkbox lines are skipped; pydantic rejects
an empty description (`min_length=1`) and that error propagates. -/
def parseActionItemsAux : List String → Except String (List ActionItem)
  | [] => .ok []
  | l :: rest =>
    match matchCheckbox (pyStrip l) with
    | none => parseActionItemsAux rest
    | some (completed, r) =>
      let parts :=
        match splitDetailsParen r with
        | some (desc, details) =>
          (desc, searchAssigneeParen details, searchDueStr details)
        | none => (r, none, none)
      if parts.1 = "" then .error "ValidationError: description too short"
      else
        match parseActionItemsAux rest with
        | .error e => .error e
        | .ok more => .ok (⟨parts.1, parts.2.1, parts.2.2, completed⟩ :: more)

/-- `MinutesFormatter.from_markdown`. -/
def from_markdown (markdown : String) : Except String Minutes :=
  match searchTitle markdown with
  | none => .error "タイトル（H1見出し）が見つかりません"
  | some title =>
    let date_str := extract_section "日時" markdown
    if date_str = "" then .error "日時セクションが見つかりません"
    else
      match strptimeMinute (pyStrip date_str) with
      | none => .error ("日時のパースに失敗しました: " ++ date_str)
      | some date =>
        let participants_str := extract_section "参加者" markdown
        let participants :=
          if participants_str ≠ "" && participants_str ≠ "不明" then
            parseBulletItems participants_str
          else []
        let agenda_str := extract_section "議題" markdown
        let agenda :=
          if agenda_str ≠ "" && agenda_str ≠ "なし" then parseBulletItems agenda_str
          else []
        let discussion := extract_section "議論内容" markdown
        if discussion = "" then .error "議論内容セクションが見つかりません"
        else
          let decisions_str := extract_section "決定事項" markdown
          let decisions :=
            if decisions_str ≠ "" && decisions_str ≠ "なし" then
              parseBulletItems decisions_str
            else []
          let ai_str := extract_section "アクションアイテム" markdown
          let aiResult :=
            if ai_str ≠ "" && ai_str ≠ "なし" then
              parseActionItemsAux (pySplitLines ai_str)
            else .ok []
          match aiResult with
          | .error e => .error e
          | .ok action_items =>
            if title = "" then .error "ValidationError: title too short"
            else .ok ⟨title, date, participants, agenda, discussion, decisions, action_items⟩

end MinutesFormatter

/-! ## Specification-side definitions and concrete instances used by the
theorems -/

/-- The structural checks of §4.3, as the spec words them: title non-blank
after trim, title length at most 100, priority in the closed set, due date
(when present) an actual date value. -/
def passesChecks (t : RawTask) : Bool :=
  !(t.title = "" || pyStrip t.title = "") &&
  t.title.data.length ≤ 100 &&
  (t.priority = "high" || t.priority = "medium" || t.priority = "low") &&
  (match t.due_date with
   | some (.strVal _) => false
   | _ => true)

/-- The spec's merged-source-quote rule (§4.2 rule 5): all quotes trimmed,
empty ones dropped, deduplicated by exact text, in input order. -/
def distinctQuotesAux (seen : List String) : List String → List String
  | [] => []
  | q :: qs =>
    let q2 := pyStrip q
    if q2 ≠ "" ∧ q2 ∉ seen then q2 :: distinctQuotesAux (q2 :: seen) qs
    else distinctQuotesAux seen qs

def distinctQuotes (qs : List String) : List String := distinctQuotesAux [] qs

/-- §8's merge tie-break example, first task. -/
def shipTask1 : Task := ⟨"t1", "Ship API", "short", none, none, .medium, "quote one"⟩

/-- §8's merge tie-break example, second task. -/
def shipTask2 : Task :=
  ⟨"t2", "ship api", "much longer description text here", some "Dana", none, .high, "quote two"⟩

/-- §8's expected merge result: the longest description wins (and with it
the surviving task's identity), Dana is the first non-empty assignee, the
priority is the highest, and the source quotes are joined by the delimiter
line. -/
def shipMerged : Task :=
  ⟨"t2", "ship api", "much longer description text here", some "Dana", none, .high,
    "quote one\n---\nquote two"⟩

/-- Three tasks whose first two titles are similar (edit distance 1 of 8),
the third similar to the second but not to the first; the second carries the
longest description, so the merged survivor adopts its title. -/
def chainTasks : List Task :=
  [⟨"i0", "aaaaaaaa", "d0", none, none, .medium, "q0"⟩,
   ⟨"i1", "aaaaaaab", "d111", none, none, .medium, "q1"⟩,
   ⟨"i2", "aaaaaabb", "x", none, none, .medium, "q2"⟩]

/-- A minimal valid minutes record. -/
def tinyMinutes : Minutes := ⟨"T", ⟨2024, 1, 1, 0, 0, 0⟩, [], [], "D", [], []⟩

/-- A pending empty task batch. -/
def pendingBatch : TaskList := ⟨"s1", "m1", [], .pending, 0, 0⟩

/-- A one-task batch already in the terminal `approved` status. -/
def terminalBatch : TaskList :=
  ⟨"s", "m", [⟨"t1", "T", "D", none, none, .medium, "Q"⟩], .approved, 1, 1⟩

/-- §8's validator example: three tasks, the middle one with a 101-character
title. -/
def batchWith101 : RawTaskList :=
  ⟨"s", "m",
   [⟨"1", "Task one", "d", none, none, "high", "q"⟩,
    ⟨"2", ⟨List.replicate 101 'a'⟩, "d", none, none, "medium", "q"⟩,
    ⟨"3", "Task three", "d", none, none, "low", "q"⟩],
   .pending, 0, 0⟩

/-! ### Cleanliness: the domain on which the text layout is injective

The layout writes raw field text into labelled single-line slots and parses
it back with first-occurrence substring searches.  A field value that is
multi-line, untrimmed, or that contains one of the layout's own labels or
delimiters changes the line structure and is not recovered (the C3
counterexamples below exhibit this).  `clean*` below captures the fields the
round-trip law actually holds for. -/

/-- A general text field: non-empty, trimmed, single-line, free of the
detail labels the parser's containment checks react to. -/
def cleanField (s : String) : Bool :=
  s ≠ "" && pyStrip s = s && !(s.data.contains '\n') &&
  !(containsS s "担当:") && !(containsS s "期限:")

/-- The session id may not contain the metadata labels searched after it. -/
def cleanSessionId (s : String) : Bool :=
  s ≠ "" && pyStrip s = s && !(s.data.contains '\n') &&
  !(containsS s "**Minutes ID**:") && !(containsS s "**Status**:")

/-- The minutes id may not contain the status label searched after it. -/
def cleanMinutesId (s : String) : Bool :=
  s ≠ "" && pyStrip s = s && !(s.data.contains '\n') &&
  !(containsS s "**Status**:")

/-- A due date as the task layout renders and re-parses it (year bounded
below by 1000 so that `%Y` zero-padding is unambiguous). -/
def cleanDue (d : PyDate) : Bool := d.ValidB && 1000 ≤ d.year

def cleanTask (t : Task) : Bool :=
  cleanField t.id && cleanField t.title && t.title.data.length ≤ 100 &&
  cleanField t.description && cleanField t.source_quote &&
  (match t.assignee with
   | none => true
   | some a => cleanField a && !(a.data.contains ','))  &&
  (match t.due_date with
   | none => true
   | some d => cleanDue d)

/-- Tasks already listed in priority order (`to_markdown` sorts before
rendering; a batch in any other order is re-ordered by the codec). -/
def prioritySorted : List Task → Bool
  | [] => true
  | [_] => true
  | a :: b :: r =>
    Task_Formatter.PRIORITY_ORDER a.priority ≤ Task_Formatter.PRIORITY_ORDER b.priority &&
      prioritySorted (b :: r)

def cleanTaskList (tl : TaskList) : Bool :=
  cleanSessionId tl.session_id && cleanMinutesId tl.minutes_id &&
  tl.tasks.all cleanTask && prioritySorted tl.tasks

/-- A list-section item (participant, agenda entry, decision). -/
def cleanItem (s : String) : Bool :=
  s ≠ "" && pyStrip s = s && !(s.data.contains '\n')

/-- An action-item description: additionally free of `(` (the detail-group
delimiter searched from the left). -/
def cleanActionDesc (s : String) : Bool :=
  cleanItem s && !(s.data.contains '(')

/-- An action-item assignee: fits in the `([^,)]+)` capture and does not
contain the due label searched after it. -/
def cleanActionAssignee (s : String) : Bool :=
  cleanItem s && !(s.data.contains ',') && !(s.data.contains ')') &&
  !(containsS s "期限:")

/-- An action-item due date string: exactly the `\d{4}-\d{2}-\d{2}` shape
the parser's capture recognizes (it is a plain string field; no calendar
check applies). -/
def cleanActionDue (s : String) : Bool :=
  match matchDateCore s.data with
  | some (_, []) => true
  | _ => false

def cleanActionItem (a : ActionItem) : Bool :=
  cleanActionDesc a.description &&
  (match a.assignee with
   | none => true
   | some x => cleanActionAssignee x) &&
  (match a.due_date with
   | none => true
   | some d => cleanActionDue d)

/-- The minutes title: single-line, trimmed, non-empty. -/
def cleanTitle (s : String) : Bool :=
  s ≠ "" && pyStrip s = s && !(s.data.contains '\n')

/-- The minutes discussion: single-line, trimmed, non-empty, and not
shaped like a section heading. -/
def cleanDiscussion (s : String) : Bool :=
  cleanItem s && !(hasPrefixS "## " s)

def cleanMinutes (m : Minutes) : Bool :=
  cleanTitle m.title &&
  m.date.ValidB && 1000 ≤ m.date.year && m.date.second = 0 &&
  m.participants.all cleanItem && m.agenda.all cleanItem &&
  cleanDiscussion m.discussion && m.decisions.all cleanItem &&
  m.action_items.all cleanActionItem

/-- The detail state the scanner accumulates over one rendered task's
detail lines (assignee and due date only when rendered). -/
def stFull (t : Task) : Task_Formatter.DetailState :=
  ⟨t.assignee, t.due_date, some t.description, some t.id, some t.source_quote⟩

/-- `renderTaskLines` without its trailing blank line. -/
def renderTaskLinesInit (task : Task) : List String :=
  ["- [ ] " ++ task.title]
  ++ (let details :=
        (match task.assignee with
         | some a => if a ≠ "" then ["担当: " ++ a] else []
         | none => [])
        ++ (match task.due_date with
            | some d => ["期限: " ++ d.strftimeISO]
            | none => [])
      if details.isEmpty then ([] : List String)
      else ["  - " ++ joinWith ", " details])
  ++ ["  - 説明: " ++ task.description,
      "  - ID: " ++ task.id,
      "  - 引用: " ++ task.source_quote]

/-- The grouped task section without the final blank line. -/
def renderTasksGroupedInit : Option Priority → List Task → List String
  | _, [] => []
  | cur, [t] =>
    (if cur = some t.priority then ([] : List String)
     else ["## " ++ Task_Formatter.priorityUpper t.priority, ""])
    ++ renderTaskLinesInit t
  | cur, t :: t2 :: rest =>
    (if cur = some t.priority then ([] : List String)
     else ["## " ++ Task_Formatter.priorityUpper t.priority, ""])
    ++ Task_Formatter.renderTaskLines t ++ renderTasksGroupedInit (some t.priority) (t2 :: rest)

/-- C3's counterexample batch: one valid task whose description contains
the parser's detail labels. -/
def dirtyBatch : TaskList :=
  ⟨"s", "m", [⟨"id1", "T", "see 担当: and 期限: markers", none, none, .medium, "q"⟩],
    .pending, 0, 0⟩

/-- A representative clean batch exercising every layout feature (assignee,
due date, two priority groups). -/
def richBatch : TaskList :=
  ⟨"sess-1", "min-1",
   [⟨"id-a", "Task A", "desc A", some "Alice", some ⟨2024, 3, 5⟩, .high, "quote A"⟩,
    ⟨"id-b", "Task B", "desc B", none, none, .medium, "quote B"⟩],
   .pending, 0, 0⟩

/-- A representative clean minutes record exercising every layout feature. -/
def richMinutes : Minutes :=
  ⟨"Weekly Sync", ⟨2024, 3, 5, 9, 30, 0⟩, ["Alice", "Bob"], ["topic1"],
   "We discussed things.", ["decision one"],
   [⟨"do the thing", some "Alice", some "2024-03-09", false⟩,
    ⟨"other thing", none, none, true⟩]⟩

/-- C9's failing input: valid metadata, one checkbox item carrying 説明 and
引用 sub-bullets but no ID sub-bullet. -/
def missingIdMarkdown : String :=
  pyJoinLines ["# タスクリスト", "",
    "- **Session ID**: s1", "- **Minutes ID**: m1", "- **Status**: pending", "",
    "## HIGH", "", "- [ ] Some task", "  - 説明: a description", "  - 引用: a quote", ""]

/-- The same item with an ID sub-bullet parses fine. -/
def withIdMarkdown : String :=
  pyJoinLines ["# タスクリスト", "",
    "- **Session ID**: s1", "- **Minutes ID**: m1", "- **Status**: pending", "",
    "## HIGH", "", "- [ ] Some task", "  - 説明: a description", "  - ID: x1",
    "  - 引用: a quote", ""]

/-- An item whose sub-bullets lack 説明 is silently dropped. -/
def missingDescMarkdown : String :=
  pyJoinLines ["# タスクリスト", "",
    "- **Session ID**: s1", "- **Minutes ID**: m1", "- **Status**: pending", "",
    "- [ ] Some task", "  - ID: x1", "  - 引用: a quote", ""]

end Agents

namespace Agents

/-! ### Sanity examples for the primitives -/

example : pyStrip "  ab c  " = "ab c" := by decide
example : pySplitLines "a\nb" = ["a", "b"] := by decide
example : containsS "- **Session ID**: x" "**Session ID**:" = true := by decide
example : afterFirstS "ID**:" "- **Session ID**: x" = some " x" := by decide
example : strptimeMinute "2024-03-05 09:30" = some ⟨2024, 3, 5, 9, 30, 0⟩ := by decide
example : PyDate.strftimeISO ⟨2024, 3, 5⟩ = "2024-03-05" := by decide
example : DuplicateDetector.levenshtein_distance "kitten" "sitting" = 3 := by decide
example : DuplicateDetector.calculate_similarity "aaaaaaaa" "aaaaaaab" = 7 / 8 := by
  with_unfolding_all decide
example : DuplicateDetector.calculate_similarity "Ship API" "ship api" = 1 := by
  with_unfolding_all decide
example : DuplicateDetector.calculate_similarity "" "" = 0 := by with_unfolding_all decide

/-! ## C1 — lifecycle actions and terminal states -/

/-- C1 (counterexample).  The claim asserts that on a session whose status
is terminal every action fails with `LifecycleError`.  `handle_action`
receives only the action id and the session id and never reads the stored
status (no `LifecycleError` exists anywhere in the code), so the very same
call that is made while the stored status is terminal succeeds: approving
again after an approval (or after a cancellation) returns `approved`. -/
theorem approve_from_terminal_succeeds :
    TaskListStatus.isTerminal .approved = true ∧
    TaskListStatus.isTerminal .cancelled = true ∧
    (TaskApprovalFlow.handle_action "approve_tasks" "sess-1" none 7).isOk = true ∧
    (ApprovalFlow.handle_action "approve_minutes" "sess-1" none 7).isOk = true := by
  decide

/-- C1 (amended).  `handle_action` maps an action id to its result
independently of any session state: `approve_tasks ↦ approved`,
`request_task_revision ↦ revision_requested`, `cancel_tasks ↦ cancelled`
(and `approve_minutes ↦ approved`, `request_revision ↦ revision_requested`
for the minutes flow), with `updated_at = now`; every other action id
raises `ValueError` (never a `LifecycleError`, which the code does not
define), and no code path consults the current status. -/
theorem handle_action_is_status_blind :
    ∀ (sid : String) (uid : Option String) (now : Nat),
      ((TaskApprovalFlow.handle_action "approve_tasks" sid uid now).toOption.map
          (fun r => (r.status, r.updated_at)) = some (.approved, now)) ∧
      ((TaskApprovalFlow.handle_action "request_task_revision" sid uid now).toOption.map
          (fun r => (r.status, r.updated_at)) = some (.revision_requested, now)) ∧
      ((TaskApprovalFlow.handle_action "cancel_tasks" sid uid now).toOption.map
          (fun r => (r.status, r.updated_at)) = some (.cancelled, now)) ∧
      (∀ a, a ≠ "approve_tasks" → a ≠ "request_task_revision" → a ≠ "cancel_tasks" →
        ∃ e, TaskApprovalFlow.handle_action a sid uid now = .error e) ∧
      ((ApprovalFlow.handle_action "approve_minutes" sid uid now).toOption.map
          (fun r => (r.status, r.updated_at)) = some (.approved, now)) ∧
      ((ApprovalFlow.handle_action "request_revision" sid uid now).toOption.map
          (fun r => (r.status, r.updated_at)) = some (.revision_requested, now)) ∧
      (∀ a, a ≠ "approve_minutes" → a ≠ "request_revision" →
        ∃ e, ApprovalFlow.handle_action a sid uid now = .error e) := by
  intro sid uid now
  refine ⟨rfl, rfl, rfl, ?_, rfl, rfl, ?_⟩
  · intro a h1 h2 h3
    refine ⟨"Unknown action_id: " ++ a, ?_⟩
    simp [TaskApprovalFlow.handle_action, h1, h2, h3]
  · intro a h1 h2
    refine ⟨"Unknown action_id: " ++ a, ?_⟩
    simp [ApprovalFlow.handle_action, h1, h2]

/-- C1 (witness for `handle_action_is_status_blind`). -/
theorem handle_action_is_status_blind_witness :
    ∃ e, TaskApprovalFlow.handle_action "frobnicate" "sess-1" none 7 = .error e :=
  ((handle_action_is_status_blind "sess-1" none 7).2.2.2.1 "frobnicate"
    (by decide) (by decide) (by decide))

/-! ## C2 — expiry is never evaluated on read -/

/-- C2 (counterexample).  A record saved at time 0 gets
`expires_at = 86400`; reading it at time 100000 (well past expiry) returns
the stored `pending` status — for the minutes store and the task store
alike — instead of reporting `expired`. -/
theorem expired_read_serves_stale_pending :
    ((ApprovalFlow.save_pending_minutes [] [] "b1" "s1" tinyMinutes "tr" none none 0).1.lookup
        "s1").map MinutesDbItem.expires_at = some 86400 ∧
    (86400 < 100000) ∧
    ((ApprovalFlow.get_pending_minutes
        (ApprovalFlow.save_pending_minutes [] [] "b1" "s1" tinyMinutes "tr" none none 0).1
        (ApprovalFlow.save_pending_minutes [] [] "b1" "s1" tinyMinutes "tr" none none 0).2
        "s1" 100000).toOption.map (fun rm => rm.1.status) = some .pending) ∧
    ApprovalStatus.pending ≠ ApprovalStatus.expired ∧
    ((TaskApprovalFlow.get_pending_tasks
        (TaskApprovalFlow.save_pending_tasks [] [] "b1" "s1" pendingBatch none none 0).1
        (TaskApprovalFlow.save_pending_tasks [] [] "b1" "s1" pendingBatch none none 0).2
        "s1" 100000).toOption.map TaskList.status = some .pending) := by
  decide

/-- C2 (amended).  Reads return exactly what was stored: the result of
`get_pending_minutes`/`get_pending_tasks` is independent of the read-time
clock, the reported status is the stored status (never rewritten to
`expired`; the task-batch status vocabulary does not even contain
`expired`), and `save_pending_*` fixes `expires_at = now + 24h` — the field
is stored but never evaluated on read. -/
theorem get_pending_serves_stored_status :
    ∀ (table : List (String × MinutesDbItem)) (memory : List (String × PendingMinutesBlob))
      (sid : String) (now now2 : Nat),
      (ApprovalFlow.get_pending_minutes table memory sid now =
        ApprovalFlow.get_pending_minutes table memory sid now2) ∧
      (∀ rec m, ApprovalFlow.get_pending_minutes table memory sid now = .ok (rec, m) →
        ∃ item, table.lookup sid = some item ∧
          ApprovalStatus.ofString item.status = some rec.status ∧
          rec.expires_at = item.expires_at) ∧
      (∀ (ttable : List (String × TaskApprovalFlow.TaskDbItem))
          (tmemory : List (String × TaskList)),
        (TaskApprovalFlow.get_pending_tasks ttable tmemory sid now =
          TaskApprovalFlow.get_pending_tasks ttable tmemory sid now2) ∧
        (∀ tl, TaskApprovalFlow.get_pending_tasks ttable tmemory sid now = .ok tl →
          ∃ item, ttable.lookup sid = some item ∧
            tmemory.lookup item.memory_blob_id = some tl)) ∧
      (∀ blob minutes tr ch ts nowS,
        ((ApprovalFlow.save_pending_minutes table memory blob sid minutes tr ch ts nowS).1.lookup
          sid).map MinutesDbItem.expires_at = some (nowS + 24 * 60 * 60)) ∧
      (∀ blob tl ch ts nowS,
        ∀ (ttable : List (String × TaskApprovalFlow.TaskDbItem))
          (tmemory : List (String × TaskList)),
        ((TaskApprovalFlow.save_pending_tasks ttable tmemory blob sid tl ch ts nowS).1.lookup
          sid).map TaskApprovalFlow.TaskDbItem.expires_at = some (nowS + 24 * 60 * 60)) := by
  intro table memory sid now now2
  refine ⟨rfl, ?_, fun ttable tmemory => ⟨rfl, ?_⟩, ?_, ?_⟩
  · intro rec m h
    unfold ApprovalFlow.get_pending_minutes at h
    split at h
    · exact Except.noConfusion h
    rename_i item hl
    split at h
    · exact Except.noConfusion h
    rename_i st hs
    split at h
    · exact Except.noConfusion h
    rename_i blob hm
    have h2 := Except.ok.inj h
    injection h2 with hrec hm2
    refine ⟨item, hl, ?_, ?_⟩
    · rw [← hrec]; exact hs
    · rw [← hrec]
  · intro tl h
    unfold TaskApprovalFlow.get_pending_tasks at h
    split at h
    · exact Except.noConfusion h
    rename_i item hl
    split at h
    · exact Except.noConfusion h
    rename_i tl2 hm
    have h2 := Except.ok.inj h
    exact ⟨item, hl, by rw [← h2]; exact hm⟩
  · intro blob minutes tr ch ts nowS
    simp [ApprovalFlow.save_pending_minutes, List.lookup]
  · intro blob tl ch ts nowS ttable tmemory
    simp [TaskApprovalFlow.save_pending_tasks, List.lookup]

/-- C2 (witness for `get_pending_serves_stored_status`). -/
theorem get_pending_serves_stored_status_witness :
    ∃ item, ((ApprovalFlow.save_pending_minutes [] [] "b1" "s1" tinyMinutes "tr" none none 0).1).lookup
        "s1" = some item ∧
      ApprovalStatus.ofString item.status = some ApprovalStatus.pending ∧
      (86400 : Nat) = item.expires_at := by
  have h := (get_pending_serves_stored_status
      (ApprovalFlow.save_pending_minutes [] [] "b1" "s1" tinyMinutes "tr" none none 0).1
      (ApprovalFlow.save_pending_minutes [] [] "b1" "s1" tinyMinutes "tr" none none 0).2
      "s1" 100000 0).2.1
  obtain ⟨item, h1, h2, h3⟩ := h
    ⟨"s1", .pending, 0, 0, none, none, "b1", 0, 86400⟩ tinyMinutes (by decide)
  exact ⟨item, h1, h2, h3⟩

/-! ## C6 — the empty-string similarity conventions -/

/-- C6 (counterexample).  For the merge engine's scorer
(`DuplicateDetector.calculate_similarity`, the one the claim's sources
point at first) two empty strings score `0.0`, not `1.0`: the guard
`if not title1 or not title2: return 0.0` fires before the
equal-after-normalization check (the module's own test asserts this). -/
theorem similarity_two_empty_strings_zero :
    DuplicateDetector.calculate_similarity "" "" = 0 ∧
    DuplicateDetector.calculate_similarity "" "" ≠ 1 := by
  constructor
  · with_unfolding_all decide
  · with_unfolding_all decide

/-- C6 (amended).  The two implementations disagree on the both-empty
case and each applies its own convention uniformly: the merge engine's
scorer returns `0.0` whenever either input is empty (including both);
the GitHub-issue scorer (`Duplicate_Detector`) returns `1.0` for two empty
strings and `0.0` when exactly one is empty, for every underlying
`SequenceMatcher.ratio`. -/
theorem similarity_empty_conventions :
    (∀ s, DuplicateDetector.calculate_similarity "" s = 0 ∧
      DuplicateDetector.calculate_similarity s "" = 0) ∧
    (∀ ratio, Duplicate_Detector.calculate_similarity ratio "" "" = 1) ∧
    (∀ ratio s, s ≠ "" →
      Duplicate_Detector.calculate_similarity ratio "" s = 0 ∧
      Duplicate_Detector.calculate_similarity ratio s "" = 0) := by
  refine ⟨fun s => ⟨?_, ?_⟩, fun ratio => ?_, fun ratio s h => ⟨?_, ?_⟩⟩
  · simp [DuplicateDetector.calculate_similarity]
  · simp [DuplicateDetector.calculate_similarity]
  · simp [Duplicate_Detector.calculate_similarity]
  · simp [Duplicate_Detector.calculate_similarity, h]
  · simp [Duplicate_Detector.calculate_similarity, h]

/-- C6 (witness for `similarity_empty_conventions`). -/
theorem similarity_empty_conventions_witness :
    Duplicate_Detector.calculate_similarity (fun _ _ => mkRat 1 2) "" "x" = 0 ∧
    Duplicate_Detector.calculate_similarity (fun _ _ => mkRat 1 2) "x" "" = 0 :=
  (similarity_empty_conventions.2.2 (fun _ _ => mkRat 1 2) "x" (by decide))

/-! ## C7 — item mutations carry no lifecycle guard -/

/-- C7 (counterexample).  The claim asserts `delete_item`/`add_item` are
illegal from `approved` or `cancelled`.  Neither function checks the
status: on a batch whose status is the terminal `approved`, deleting an
existing task succeeds and adding a task succeeds (and both preserve the
terminal status). -/
theorem mutations_allowed_from_terminal :
    TaskListStatus.isTerminal terminalBatch.status = true ∧
    (TaskApprovalFlow.delete_task terminalBatch "t1" 5).isOk = true ∧
    (TaskApprovalFlow.add_task terminalBatch ⟨"t2", "U", "E", none, none, .low, "R"⟩ 5).status =
      .approved := by
  decide

/-- C7 (amended).  `delete_task` and `add_task` perform no lifecycle check
(they are accepted whatever the status); each builds a fresh `TaskList`
value with `updated_at` set to the current time and `session_id`,
`minutes_id`, `status`, `created_at` unchanged; `delete_task` keeps
exactly the tasks whose id differs from the given one (in order), and
`add_task` appends the new task at the end.  (The Python code constructs a
new `TaskList` and never mutates the caller's; the embedding is the same
pure function.) -/
theorem delete_add_frame :
    (∀ (tl : TaskList) (tid : String) (now : Nat) (tl2 : TaskList),
      TaskApprovalFlow.delete_task tl tid now = .ok tl2 →
        tl2.session_id = tl.session_id ∧ tl2.minutes_id = tl.minutes_id ∧
        tl2.status = tl.status ∧ tl2.created_at = tl.created_at ∧
        tl2.updated_at = now ∧
        tl2.tasks = tl.tasks.filter (fun t => t.id ≠ tid)) ∧
    (∀ (tl : TaskList) (task : Task) (now : Nat),
      TaskApprovalFlow.add_task tl task now =
        ⟨tl.session_id, tl.minutes_id, tl.tasks ++ [task], tl.status,
          tl.created_at, now⟩) := by
  constructor
  · intro tl tid now tl2 h
    unfold TaskApprovalFlow.delete_task at h
    split at h
    · exact Except.noConfusion h
    have h2 := Except.ok.inj h
    rw [← h2]
    exact ⟨rfl, rfl, rfl, rfl, rfl, rfl⟩
  · intro tl task now
    rfl

/-- C7 (witness for `delete_add_frame`). -/
theorem delete_add_frame_witness :
    ∃ tl2, TaskApprovalFlow.delete_task terminalBatch "t1" 5 = .ok tl2 ∧
      tl2.status = terminalBatch.status ∧ tl2.updated_at = 5 ∧ tl2.tasks = [] := by
  have h := delete_add_frame.1 terminalBatch "t1" 5
    ⟨"s", "m", [], .approved, 1, 5⟩ (by decide)
  exact ⟨⟨"s", "m", [], .approved, 1, 5⟩, by decide, h.2.2.1, h.2.2.2.2.1, by decide⟩

/-! ## C10 — deleting a missing task id -/

/-- C10.  When no task in the batch has the given id, `delete_task` raises
`ValueError` and yields no batch; nothing is written before the raise and
the function is pure over its input, so the caller's batch is untouched
(atomicity on error). -/
theorem delete_task_missing_id_fails :
    ∀ (tl : TaskList) (tid : String) (now : Nat),
      (∀ t ∈ tl.tasks, t.id ≠ tid) →
      ∃ e, TaskApprovalFlow.delete_task tl tid now = .error e := by
  intro tl tid now h
  have hf : tl.tasks.find? (fun t => t.id = tid) = none := by
    rw [List.find?_eq_none]
    intro t ht
    simp [h t ht]
  refine ⟨"Task with id " ++ tid ++ " not found", ?_⟩
  simp [TaskApprovalFlow.delete_task, hf]

/-- C10 (witness for `delete_task_missing_id_fails`). -/
theorem delete_task_missing_id_fails_witness :
    ∃ e, TaskApprovalFlow.delete_task terminalBatch "zzz" 5 = .error e :=
  delete_task_missing_id_fails terminalBatch "zzz" 5 (by decide)

/-! ## C4 — merge is not idempotent -/

set_option maxRecDepth 100000

/-- C4 (counterexample).  On `chainTasks`, the first scan merges task 1
into task 0, and the survivor adopts task 1's title (longest description);
that title is within the 0.8 threshold of task 2's, which the first scan
never compared against task 1 (`processed` skips it).  A second
`merge_duplicates` therefore merges again: idempotence fails. -/
theorem merge_not_idempotent :
    (DuplicateDetector.merge_duplicates chainTasks).length = 2 ∧
    (DuplicateDetector.merge_duplicates (DuplicateDetector.merge_duplicates chainTasks)).length = 1 ∧
    DuplicateDetector.merge_duplicates (DuplicateDetector.merge_duplicates chainTasks) ≠
      DuplicateDetector.merge_duplicates chainTasks := by
  refine ⟨?_, ?_, ?_⟩ <;> with_unfolding_all decide

/-- C4 (amended).  Merging changes nothing on a batch in which the
duplicate scan finds no pair (`merge(tasks) == tasks` whenever
`detect_duplicates(tasks) == []`); `merge ∘ merge = merge` fails in
general, because a merged survivor can adopt the longest-description
member's title and newly collide with another survivor. -/
theorem merge_of_no_duplicates :
    ∀ ts : List Task, DuplicateDetector.detect_duplicates ts = [] →
      DuplicateDetector.merge_duplicates ts = ts := by
  intro ts h
  cases ts with
  | nil => rfl
  | cons t rest => simp [DuplicateDetector.merge_duplicates, h]

/-- C4 (witness for `merge_of_no_duplicates`). -/
theorem merge_of_no_duplicates_witness :
    DuplicateDetector.merge_duplicates [shipTask1] = [shipTask1] :=
  merge_of_no_duplicates [shipTask1] (by with_unfolding_all decide)

/-! ## C8 — the validator filter -/

/-- `validate_task` succeeds exactly on the spec's structural checks. -/
theorem validate_task_isOk_eq (t : RawTask) :
    (Task_Validator.validate_task t).isOk = passesChecks t := by
  unfold Task_Validator.validate_task passesChecks Task_Validator.MAX_TITLE_LENGTH
  split_ifs with h1 h2 h3
  · rw [h1]; rfl
  · simp only [Bool.or_eq_true, decide_eq_true_eq, not_or] at h1
    obtain ⟨ha, hb⟩ := h1
    rw [decide_eq_false ha, decide_eq_false hb,
      decide_eq_false (Nat.not_le.mpr h2)]
    rfl
  · simp only [Bool.or_eq_true, decide_eq_true_eq, not_or] at h1
    obtain ⟨ha, hb⟩ := h1
    simp only [Bool.not_eq_true', Bool.or_eq_false_iff, decide_eq_false_iff_not] at h3
    obtain ⟨⟨p1, p2⟩, p3⟩ := h3
    rw [decide_eq_false ha, decide_eq_false hb,
      decide_eq_true (Nat.le_of_not_lt h2),
      decide_eq_false p1, decide_eq_false p2, decide_eq_false p3]
    rfl
  · simp only [Bool.or_eq_true, decide_eq_true_eq, not_or] at h1
    obtain ⟨ha, hb⟩ := h1
    rw [Bool.not_eq_true'] at h3
    have hp := Bool.ne_false_iff.mp h3
    cases hd : t.due_date with
    | none =>
      rw [decide_eq_false ha, decide_eq_false hb,
        decide_eq_true (Nat.le_of_not_lt h2), hp]
      rfl
    | some v =>
      cases v with
      | dateVal d =>
        rw [decide_eq_false ha, decide_eq_false hb,
          decide_eq_true (Nat.le_of_not_lt h2), hp]
        rfl
      | strVal s =>
        rw [decide_eq_false ha, decide_eq_false hb,
          decide_eq_true (Nat.le_of_not_lt h2), hp]
        rfl

/-- The filtering loop keeps exactly the passing tasks, in order. -/
theorem validateTasksAux_eq_filter (ts : List RawTask) :
    Task_Validator.validateTasksAux ts = ts.filter passesChecks := by
  induction ts with
  | nil => rfl
  | cons t rest ih =>
    unfold Task_Validator.validateTasksAux
    rw [List.filter_cons]
    have hp := validate_task_isOk_eq t
    cases hv : Task_Validator.validate_task t with
    | ok u =>
      have : passesChecks t = true := by rw [← hp, hv]; rfl
      simp [this, ih]
    | error e =>
      have : passesChecks t = false := by rw [← hp, hv]; rfl
      simp [this, ih]

/-- C8.  `validate_and_filter` keeps exactly the tasks passing all four
structural checks, in the input's original relative order, and touches no
other field of the batch; the function is total (a failing task is dropped
by the `try/except`, nothing escapes the batch boundary).  §8's example: a
3-task batch whose middle task has a 101-character title filters down to
the first and third tasks. -/
theorem validator_filters_exactly :
    (∀ t : RawTask, (Task_Validator.validate_task t).isOk = passesChecks t) ∧
    (∀ tl : RawTaskList,
      Task_Validator.validate_and_filter tl =
        { tl with tasks := tl.tasks.filter passesChecks }) ∧
    (Task_Validator.validate_and_filter batchWith101).tasks =
      [⟨"1", "Task one", "d", none, none, "high", "q"⟩,
       ⟨"3", "Task three", "d", none, none, "low", "q"⟩] := by
  refine ⟨validate_task_isOk_eq, ?_, ?_⟩
  · intro tl
    unfold Task_Validator.validate_and_filter Task_Validator.validate_task_list
    rw [validateTasksAux_eq_filter]
  · decide

/-! ## C5 — merge tie-break rules

Helper lemmas about the `first-maximal`/`first-minimal` folds that
`_merge_task_details` uses (`max(…, key=…)` and `min(…)` both return the
first optimum). -/

theorem foldlChoose_mem {α : Type} (R : α → α → Prop) [DecidableRel R]
    (d : α) (ds : List α) :
    ds.foldl (fun acc x => if R x acc then x else acc) d ∈ d :: ds := by
  induction ds generalizing d with
  | nil => simp
  | cons x xs ih =>
    simp only [List.foldl_cons]
    rcases List.mem_cons.mp (ih (if R x d then x else d)) with h1 | h1
    · rw [h1]
      split
      · exact List.mem_cons_of_mem _ (List.mem_cons_self _ _)
      · exact List.mem_cons_self _ _
    · exact List.mem_cons_of_mem _ (List.mem_cons_of_mem _ h1)

theorem foldlChoose_not {α : Type} (R : α → α → Prop) [DecidableRel R]
    (hirr : ∀ a, ¬ R a a)
    (htrans : ∀ a b c, R a b → R b c → R a c)
    (hntrans : ∀ a b c, ¬ R a b → ¬ R b c → ¬ R a c)
    (d : α) (ds : List α) :
    ∀ y ∈ d :: ds, ¬ R y (ds.foldl (fun acc x => if R x acc then x else acc) d) := by
  induction ds generalizing d with
  | nil =>
    intro y hy
    simp only [List.foldl_nil]
    rcases List.mem_cons.mp hy with rfl | h
    · exact hirr y
    · exact absurd h (List.not_mem_nil _)
  | cons x xs ih =>
    intro y hy
    simp only [List.foldl_cons]
    by_cases hc : R x d
    · rw [if_pos hc]
      have hx := ih x x (List.mem_cons_self _ _)
      rcases List.mem_cons.mp hy with rfl | hy2
      · intro hyd
        exact hx (htrans x y _ hc hyd)
      · rcases List.mem_cons.mp hy2 with rfl | hy3
        · exact hx
        · exact ih x y (List.mem_cons_of_mem _ hy3)
    · rw [if_neg hc]
      have hd := ih d d (List.mem_cons_self _ _)
      rcases List.mem_cons.mp hy with rfl | hy2
      · exact hd
      · rcases List.mem_cons.mp hy2 with rfl | hy3
        · exact hntrans y d _ hc hd
        · exact ih d y (List.mem_cons_of_mem _ hy3)

theorem PyDate.ltB_irrefl (a : PyDate) : ¬ (PyDate.ltB a a = true) := by
  simp [PyDate.ltB]

theorem PyDate.ltB_trans {a b c : PyDate} :
    PyDate.ltB a b = true → PyDate.ltB b c = true → PyDate.ltB a c = true := by
  simp only [PyDate.ltB, Bool.or_eq_true, Bool.and_eq_true, decide_eq_true_eq]
  omega

theorem PyDate.ltB_ntrans {a b c : PyDate} :
    ¬ (PyDate.ltB a b = true) → ¬ (PyDate.ltB b c = true) →
    ¬ (PyDate.ltB a c = true) := by
  simp only [PyDate.ltB, Bool.or_eq_true, Bool.and_eq_true, decide_eq_true_eq]
  omega

/-- `_merge_task_details` written as one record: the base (identity,
title, description, `created_at` in Python) is the longest-description
task; assignee, due date, priority and source quote are overwritten by
their tie-break rules. -/
theorem merge_details_eq (primary : Task) (others : List Task) :
    DuplicateDetector._merge_task_details primary others =
      { DuplicateDetector.pickMaxBy (fun t => t.description.data.length) primary others with
        assignee :=
          (match (primary :: others).find? (fun t => DuplicateDetector.assigneeTruthy t.assignee) with
           | some t0 => t0.assignee
           | none =>
             (DuplicateDetector.pickMaxBy (fun t => t.description.data.length) primary others).assignee),
        due_date :=
          (match (primary :: others).filterMap Task.due_date with
           | [] =>
             (DuplicateDetector.pickMaxBy (fun t => t.description.data.length) primary others).due_date
           | d :: ds => some (ds.foldl (fun m x => if PyDate.ltB x m then x else m) d)),
        priority :=
          (DuplicateDetector.pickMaxBy
            (fun t => DuplicateDetector.priority_order t.priority) primary others).priority,
        source_quote :=
          joinWith "\n---\n" (DuplicateDetector.collectQuotes (primary :: others)) } := by
  unfold DuplicateDetector._merge_task_details
  cases hf : (primary :: others).find? (fun t => DuplicateDetector.assigneeTruthy t.assignee) <;>
    cases hdd : (primary :: others).filterMap Task.due_date <;>
      simp [hf, hdd]

/-- The quote fold equals the spec-side `distinctQuotes`. -/
theorem collectQuotes_eq_distinct (ts : List Task) :
    DuplicateDetector.collectQuotes ts = distinctQuotes (ts.map Task.source_quote) := by
  have main : ∀ (ts : List Task) (acc seen1 seen2 : List String),
      (∀ x, x ∈ seen1 ↔ x ∈ seen2) →
      (ts.foldl
        (fun (st : List String × List String) t =>
          let quote := pyStrip t.source_quote
          if quote ≠ "" && quote ∉ st.2 then (st.1 ++ [quote], st.2 ++ [quote]) else st)
        (acc, seen1)).1 = acc ++ distinctQuotesAux seen2 (ts.map Task.source_quote) := by
    intro ts
    induction ts with
    | nil => intro acc seen1 seen2 hmem; simp [distinctQuotesAux]
    | cons t rest ih =>
      intro acc seen1 seen2 hmem
      simp only [List.foldl_cons, List.map_cons]
      by_cases hq : pyStrip t.source_quote ≠ "" ∧ pyStrip t.source_quote ∉ seen1
      · have hb : (decide (pyStrip t.source_quote ≠ "") &&
            decide (pyStrip t.source_quote ∉ seen1)) = true := by
          simp [hq.1, hq.2]
        have hq2 : pyStrip t.source_quote ≠ "" ∧ pyStrip t.source_quote ∉ seen2 :=
          ⟨hq.1, fun hx => hq.2 ((hmem _).mpr hx)⟩
        have hstep : distinctQuotesAux seen2
              (t.source_quote :: rest.map Task.source_quote) =
            pyStrip t.source_quote ::
              distinctQuotesAux (pyStrip t.source_quote :: seen2)
                (rest.map Task.source_quote) := by
          simp only [distinctQuotesAux]
          rw [if_pos hq2]
        rw [hstep]
        simp only [hb, if_true]
        rw [ih (acc ++ [pyStrip t.source_quote]) (seen1 ++ [pyStrip t.source_quote])
          (pyStrip t.source_quote :: seen2)
          (by intro x; simp [hmem x]; tauto)]
        simp
      · have hb : (decide (pyStrip t.source_quote ≠ "") &&
            decide (pyStrip t.source_quote ∉ seen1)) = false := by
          rcases Decidable.not_and_iff_or_not.mp hq with h | h <;> simp [h]
        have hq2 : ¬ (pyStrip t.source_quote ≠ "" ∧ pyStrip t.source_quote ∉ seen2) := by
          intro hx
          exact hq ⟨hx.1, fun hy => hx.2 ((hmem _).mp hy)⟩
        have hstep : distinctQuotesAux seen2
              (t.source_quote :: rest.map Task.source_quote) =
            distinctQuotesAux seen2 (rest.map Task.source_quote) := by
          simp only [distinctQuotesAux]
          rw [if_neg hq2]
        rw [hstep]
        simp only [hb, Bool.false_eq_true, if_false]
        exact ih acc seen1 seen2 hmem
  exact main ts [] [] [] (fun x => Iff.rfl)

/-- C5.  For every duplicate group (`primary` plus the tasks merged into
it), `_merge_task_details` yields: a description of maximal character
count (taken from a group member), the first truthy assignee in input
order, the earliest due date among those present (`None` exactly when none
is present), a maximal priority under high > medium > low, and the
source-quote concatenation of all distinct trimmed quotes in input order
joined by the `---` delimiter line; and §8's two-task example produces
exactly the long-description / Dana / high / combined-quote task. -/
theorem merge_tie_break :
    (∀ (primary : Task) (others : List Task),
      ((DuplicateDetector._merge_task_details primary others).description ∈
          (primary :: others).map Task.description ∧
        ∀ t ∈ primary :: others,
          t.description.data.length ≤
            (DuplicateDetector._merge_task_details primary others).description.data.length) ∧
      (∀ t0, (primary :: others).find? (fun t => DuplicateDetector.assigneeTruthy t.assignee) =
          some t0 →
        (DuplicateDetector._merge_task_details primary others).assignee = t0.assignee) ∧
      ((DuplicateDetector._merge_task_details primary others).due_date = none ↔
        (primary :: others).filterMap Task.due_date = []) ∧
      (∀ dm, (DuplicateDetector._merge_task_details primary others).due_date = some dm →
        dm ∈ (primary :: others).filterMap Task.due_date ∧
        ∀ x ∈ (primary :: others).filterMap Task.due_date, PyDate.ltB x dm = false) ∧
      ((DuplicateDetector._merge_task_details primary others).priority ∈
          (primary :: others).map Task.priority ∧
        ∀ t ∈ primary :: others,
          DuplicateDetector.priority_order t.priority ≤
            DuplicateDetector.priority_order
              (DuplicateDetector._merge_task_details primary others).priority) ∧
      (DuplicateDetector._merge_task_details primary others).source_quote =
        joinWith "\n---\n" (distinctQuotes ((primary :: others).map Task.source_quote))) ∧
    DuplicateDetector.merge_duplicates [shipTask1, shipTask2] = [shipMerged] := by
  constructor
  · intro primary others
    have hme := merge_details_eq primary others
    have hbestMem :
        DuplicateDetector.pickMaxBy (fun t => t.description.data.length) primary others ∈
          primary :: others := by
      unfold DuplicateDetector.pickMaxBy
      exact foldlChoose_mem
        (fun x acc => acc.description.data.length < x.description.data.length) primary others
    have hbestMax : ∀ t ∈ primary :: others,
        t.description.data.length ≤
          (DuplicateDetector.pickMaxBy (fun t => t.description.data.length)
            primary others).description.data.length := by
      intro t ht
      refine Nat.le_of_not_lt ?_
      have h2 := foldlChoose_not
        (fun x acc => acc.description.data.length < x.description.data.length)
        (fun a => by omega) (fun a b c h1 h2 => by omega) (fun a b c h1 h2 => by omega)
        primary others t ht
      unfold DuplicateDetector.pickMaxBy
      exact h2
    have hprioMem :
        DuplicateDetector.pickMaxBy (fun t => DuplicateDetector.priority_order t.priority)
            primary others ∈ primary :: others := by
      unfold DuplicateDetector.pickMaxBy
      exact foldlChoose_mem
        (fun x acc => DuplicateDetector.priority_order acc.priority <
          DuplicateDetector.priority_order x.priority) primary others
    have hprioMax : ∀ t ∈ primary :: others,
        DuplicateDetector.priority_order t.priority ≤
          DuplicateDetector.priority_order
            (DuplicateDetector.pickMaxBy
              (fun t => DuplicateDetector.priority_order t.priority) primary others).priority := by
      intro t ht
      refine Nat.le_of_not_lt ?_
      have h2 := foldlChoose_not
        (fun x acc => DuplicateDetector.priority_order acc.priority <
          DuplicateDetector.priority_order x.priority)
        (fun a => by omega) (fun a b c h1 h2 => by omega) (fun a b c h1 h2 => by omega)
        primary others t ht
      unfold DuplicateDetector.pickMaxBy
      exact h2
    have hdesc : (DuplicateDetector._merge_task_details primary others).description =
        (DuplicateDetector.pickMaxBy (fun t => t.description.data.length)
          primary others).description := by
      rw [hme]
    have hassg : (DuplicateDetector._merge_task_details primary others).assignee =
        (match (primary :: others).find? (fun t => DuplicateDetector.assigneeTruthy t.assignee) with
         | some t0 => t0.assignee
         | none =>
           (DuplicateDetector.pickMaxBy (fun t => t.description.data.length)
             primary others).assignee) := by
      rw [hme]
    have hdue : (DuplicateDetector._merge_task_details primary others).due_date =
        (match (primary :: others).filterMap Task.due_date with
         | [] =>
           (DuplicateDetector.pickMaxBy (fun t => t.description.data.length)
             primary others).due_date
         | d :: ds => some (ds.foldl (fun m x => if PyDate.ltB x m then x else m) d)) := by
      rw [hme]
    have hprio : (DuplicateDetector._merge_task_details primary others).priority =
        (DuplicateDetector.pickMaxBy
          (fun t => DuplicateDetector.priority_order t.priority) primary others).priority := by
      rw [hme]
    have hquote : (DuplicateDetector._merge_task_details primary others).source_quote =
        joinWith "\n---\n" (DuplicateDetector.collectQuotes (primary :: others)) := by
      rw [hme]
    refine ⟨⟨?_, ?_⟩, ?_, ?_, ?_, ⟨?_, ?_⟩, ?_⟩
    · rw [hdesc]
      exact List.mem_map_of_mem Task.description hbestMem
    · intro t ht
      rw [hdesc]
      exact hbestMax t ht
    · intro t0 hf
      rw [hassg, hf]
    · cases hdd : (primary :: others).filterMap Task.due_date with
      | nil =>
        simp only [hdd] at hdue
        have hall := List.filterMap_eq_nil_iff.mp hdd
        rw [hdue, hall _ hbestMem]
        simp
      | cons d ds =>
        simp only [hdd] at hdue
        rw [hdue]
        simp
    · intro dm hdm
      cases hdd : (primary :: others).filterMap Task.due_date with
      | nil =>
        simp only [hdd] at hdue
        have hall := List.filterMap_eq_nil_iff.mp hdd
        rw [hdue, hall _ hbestMem] at hdm
        exact absurd hdm (by simp)
      | cons d ds =>
        simp only [hdd] at hdue
        rw [hdue] at hdm
        have hdm2 : ds.foldl (fun m x => if PyDate.ltB x m then x else m) d = dm :=
          Option.some.inj hdm
        constructor
        · rw [← hdm2]
          exact foldlChoose_mem (fun x acc => PyDate.ltB x acc = true) d ds
        · intro x hx
          rw [← hdm2]
          have h3 := foldlChoose_not (fun x acc => PyDate.ltB x acc = true)
            (fun a => PyDate.ltB_irrefl a)
            (fun a b c h1 h2 => PyDate.ltB_trans h1 h2)
            (fun a b c h1 h2 => PyDate.ltB_ntrans h1 h2)
            d ds x hx
          exact Bool.eq_false_iff.mpr h3
    · rw [hprio]
      exact List.mem_map_of_mem Task.priority hprioMem
    · intro t ht
      rw [hprio]
      exact hprioMax t ht
    · rw [hquote, collectQuotes_eq_distinct]
  · with_unfolding_all decide

/-- C5 (witness for `merge_tie_break`). -/
theorem merge_tie_break_witness :
    (DuplicateDetector._merge_task_details shipTask1 [shipTask2]).assignee =
      shipTask2.assignee ∧
    (DuplicateDetector._merge_task_details shipTask1 [shipTask2]).due_date = none := by
  have h := merge_tie_break.1 shipTask1 [shipTask2]
  exact ⟨h.2.1 shipTask2 (by decide), h.2.2.1.mpr (by decide)⟩

/-! ## C9 — what actually makes the task parser raise -/

/-- C9.  The metadata of `missingIdMarkdown` is complete and valid, and an
item lacking its 説明 sub-bullet is indeed dropped silently; but an item
that has 説明 and 引用 while lacking the ID sub-bullet makes
`from_markdown` raise: the code passes `id=None` to the pydantic `Task`
constructor (`id: str` with a `default_factory` rejects an explicit
`None`), although the comment on that very line expects auto-generation.
With an ID sub-bullet the same document parses. -/
theorem parser_raises_on_missing_id :
    searchLabelValue "**Session ID**:" missingIdMarkdown = some "s1" ∧
    searchLabelValue "**Minutes ID**:" missingIdMarkdown = some "m1" ∧
    (searchLabelValue "**Status**:" missingIdMarkdown).bind TaskListStatus.ofString =
      some .pending ∧
    (Task_Formatter.from_markdown missingIdMarkdown).isOk = false ∧
    (Task_Formatter.from_markdown withIdMarkdown).isOk = true ∧
    (Task_Formatter.from_markdown missingDescMarkdown).toOption.map
      (fun r => r.tasks.length) = some 0 := by
  decide

/-! ## C3 — the round-trip law -/

/-- C3 (counterexample).  A valid task whose description contains the
literal labels 担当: and 期限: is not recovered: the detail chain
classifies its 説明 line as an assignee/due line, the description is never
set, and the task is silently dropped, so `from_text(to_text(r))` loses the
task entirely. -/
theorem roundtrip_fails_on_label_in_description :
    (Task_Formatter.from_markdown (Task_Formatter.to_markdown dirtyBatch)).toOption.map
      (fun r => r.tasks.length) = some 0 ∧
    dirtyBatch.tasks.length = 1 := by
  decide

/-! ## C3 machinery — string-level lemmas

First-occurrence substring search over concatenations, trimming, and the
join/split inverse, used to evaluate the codecs symbolically on rendered
documents. -/

theorem isPrefixCore_iff {p l : List Char} : isPrefixCore p l = true ↔ p <+: l := by
  unfold isPrefixCore
  exact List.isPrefixOf_iff_prefix

theorem isPrefixCore_append_self (p t : List Char) : isPrefixCore p (p ++ t) = true :=
  isPrefixCore_iff.mpr (List.prefix_append p t)

/-- A prefix test against `a ++ b` only sees `a` when `p` fits inside `a`. -/
theorem isPrefixCore_short {p a : List Char} (b : List Char) (h : p.length ≤ a.length) :
    isPrefixCore p (a ++ b) = isPrefixCore p a := by
  cases hc : isPrefixCore p a
  · cases hc2 : isPrefixCore p (a ++ b)
    · rfl
    · exfalso
      have h2 := isPrefixCore_iff.mp hc2
      have h3 := List.prefix_of_prefix_length_le h2 (List.prefix_append a b) h
      rw [isPrefixCore_iff.mpr h3] at hc
      exact Bool.noConfusion hc
  · exact isPrefixCore_iff.mpr ((isPrefixCore_iff.mp hc).trans (List.prefix_append a b))

theorem occursIn_cons (pat : List Char) (c : Char) (s : List Char) :
    occursIn pat (c :: s) = (isPrefixCore pat (c :: s) || occursIn pat s) := by
  unfold occursIn
  rw [splitAtFirstCore]
  cases hp : isPrefixCore pat (c :: s)
  · cases hs : splitAtFirstCore pat s with
    | none => simp
    | some pr =>
      obtain ⟨pre, post⟩ := pr
      simp
  · simp

theorem prefix_occursIn {pat s : List Char} (h : isPrefixCore pat s = true) :
    occursIn pat s = true := by
  cases s with
  | nil =>
    have hp : pat = [] := by
      have := (isPrefixCore_iff.mp h).length_le
      simpa using this
    subst hp
    decide
  | cons c cs =>
    unfold occursIn
    rw [splitAtFirstCore, if_pos h]
    rfl

theorem splitAtFirst_self (pat t : List Char) (hp : pat ≠ []) :
    splitAtFirstCore pat (pat ++ t) = some ([], t) := by
  cases hpat : pat with
  | nil => exact absurd hpat hp
  | cons c cs =>
    have h1 : isPrefixCore (c :: cs) ((c :: cs) ++ t) = true := isPrefixCore_append_self _ _
    rw [List.cons_append, splitAtFirstCore, ← List.cons_append, if_pos h1, List.drop_left]

/-- First-occurrence search skips a block `a` that contains no occurrence
and admits no straddling occurrence into `b`. -/
theorem splitAtFirst_append (pat a b : List Char)
    (ha : occursIn pat a = false)
    (hstrad : ∀ k, k < pat.length → 0 < k →
      ¬ ((pat.take k) <:+ a ∧ (pat.drop k) <+: b)) :
    splitAtFirstCore pat (a ++ b) =
      (splitAtFirstCore pat b).map (fun pr => (a ++ pr.1, pr.2)) := by
  induction a with
  | nil =>
    rw [List.nil_append]
    cases hs : splitAtFirstCore pat b with
    | none => rfl
    | some pr => simp
  | cons x a2 ih =>
    have hnp : isPrefixCore pat ((x :: a2) ++ b) = false := by
      cases hc : isPrefixCore pat ((x :: a2) ++ b)
      · rfl
      · exfalso
        have hpre := isPrefixCore_iff.mp hc
        by_cases hlen : pat.length ≤ (x :: a2).length
        · have h3 := List.prefix_of_prefix_length_le hpre (List.prefix_append _ b) hlen
          have h4 := prefix_occursIn (isPrefixCore_iff.mpr h3)
          rw [ha] at h4
          exact Bool.noConfusion h4
        · have hlen2 : (x :: a2).length < pat.length := Nat.lt_of_not_le hlen
          have htp : pat.take (x :: a2).length <+: x :: a2 :=
            List.prefix_of_prefix_length_le ((List.take_prefix _ pat).trans hpre)
              (List.prefix_append _ _) (by rw [List.length_take]; omega)
          have heq : pat.take (x :: a2).length = x :: a2 :=
            htp.sublist.eq_of_length (by rw [List.length_take]; omega)
          have hdec : pat = (x :: a2) ++ pat.drop (x :: a2).length := by
            conv_lhs => rw [← List.take_append_drop (x :: a2).length pat, heq]
          obtain ⟨t, ht⟩ := hpre
          rw [hdec, List.append_assoc] at ht
          have hb2 : pat.drop (x :: a2).length ++ t = b := List.append_cancel_left ht
          refine hstrad (x :: a2).length hlen2 (by simp) ⟨?_, t, hb2⟩
          rw [heq]
    have ha2 : occursIn pat a2 = false := by
      have h0 := occursIn_cons pat x a2
      rw [ha] at h0
      cases h2 : occursIn pat a2
      · rfl
      · rw [h2, Bool.or_true] at h0
        exact Bool.noConfusion h0
    have hstrad2 : ∀ k, k < pat.length → 0 < k →
        ¬ ((pat.take k) <:+ a2 ∧ (pat.drop k) <+: b) := by
      intro k h1 h2 hcon
      exact hstrad k h1 h2 ⟨hcon.1.trans (List.suffix_cons x a2), hcon.2⟩
    rw [List.cons_append, splitAtFirstCore, ← List.cons_append, hnp]
    simp only [Bool.false_eq_true, if_false]
    rw [ih ha2 hstrad2]
    cases hs : splitAtFirstCore pat b with
    | none => rfl
    | some pr => simp

theorem occursIn_append_false (pat a b : List Char)
    (ha : occursIn pat a = false) (hb : occursIn pat b = false)
    (hstrad : ∀ k, k < pat.length → 0 < k →
      ¬ ((pat.take k) <:+ a ∧ (pat.drop k) <+: b)) :
    occursIn pat (a ++ b) = false := by
  unfold occursIn
  rw [splitAtFirst_append pat a b ha hstrad]
  unfold occursIn at hb
  cases hs : splitAtFirstCore pat b with
  | none => rfl
  | some pr =>
    rw [hs] at hb
    simp at hb

/-- The straddle obligation is vacuous whenever no proper tail of the
pattern is a prefix of the pattern itself and `b` starts with the pattern:
used for all the metadata labels. -/
theorem strad_discharge_right (pat b t : List Char)
    (hself : ∀ k, k < pat.length → 0 < k → ¬ ((pat.drop k) <+: pat))
    (hb : b = pat ++ t) :
    ∀ (a : List Char), ∀ k, k < pat.length → 0 < k →
      ¬ ((pat.take k) <:+ a ∧ (pat.drop k) <+: b) := by
  intro a k h1 h2 hcon
  have hlen : (pat.drop k).length ≤ pat.length := by
    rw [List.length_drop]
    exact Nat.sub_le _ _
  have h3 : (pat.drop k) <+: pat := by
    rw [hb] at hcon
    exact List.prefix_of_prefix_length_le hcon.2 (List.prefix_append pat t) hlen
  exact hself k h1 h2 h3

/-! ### Trimming -/

theorem mkString_inj {l m : List Char} (h : (⟨l⟩ : String) = ⟨m⟩) : l = m :=
  congrArg String.data h

theorem dropWhile_eq_self_iff_head {p : Char → Bool} {l : List Char} :
    l.dropWhile p = l ↔ (∀ c, l.head? = some c → p c = false) := by
  cases l with
  | nil => simp
  | cons c t =>
    rw [List.dropWhile_cons]
    constructor
    · intro h d hd
      have hdc : c = d := Option.some.inj hd
      cases hdc
      cases hp : p c
      · rfl
      · exfalso
        rw [if_pos hp] at h
        have := List.Sublist.length_le (h ▸ List.dropWhile_sublist (l := t) (p := p))
        simp at this
    · intro h
      rw [if_neg (by rw [h c rfl]; exact Bool.noConfusion)]

theorem trimCore_eq_self_iff {l : List Char} :
    trimCore l = l ↔
      ((∀ c, l.head? = some c → pyWS c = false) ∧
       (∀ c, l.getLast? = some c → pyWS c = false)) := by
  have hrev : ∀ c, l.getLast? = some c ↔ l.reverse.head? = some c := by
    intro c
    rw [List.head?_reverse]
  constructor
  · intro h
    have hlen1 : (l.dropWhile pyWS).length = l.length := by
      have h1 := List.Sublist.length_le (List.dropWhile_sublist (l := l) (p := pyWS))
      have h2 : (trimCore l).length ≤ (l.dropWhile pyWS).length := by
        unfold trimCore
        rw [List.length_reverse]
        calc ((l.dropWhile pyWS).reverse.dropWhile pyWS).length
            ≤ (l.dropWhile pyWS).reverse.length :=
              List.Sublist.length_le (List.dropWhile_sublist _)
          _ = (l.dropWhile pyWS).length := List.length_reverse _
      rw [h] at h2
      omega
    have hfront : l.dropWhile pyWS = l :=
      (List.dropWhile_sublist _).eq_of_length hlen1
    have hback : l.reverse.dropWhile pyWS = l.reverse := by
      have h2 : ((l.dropWhile pyWS).reverse.dropWhile pyWS).reverse = l := h
      rw [hfront] at h2
      have h3 := congrArg List.reverse h2
      rw [List.reverse_reverse] at h3
      exact h3
    refine ⟨dropWhile_eq_self_iff_head.mp hfront, ?_⟩
    intro c hc
    exact dropWhile_eq_self_iff_head.mp hback c ((hrev c).mp hc)
  · rintro ⟨h1, h2⟩
    have hfront : l.dropWhile pyWS = l := dropWhile_eq_self_iff_head.mpr h1
    have hback : l.reverse.dropWhile pyWS = l.reverse := by
      refine dropWhile_eq_self_iff_head.mpr ?_
      intro c hc
      exact h2 c ((hrev c).mpr hc)
    unfold trimCore
    rw [hfront, hback, List.reverse_reverse]

theorem trimCore_cons_ws {c : Char} (l : List Char) (h : pyWS c = true) :
    trimCore (c :: l) = trimCore l := by
  unfold trimCore
  rw [List.dropWhile_cons, if_pos h]

theorem trimCore_concat_ws {c : Char} (l : List Char) (h : pyWS c = true) :
    trimCore (l ++ [c]) = trimCore l := by
  unfold trimCore
  rw [List.dropWhile_append]
  cases hm : (l.dropWhile pyWS).isEmpty
  · simp only [Bool.false_eq_true, if_false]
    rw [List.reverse_append, List.reverse_cons, List.reverse_nil, List.nil_append,
      List.cons_append, List.nil_append, List.dropWhile_cons, if_pos h]
  · simp only [if_true]
    rw [List.isEmpty_iff.mp hm]
    rw [show List.dropWhile pyWS [c] = List.dropWhile pyWS [] from by
      rw [List.dropWhile_cons, if_pos h]]
    rfl

/-- The main interface: a concrete head followed by fields whose trim is
known. -/
theorem trimCore_eq_self_parts {l : List Char} {c d : Char}
    (hh : l.head? = some c) (hc : pyWS c = false)
    (hg : l.getLast? = some d) (hd : pyWS d = false) :
    trimCore l = l := by
  refine trimCore_eq_self_iff.mpr ⟨?_, ?_⟩
  · intro e he
    rw [hh] at he
    cases Option.some.inj he
    exact hc
  · intro e he
    rw [hg] at he
    cases Option.some.inj he
    exact hd

/-! ### Splitting and joining lines -/

theorem linesCore_ne_nil (l : List Char) : linesCore l ≠ [] := by
  cases l with
  | nil => exact fun h => List.noConfusion h
  | cons c cs =>
    rw [linesCore]
    cases hs : linesCore cs with
    | nil => exact fun h => List.noConfusion h
    | cons x xs =>
      show (if c = '\n' then [] :: x :: xs else (c :: x) :: xs) ≠ []
      by_cases hc : c = '\n'
      · rw [if_pos hc]
        exact fun h => List.noConfusion h
      · rw [if_neg hc]
        exact fun h => List.noConfusion h

theorem linesCore_no_nl {l : List Char} (h : l.contains '\n' = false) :
    linesCore l = [l] := by
  induction l with
  | nil => rfl
  | cons c cs ih =>
    rw [List.contains_cons, Bool.or_eq_false_iff] at h
    rw [linesCore, ih h.2]
    have : (c = '\n') = False := by
      simp only [eq_iff_iff, iff_false]
      intro hcc
      rw [hcc] at h
      simp at h
    simp [this]

theorem linesCore_append_nl {l : List Char} (r : List Char)
    (h : l.contains '\n' = false) :
    linesCore (l ++ '\n' :: r) = l :: linesCore r := by
  induction l with
  | nil =>
    rw [List.nil_append, linesCore]
    cases hs : linesCore r with
    | nil => exact absurd hs (linesCore_ne_nil r)
    | cons x xs => simp
  | cons c cs ih =>
    rw [List.contains_cons, Bool.or_eq_false_iff] at h
    rw [List.cons_append, linesCore, ih h.2]
    have : (c = '\n') = False := by
      simp only [eq_iff_iff, iff_false]
      intro hcc
      rw [hcc] at h
      simp at h
    simp [this]

theorem joinCore_cons (l : List Char) (ls : List (List Char)) (h : ls ≠ []) :
    joinCore (l :: ls) = l ++ '\n' :: joinCore ls := by
  cases ls with
  | nil => exact absurd rfl h
  | cons y ys => rfl

theorem linesCore_joinCore {ls : List (List Char)} (hne : ls ≠ [])
    (h : ∀ x ∈ ls, x.contains '\n' = false) :
    linesCore (joinCore ls) = ls := by
  induction ls with
  | nil => exact absurd rfl hne
  | cons x ys ih =>
    cases ys with
    | nil =>
      rw [show joinCore [x] = x from rfl]
      exact linesCore_no_nl (h x (List.mem_cons_self x []))
    | cons y zs =>
      rw [joinCore_cons x (y :: zs) (fun hh => List.noConfusion hh),
        linesCore_append_nl _ (h x (List.mem_cons_self _ _)),
        ih (fun hh => List.noConfusion hh) (fun z hz => h z (List.mem_cons_of_mem x hz))]

theorem joinCore_concat_nil {M : List (List Char)} (h : M ≠ []) :
    joinCore (M ++ [[]]) = joinCore M ++ ['\n'] := by
  induction M with
  | nil => exact absurd rfl h
  | cons x ys ih =>
    cases ys with
    | nil => rfl
    | cons y zs =>
      rw [List.cons_append,
        joinCore_cons x ((y :: zs) ++ [[]]) (by simp),
        joinCore_cons x (y :: zs) (fun hh => List.noConfusion hh),
        ih (fun hh => List.noConfusion hh), List.append_assoc]
      rfl

theorem joinCore_head? {x : List Char} {M : List (List Char)} (hx : x ≠ []) :
    (joinCore (x :: M)).head? = x.head? := by
  cases M with
  | nil => rfl
  | cons y ys =>
    rw [joinCore_cons x (y :: ys) (fun hh => List.noConfusion hh), List.head?_append]
    cases x with
    | nil => exact absurd rfl hx
    | cons c cs => rfl

theorem joinCore_getLast? {M : List (List Char)} {x : List Char} :
    ∀ (hM : M ≠ []), M.getLast (by exact hM) = x → x ≠ [] →
      (joinCore M).getLast? = x.getLast? := by
  induction M with
  | nil => intro h; exact absurd rfl h
  | cons y ys ih =>
    intro hM hlast hx
    cases ys with
    | nil =>
      rw [List.getLast_singleton] at hlast
      rw [show joinCore [y] = y from rfl, hlast]
    | cons z zs =>
      have hne : z :: zs ≠ [] := fun hh => List.noConfusion hh
      rw [List.getLast_cons hne] at hlast
      have hJ : (joinCore (z :: zs)).getLast? = x.getLast? := ih hne hlast hx
      obtain ⟨c, hc⟩ : ∃ c, x.getLast? = some c := by
        cases hxx : x.getLast? with
        | none => exact absurd (List.getLast?_eq_none_iff.mp hxx) hx
        | some c => exact ⟨c, rfl⟩
      rw [joinCore_cons y (z :: zs) hne, List.getLast?_append,
        show ('\n' :: joinCore (z :: zs)) = ['\n'] ++ joinCore (z :: zs) from rfl,
        List.getLast?_append, hJ, hc]
      rfl

/-! ### Prefix tests, containment and capture groups, character facts -/

theorem isPrefixCore_cons₂ (a b : Char) (as bs : List Char) :
    isPrefixCore (a :: as) (b :: bs) = (a == b && isPrefixCore as bs) := rfl

theorem isPrefixCore_cons_nil (a : Char) (as : List Char) :
    isPrefixCore (a :: as) [] = false := rfl

theorem isPrefixCore_cons_ne {a b : Char} (as bs : List Char) (h : a ≠ b) :
    isPrefixCore (a :: as) (b :: bs) = false := by
  rw [isPrefixCore_cons₂, beq_eq_false_iff_ne.mpr h, Bool.false_and]

theorem hasPrefixS_trans_false {p q s : String}
    (h : hasPrefixS p s = false) (hpq : isPrefixCore p.data (p.data ++ q.data) = true) :
    hasPrefixS (p ++ q) s = false := by
  cases hc : hasPrefixS (p ++ q) s
  · rfl
  · exfalso
    unfold hasPrefixS at hc h
    rw [String.data_append] at hc
    have h1 := isPrefixCore_iff.mp hc
    have h2 := (isPrefixCore_iff.mp hpq).trans h1
    rw [isPrefixCore_iff.mpr h2] at h
    exact Bool.noConfusion h

theorem contains_false_iff {l : List Char} {c : Char} :
    l.contains c = false ↔ c ∉ l := by
  rw [show l.contains c = l.elem c from rfl]
  constructor
  · intro h hm
    rw [List.elem_iff.mpr hm] at h
    exact Bool.noConfusion h
  · intro h
    cases he : l.elem c
    · rfl
    · exact absurd (List.elem_iff.mp he) h

theorem occursIn_head_notMem {c : Char} {pat l : List Char} (hp : pat.head? = some c)
    (h : c ∉ l) : occursIn pat l = false := by
  obtain ⟨pt, hpt⟩ : ∃ pt, pat = c :: pt := by
    cases pat with
    | nil => exact Option.noConfusion hp
    | cons a t => exact ⟨t, by rw [Option.some.inj hp]⟩
  induction l with
  | nil =>
    rw [hpt]
    unfold occursIn
    rw [splitAtFirstCore, if_neg (fun hh => List.noConfusion hh)]
    rfl
  | cons x xs ih =>
    rw [occursIn_cons]
    have hcx : c ≠ x := fun he => h (he ▸ List.mem_cons_self x xs)
    have hx : isPrefixCore pat (x :: xs) = false := by
      rw [hpt]
      exact isPrefixCore_cons_ne _ _ hcx
    rw [hx, Bool.false_or]
    exact ih (fun hm => h (List.mem_cons_of_mem x hm))

theorem splitAtFirst_eq_none {pat l : List Char} (h : occursIn pat l = false) :
    splitAtFirstCore pat l = none := by
  unfold occursIn at h
  cases hs : splitAtFirstCore pat l
  · rfl
  · rw [hs] at h
    simp at h

theorem takeWhile_all {p : Char → Bool} {l : List Char} (h : ∀ c ∈ l, p c = true) :
    l.takeWhile p = l := by
  induction l with
  | nil => rfl
  | cons x xs ih =>
    rw [List.takeWhile_cons, if_pos (h x (List.mem_cons_self _ _)),
      ih (fun c hc => h c (List.mem_cons_of_mem x hc))]

theorem takeWhile_append_stop {p : Char → Bool} {a : List Char} {c : Char} (t : List Char)
    (ha : ∀ x ∈ a, p x = true) (hc : p c = false) :
    (a ++ c :: t).takeWhile p = a := by
  induction a with
  | nil =>
    rw [List.nil_append, List.takeWhile_cons,
      if_neg (by rw [hc]; exact Bool.noConfusion)]
  | cons x xs ih =>
    rw [List.cons_append, List.takeWhile_cons, if_pos (ha x (List.mem_cons_self _ _)),
      ih (fun y hy => ha y (List.mem_cons_of_mem x hy))]

theorem dropWhile_ws_cons {l : List Char} {c : Char} (hc : pyWS c = true)
    (h : ∀ d, l.head? = some d → pyWS d = false) :
    (c :: l).dropWhile pyWS = l := by
  rw [List.dropWhile_cons, if_pos hc, dropWhile_eq_self_iff_head.mpr h]

theorem drop_append_length {a : List Char} (b : List Char) {n : Nat} (h : a.length = n) :
    (a ++ b).drop n = b := by
  rw [← h]
  exact List.drop_left _ _

/-! ### Digits -/

theorem digitChar_spec : ∀ k, k < 10 →
    (isDigitC (digitChar k) = true ∧ digitVal (digitChar k) = k ∧
     pyWS (digitChar k) = false ∧ digitChar k ≠ '\n' ∧ digitChar k ≠ '#' ∧
     digitChar k ≠ '-' ∧ digitChar k ≠ ',' ∧ digitChar k ≠ ')' ∧
     digitChar k ≠ '(') := by decide

theorem mod10_lt (n : Nat) : n % 10 < 10 := Nat.mod_lt _ (by omega)

theorem pad2_data (n : Nat) :
    (pad2 n).data = [digitChar (n / 10 % 10), digitChar (n % 10)] := rfl

theorem pad4_data (n : Nat) :
    (pad4 n).data = [digitChar (n / 1000 % 10), digitChar (n / 100 % 10),
      digitChar (n / 10 % 10), digitChar (n % 10)] := rfl

theorem strftimeISO_data (d : PyDate) :
    (PyDate.strftimeISO d).data =
      digitChar (d.year / 1000 % 10) :: digitChar (d.year / 100 % 10) ::
      digitChar (d.year / 10 % 10) :: digitChar (d.year % 10) :: '-' ::
      digitChar (d.month / 10 % 10) :: digitChar (d.month % 10) :: '-' ::
      digitChar (d.day / 10 % 10) :: digitChar (d.day % 10) :: [] := rfl

theorem strftimeMinute_data (t : PyDateTime) :
    (PyDateTime.strftimeMinute t).data =
      digitChar (t.year / 1000 % 10) :: digitChar (t.year / 100 % 10) ::
      digitChar (t.year / 10 % 10) :: digitChar (t.year % 10) :: '-' ::
      digitChar (t.month / 10 % 10) :: digitChar (t.month % 10) :: '-' ::
      digitChar (t.day / 10 % 10) :: digitChar (t.day % 10) :: ' ' ::
      digitChar (t.hour / 10 % 10) :: digitChar (t.hour % 10) :: ':' ::
      digitChar (t.minute / 10 % 10) :: digitChar (t.minute % 10) :: [] := rfl

theorem matchDate_strftimeISO {d : PyDate} (h1 : d.ValidB = true) :
    matchDateCore (PyDate.strftimeISO d).data = some ((d.year, d.month, d.day), []) := by
  obtain ⟨y, m, dd⟩ := d
  unfold PyDate.ValidB dateValidB at h1
  simp only [Bool.and_eq_true, decide_eq_true_eq] at h1
  obtain ⟨⟨⟨⟨⟨hy1, hy2⟩, hm1⟩, hm2⟩, hd1⟩, hd2⟩ := h1
  rw [strftimeISO_data]
  rw [matchDateCore]
  rw [if_pos (by
    rw [(digitChar_spec _ (mod10_lt _)).1, (digitChar_spec _ (mod10_lt _)).1,
      (digitChar_spec _ (mod10_lt _)).1, (digitChar_spec _ (mod10_lt _)).1,
      (digitChar_spec _ (mod10_lt _)).1, (digitChar_spec _ (mod10_lt _)).1,
      (digitChar_spec _ (mod10_lt _)).1, (digitChar_spec _ (mod10_lt _)).1]
    rfl)]
  rw [(digitChar_spec _ (mod10_lt _)).2.1, (digitChar_spec _ (mod10_lt _)).2.1,
    (digitChar_spec _ (mod10_lt _)).2.1, (digitChar_spec _ (mod10_lt _)).2.1,
    (digitChar_spec _ (mod10_lt _)).2.1, (digitChar_spec _ (mod10_lt _)).2.1,
    (digitChar_spec _ (mod10_lt _)).2.1, (digitChar_spec _ (mod10_lt _)).2.1]
  have hY : ((y / 1000 % 10 * 10 + y / 100 % 10) * 10 + y / 10 % 10) * 10 + y % 10 = y := by
    omega
  have hM : m / 10 % 10 * 10 + m % 10 = m := by omega
  have hD : dd / 10 % 10 * 10 + dd % 10 = dd := by omega
  rw [hY, hM, hD]

theorem matchDate_strftimeMinute (y m dd hh mi se : Nat) (hy : y ≤ 9999)
    (hmm : m ≤ 99) (hdd : dd ≤ 99) :
    matchDateCore (PyDateTime.strftimeMinute ⟨y, m, dd, hh, mi, se⟩).data =
      some ((y, m, dd),
        [' ', digitChar (hh / 10 % 10), digitChar (hh % 10), ':',
         digitChar (mi / 10 % 10), digitChar (mi % 10)]) := by
  rw [strftimeMinute_data]
  dsimp only
  rw [matchDateCore]
  rw [if_pos (by
    rw [(digitChar_spec _ (mod10_lt _)).1, (digitChar_spec _ (mod10_lt _)).1,
      (digitChar_spec _ (mod10_lt _)).1, (digitChar_spec _ (mod10_lt _)).1,
      (digitChar_spec _ (mod10_lt _)).1, (digitChar_spec _ (mod10_lt _)).1,
      (digitChar_spec _ (mod10_lt _)).1, (digitChar_spec _ (mod10_lt _)).1]
    rfl)]
  rw [(digitChar_spec _ (mod10_lt _)).2.1, (digitChar_spec _ (mod10_lt _)).2.1,
    (digitChar_spec _ (mod10_lt _)).2.1, (digitChar_spec _ (mod10_lt _)).2.1,
    (digitChar_spec _ (mod10_lt _)).2.1, (digitChar_spec _ (mod10_lt _)).2.1,
    (digitChar_spec _ (mod10_lt _)).2.1, (digitChar_spec _ (mod10_lt _)).2.1]
  have hY : ((y / 1000 % 10 * 10 + y / 100 % 10) * 10 + y / 10 % 10) * 10 + y % 10 = y := by
    omega
  have hM : m / 10 % 10 * 10 + m % 10 = m := by omega
  have hD : dd / 10 % 10 * 10 + dd % 10 = dd := by omega
  rw [hY, hM, hD]

theorem strptimeMinute_eval {s : String} {y m d : Nat} {c1 c2 c3 c4 : Char}
    (hm : matchDateCore s.data = some ((y, m, d), [' ', c1, c2, ':', c3, c4])) :
    strptimeMinute s =
      (if (isDigitC c1 && isDigitC c2 && isDigitC c3 && isDigitC c4) = true then
        (if (dateValidB y m d && decide (digitVal c1 * 10 + digitVal c2 ≤ 23) &&
              decide (digitVal c3 * 10 + digitVal c4 ≤ 59)) = true then
          some ⟨y, m, d, digitVal c1 * 10 + digitVal c2, digitVal c3 * 10 + digitVal c4, 0⟩
        else none)
      else none) := by
  unfold strptimeMinute
  rw [hm]
  rfl

theorem strptime_strftimeMinute {t : PyDateTime} (hv : t.ValidB = true) (hs : t.second = 0) :
    strptimeMinute (PyDateTime.strftimeMinute t) = some t := by
  obtain ⟨y, m, dd, hh, mi, se⟩ := t
  unfold PyDateTime.ValidB dateValidB at hv
  simp only [Bool.and_eq_true, decide_eq_true_eq] at hv
  obtain ⟨⟨⟨⟨⟨⟨⟨⟨hy1, hy2⟩, hm1⟩, hm2⟩, hd1⟩, hd2⟩, hh1⟩, hn1⟩, hs2⟩ := hv
  simp only at hs
  subst hs
  rw [strptimeMinute_eval (matchDate_strftimeMinute y m dd hh mi 0 hy2 (by omega) (by omega))]
  rw [if_pos (by
    rw [(digitChar_spec _ (mod10_lt _)).1, (digitChar_spec _ (mod10_lt _)).1,
      (digitChar_spec _ (mod10_lt _)).1, (digitChar_spec _ (mod10_lt _)).1]
    rfl)]
  rw [(digitChar_spec _ (mod10_lt _)).2.1, (digitChar_spec _ (mod10_lt _)).2.1,
    (digitChar_spec _ (mod10_lt _)).2.1, (digitChar_spec _ (mod10_lt _)).2.1]
  have hH : hh / 10 % 10 * 10 + hh % 10 = hh := by omega
  have hMi : mi / 10 % 10 * 10 + mi % 10 = mi := by omega
  rw [hH, hMi]
  rw [if_pos (by
    unfold dateValidB
    rw [decide_eq_true hy1, decide_eq_true hy2, decide_eq_true hm1,
      decide_eq_true hm2, decide_eq_true hd1, decide_eq_true hd2,
      decide_eq_true hh1, decide_eq_true hn1]
    rfl)]

/-! ### Locating a pattern in a rendered document -/

theorem stringEta (s : String) : (⟨s.data⟩ : String) = s := by
  cases s
  rfl

theorem containsS_eq (s pat : String) : containsS s pat = occursIn pat.data s.data := rfl

theorem splitAtFirst_found (pat a t : List Char) (hp : pat ≠ [])
    (ha : occursIn pat a = false)
    (hstrad : ∀ k, k < pat.length → 0 < k →
      ¬ ((pat.take k) <:+ a ∧ (pat.drop k) <+: (pat ++ t))) :
    splitAtFirstCore pat (a ++ (pat ++ t)) = some (a, t) := by
  rw [splitAtFirst_append pat a (pat ++ t) ha hstrad, splitAtFirst_self pat t hp]
  simp

theorem strad_discharge_left (pat a : List Char)
    (h : ∀ k, k < pat.length → 0 < k → ¬ ((pat.take k) <:+ a)) :
    ∀ (b : List Char), ∀ k, k < pat.length → 0 < k →
      ¬ ((pat.take k) <:+ a ∧ (pat.drop k) <+: b) :=
  fun _ k h1 h2 hcon => h k h1 h2 hcon.1

theorem strad_discharge_head (pat : List Char) (c : Char) (x : List Char)
    (hc : ∀ k, k < pat.length → 0 < k → (pat.drop k).head? ≠ some c) :
    ∀ (a : List Char), ∀ k, k < pat.length → 0 < k →
      ¬ ((pat.take k) <:+ a ∧ (pat.drop k) <+: (c :: x)) := by
  intro a k h1 h2 hcon
  obtain ⟨t, ht⟩ := hcon.2
  cases hd : pat.drop k with
  | nil =>
    have h3 := congrArg List.length hd
    rw [List.length_drop] at h3
    simp only [List.length_nil] at h3
    omega
  | cons d ds =>
    rw [hd, List.cons_append] at ht
    have hdc : d = c := (List.cons.inj ht).1
    exact hc k h1 h2 (by rw [hd, hdc]; rfl)

/-! ### Evaluating the searchers once the split is known -/

theorem searchLabelValue_eval {label md : String} {b after : List Char}
    (h : splitAtFirstCore label.data md.data = some (b, after)) :
    searchLabelValue label md =
      (if (after.dropWhile pyWS).isEmpty then none
       else some (pyStrip ⟨(after.dropWhile pyWS).takeWhile (fun c => c ≠ '\n')⟩)) := by
  unfold searchLabelValue
  rw [h]

theorem searchLabelValue_none {label md : String}
    (h : occursIn label.data md.data = false) :
    searchLabelValue label md = none := by
  unfold searchLabelValue
  rw [splitAtFirst_eq_none h]

theorem searchAssigneeComma_eval {content : String} {b after : List Char}
    (h : splitAtFirstCore "担当:".data content.data = some (b, after)) :
    searchAssigneeComma content =
      (if ((after.dropWhile pyWS).takeWhile (fun c => c ≠ ',')).isEmpty then none
       else some (pyStrip ⟨(after.dropWhile pyWS).takeWhile (fun c => c ≠ ',')⟩)) := by
  unfold searchAssigneeComma
  rw [h]

theorem searchDueDate_eval {content : String} {b after : List Char}
    (h : splitAtFirstCore "期限:".data content.data = some (b, after)) :
    searchDueDate content =
      (match matchDateDigits (after.dropWhile pyWS) with
       | some cs => dateFromIso ⟨cs⟩
       | none => none) := by
  unfold searchDueDate
  rw [h]

theorem searchDueDate_none {content : String}
    (h : occursIn "期限:".data content.data = false) :
    searchDueDate content = none := by
  unfold searchDueDate
  rw [splitAtFirst_eq_none h]

theorem searchAssigneeParen_eval {details : String} {b after : List Char}
    (h : splitAtFirstCore "担当:".data details.data = some (b, after)) :
    MinutesFormatter.searchAssigneeParen details =
      (if ((after.dropWhile pyWS).takeWhile (fun c => c ≠ ',' && c ≠ ')')).isEmpty then none
       else some (pyStrip ⟨(after.dropWhile pyWS).takeWhile (fun c => c ≠ ',' && c ≠ ')')⟩)) := by
  unfold MinutesFormatter.searchAssigneeParen
  rw [h]

theorem searchDueStr_eval {details : String} {b after : List Char}
    (h : splitAtFirstCore "期限:".data details.data = some (b, after)) :
    MinutesFormatter.searchDueStr details =
      (matchDateDigits (after.dropWhile pyWS)).map (fun cs => pyStrip ⟨cs⟩) := by
  unfold MinutesFormatter.searchDueStr
  rw [h]

theorem searchDueStr_none {details : String}
    (h : occursIn "期限:".data details.data = false) :
    MinutesFormatter.searchDueStr details = none := by
  unfold MinutesFormatter.searchDueStr
  rw [splitAtFirst_eq_none h]

theorem dateFromIso_eval {s : String} {y m d : Nat}
    (h : matchDateCore s.data = some ((y, m, d), [])) :
    dateFromIso s = (if dateValidB y m d then some ⟨y, m, d⟩ else none) := by
  unfold dateFromIso
  rw [h]

/-! ### More digit facts -/

theorem isDigitC_props {c : Char} (h : isDigitC c = true) :
    pyWS c = false ∧ c ≠ '\n' ∧ c ≠ '#' ∧ c ≠ '-' ∧ c ≠ ',' ∧ c ≠ ')' ∧
      c ≠ '(' ∧ c ≠ '[' ∧ c ≠ '*' := by
  unfold isDigitC at h
  rw [Bool.and_eq_true, decide_eq_true_eq, decide_eq_true_eq] at h
  obtain ⟨h1, h2⟩ := h
  refine ⟨?_, ?_, ?_, ?_, ?_, ?_, ?_, ?_, ?_⟩
  · unfold pyWS
    rw [decide_eq_false (by intro he; subst he; exact absurd h1 (by decide)),
      decide_eq_false (by intro he; subst he; exact absurd h1 (by decide)),
      decide_eq_false (by intro he; subst he; exact absurd h1 (by decide)),
      decide_eq_false (by intro he; subst he; exact absurd h1 (by decide)),
      decide_eq_false (by intro he; subst he; exact absurd h1 (by decide)),
      decide_eq_false (by intro he; subst he; exact absurd h1 (by decide))]
    rfl
  · intro he; subst he; exact absurd h1 (by decide)
  · intro he; subst he; exact absurd h1 (by decide)
  · intro he; subst he; exact absurd h1 (by decide)
  · intro he; subst he; exact absurd h1 (by decide)
  · intro he; subst he; exact absurd h1 (by decide)
  · intro he; subst he; exact absurd h1 (by decide)
  · intro he; subst he; exact absurd h2 (by decide)
  · intro he; subst he; exact absurd h1 (by decide)

theorem matchDateCore_shape {l : List Char} {v : Nat × Nat × Nat} {rest : List Char}
    (h : matchDateCore l = some (v, rest)) :
    ∃ y1 y2 y3 y4 m1 m2 d1 d2,
      l = y1 :: y2 :: y3 :: y4 :: '-' :: m1 :: m2 :: '-' :: d1 :: d2 :: rest ∧
      isDigitC y1 = true ∧ isDigitC y2 = true ∧ isDigitC y3 = true ∧
      isDigitC y4 = true ∧ isDigitC m1 = true ∧ isDigitC m2 = true ∧
      isDigitC d1 = true ∧ isDigitC d2 = true := by
  unfold matchDateCore at h
  split at h
  · rename_i y1 y2 y3 y4 m1 m2 d1 d2 rest2
    split at h
    · rename_i hdig
      simp only [Bool.and_eq_true] at hdig
      obtain ⟨⟨⟨⟨⟨⟨⟨hy1, hy2⟩, hy3⟩, hy4⟩, hm1⟩, hm2⟩, hd1⟩, hd2⟩ := hdig
      have hr : rest2 = rest := (Prod.mk.injEq _ _ _ _ ▸ Option.some.inj h).2
      subst hr
      exact ⟨y1, y2, y3, y4, m1, m2, d1, d2, rfl, hy1, hy2, hy3, hy4, hm1, hm2, hd1, hd2⟩
    · exact Option.noConfusion h
  · exact Option.noConfusion h

theorem matchDate_strftimeISO_append {d : PyDate} (rest : List Char) (h1 : d.ValidB = true) :
    matchDateCore ((PyDate.strftimeISO d).data ++ rest) = some ((d.year, d.month, d.day), rest) := by
  obtain ⟨y, m, dd⟩ := d
  unfold PyDate.ValidB dateValidB at h1
  simp only [Bool.and_eq_true, decide_eq_true_eq] at h1
  obtain ⟨⟨⟨⟨⟨hy1, hy2⟩, hm1⟩, hm2⟩, hd1⟩, hd2⟩ := h1
  rw [strftimeISO_data]
  rw [show (digitChar (PyDate.year ⟨y, m, dd⟩ / 1000 % 10) :: digitChar (PyDate.year ⟨y, m, dd⟩ / 100 % 10) ::
      digitChar (PyDate.year ⟨y, m, dd⟩ / 10 % 10) :: digitChar (PyDate.year ⟨y, m, dd⟩ % 10) :: '-' ::
      digitChar (PyDate.month ⟨y, m, dd⟩ / 10 % 10) :: digitChar (PyDate.month ⟨y, m, dd⟩ % 10) :: '-' ::
      digitChar (PyDate.day ⟨y, m, dd⟩ / 10 % 10) :: digitChar (PyDate.day ⟨y, m, dd⟩ % 10) :: []) ++ rest =
      digitChar (y / 1000 % 10) :: digitChar (y / 100 % 10) ::
      digitChar (y / 10 % 10) :: digitChar (y % 10) :: '-' ::
      digitChar (m / 10 % 10) :: digitChar (m % 10) :: '-' ::
      digitChar (dd / 10 % 10) :: digitChar (dd % 10) :: rest from rfl]
  rw [matchDateCore]
  rw [if_pos (by
    rw [(digitChar_spec _ (mod10_lt _)).1, (digitChar_spec _ (mod10_lt _)).1,
      (digitChar_spec _ (mod10_lt _)).1, (digitChar_spec _ (mod10_lt _)).1,
      (digitChar_spec _ (mod10_lt _)).1, (digitChar_spec _ (mod10_lt _)).1,
      (digitChar_spec _ (mod10_lt _)).1, (digitChar_spec _ (mod10_lt _)).1]
    rfl)]
  rw [(digitChar_spec _ (mod10_lt _)).2.1, (digitChar_spec _ (mod10_lt _)).2.1,
    (digitChar_spec _ (mod10_lt _)).2.1, (digitChar_spec _ (mod10_lt _)).2.1,
    (digitChar_spec _ (mod10_lt _)).2.1, (digitChar_spec _ (mod10_lt _)).2.1,
    (digitChar_spec _ (mod10_lt _)).2.1, (digitChar_spec _ (mod10_lt _)).2.1]
  have hY : ((y / 1000 % 10 * 10 + y / 100 % 10) * 10 + y / 10 % 10) * 10 + y % 10 = y := by
    omega
  have hM : m / 10 % 10 * 10 + m % 10 = m := by omega
  have hD : dd / 10 % 10 * 10 + dd % 10 = dd := by omega
  rw [hY, hM, hD]

theorem take_append_length {a : List Char} (b : List Char) {n : Nat} (h : a.length = n) :
    (a ++ b).take n = a := by
  rw [← h]
  exact List.take_left _ _

/-! ### Cleanliness unpacked -/

theorem data_eq_nil_iff {s : String} : s.data = [] ↔ s = "" := by
  constructor
  · intro h
    rw [← stringEta s, h]
  · intro h
    rw [h]

theorem cleanField_parts {s : String} (h : cleanField s = true) :
    s.data ≠ [] ∧ trimCore s.data = s.data ∧ s.data.contains '\n' = false ∧
    occursIn "担当:".data s.data = false ∧ occursIn "期限:".data s.data = false := by
  unfold cleanField at h
  simp only [Bool.and_eq_true, Bool.not_eq_true', decide_eq_true_eq] at h
  obtain ⟨⟨⟨⟨h1, h2⟩, h3⟩, h4⟩, h5⟩ := h
  exact ⟨fun hh => h1 (data_eq_nil_iff.mp hh), congrArg String.data h2, h3, h4, h5⟩

theorem cleanItem_parts {s : String} (h : cleanItem s = true) :
    s.data ≠ [] ∧ trimCore s.data = s.data ∧ s.data.contains '\n' = false := by
  unfold cleanItem at h
  simp only [Bool.and_eq_true, Bool.not_eq_true', decide_eq_true_eq] at h
  obtain ⟨⟨h1, h2⟩, h3⟩ := h
  exact ⟨fun hh => h1 (data_eq_nil_iff.mp hh), congrArg String.data h2, h3⟩

/-! ### Stripping rendered lines -/

theorem trimCore_concrete_field {p v : List Char} {c : Char}
    (hp : p.head? = some c) (hc : pyWS c = false)
    (hv : trimCore v = v) (hvne : v ≠ []) :
    trimCore (p ++ v) = p ++ v := by
  refine trimCore_eq_self_iff.mpr ⟨?_, ?_⟩
  · intro d hd
    rw [List.head?_append, hp] at hd
    have hd2 : some c = some d := hd
    cases Option.some.inj hd2
    exact hc
  · intro d hd
    rw [List.getLast?_append] at hd
    obtain ⟨e, he⟩ : ∃ e, v.getLast? = some e := by
      cases hv2 : v.getLast? with
      | none => exact absurd (List.getLast?_eq_none_iff.mp hv2) hvne
      | some e => exact ⟨e, rfl⟩
    rw [he] at hd
    have hd2 : some e = some d := hd
    cases Option.some.inj hd2
    exact (trimCore_eq_self_iff.mp hv).2 _ he

theorem mem_of_contains_false {l : List Char} {c x : Char}
    (h : l.contains c = false) (hx : x ∈ l) : x ≠ c :=
  fun he => (contains_false_iff.mp h) (he ▸ hx)

/-! ### The detail-line chain of `updateDetail` -/

theorem UD_desc (st : Task_Formatter.DetailState) (d : String)
    (hd : cleanField d = true) :
    Task_Formatter.updateDetail st ("  - 説明: " ++ d) =
      { st with description := some d } := by
  obtain ⟨hne, htrim, hnl, hTan, hKig⟩ := cleanField_parts hd
  have hstrip : pyStrip ("  - 説明: " ++ d) = ⟨"- 説明: ".data ++ d.data⟩ := by
    unfold pyStrip
    rw [show ("  - 説明: " ++ d).data = ' ' :: ' ' :: ("- 説明: ".data ++ d.data) from rfl,
      trimCore_cons_ws _ (by decide), trimCore_cons_ws _ (by decide),
      trimCore_concrete_field (p := "- 説明: ".data) (c := '-') rfl (by decide) htrim hne]
  have hcontent : pyStrip (charDrop 2 (⟨"- 説明: ".data ++ d.data⟩ : String)) =
      ⟨"説明: ".data ++ d.data⟩ := by
    rw [show charDrop 2 (⟨"- 説明: ".data ++ d.data⟩ : String) =
        ⟨"説明: ".data ++ d.data⟩ from rfl]
    unfold pyStrip
    rw [show (⟨"説明: ".data ++ d.data⟩ : String).data = "説明: ".data ++ d.data from rfl,
      trimCore_concrete_field (p := "説明: ".data) (c := '説') rfl (by decide) htrim hne]
  have hTan2 : containsS ⟨"説明: ".data ++ d.data⟩ "担当:" = false := by
    rw [containsS_eq]
    rw [show (⟨"説明: ".data ++ d.data⟩ : String).data = "説明: ".data ++ d.data from rfl]
    exact occursIn_append_false _ _ _ (by decide) hTan
      (strad_discharge_left _ _ (by decide) _)
  have hKig2 : containsS ⟨"説明: ".data ++ d.data⟩ "期限:" = false := by
    rw [containsS_eq]
    rw [show (⟨"説明: ".data ++ d.data⟩ : String).data = "説明: ".data ++ d.data from rfl]
    exact occursIn_append_false _ _ _ (by decide) hKig
      (strad_discharge_left _ _ (by decide) _)
  have hpre : hasPrefixS "説明:" ⟨"説明: ".data ++ d.data⟩ = true := by
    unfold hasPrefixS
    rw [show (⟨"説明: ".data ++ d.data⟩ : String).data = "説明: ".data ++ d.data from rfl,
      isPrefixCore_short _ (by decide)]
    decide
  have htail : pyStrip (charDrop 3 (⟨"説明: ".data ++ d.data⟩ : String)) = d := by
    rw [show charDrop 3 (⟨"説明: ".data ++ d.data⟩ : String) = ⟨' ' :: d.data⟩ from rfl]
    unfold pyStrip
    rw [show (⟨' ' :: d.data⟩ : String).data = ' ' :: d.data from rfl,
      trimCore_cons_ws _ (by decide), htrim]
  unfold Task_Formatter.updateDetail
  rw [hstrip]
  have hdash : hasPrefixS "- " (⟨"- 説明: ".data ++ d.data⟩ : String) = true := by
    unfold hasPrefixS
    rw [show (⟨"- 説明: ".data ++ d.data⟩ : String).data = "- 説明: ".data ++ d.data from rfl,
      isPrefixCore_short _ (by decide)]
    decide
  rw [if_pos hdash, hcontent]
  simp only [hTan2, hKig2, hpre, htail, Bool.false_and, Bool.false_eq_true,
    if_false, if_true]

theorem UD_id (st : Task_Formatter.DetailState) (i : String)
    (hd : cleanField i = true) :
    Task_Formatter.updateDetail st ("  - ID: " ++ i) =
      { st with task_id := some i } := by
  obtain ⟨hne, htrim, hnl, hTan, hKig⟩ := cleanField_parts hd
  have hstrip : pyStrip ("  - ID: " ++ i) = ⟨"- ID: ".data ++ i.data⟩ := by
    unfold pyStrip
    rw [show ("  - ID: " ++ i).data = ' ' :: ' ' :: ("- ID: ".data ++ i.data) from rfl,
      trimCore_cons_ws _ (by decide), trimCore_cons_ws _ (by decide),
      trimCore_concrete_field (p := "- ID: ".data) (c := '-') rfl (by decide) htrim hne]
  have hcontent : pyStrip (charDrop 2 (⟨"- ID: ".data ++ i.data⟩ : String)) =
      ⟨"ID: ".data ++ i.data⟩ := by
    rw [show charDrop 2 (⟨"- ID: ".data ++ i.data⟩ : String) =
        ⟨"ID: ".data ++ i.data⟩ from rfl]
    unfold pyStrip
    rw [show (⟨"ID: ".data ++ i.data⟩ : String).data = "ID: ".data ++ i.data from rfl,
      trimCore_concrete_field (p := "ID: ".data) (c := 'I') rfl (by decide) htrim hne]
  have hTan2 : containsS ⟨"ID: ".data ++ i.data⟩ "担当:" = false := by
    rw [containsS_eq]
    rw [show (⟨"ID: ".data ++ i.data⟩ : String).data = "ID: ".data ++ i.data from rfl]
    exact occursIn_append_false _ _ _ (by decide) hTan
      (strad_discharge_left _ _ (by decide) _)
  have hKig2 : containsS ⟨"ID: ".data ++ i.data⟩ "期限:" = false := by
    rw [containsS_eq]
    rw [show (⟨"ID: ".data ++ i.data⟩ : String).data = "ID: ".data ++ i.data from rfl]
    exact occursIn_append_false _ _ _ (by decide) hKig
      (strad_discharge_left _ _ (by decide) _)
  have hpreS : hasPrefixS "説明:" (⟨"ID: ".data ++ i.data⟩ : String) = false := by
    unfold hasPrefixS
    rw [show (⟨"ID: ".data ++ i.data⟩ : String).data = "ID: ".data ++ i.data from rfl,
      isPrefixCore_short _ (by decide)]
    decide
  have hpreI : hasPrefixS "ID:" (⟨"ID: ".data ++ i.data⟩ : String) = true := by
    unfold hasPrefixS
    rw [show (⟨"ID: ".data ++ i.data⟩ : String).data = "ID: ".data ++ i.data from rfl,
      isPrefixCore_short _ (by decide)]
    decide
  have htail : pyStrip (charDrop 3 (⟨"ID: ".data ++ i.data⟩ : String)) = i := by
    rw [show charDrop 3 (⟨"ID: ".data ++ i.data⟩ : String) = ⟨' ' :: i.data⟩ from rfl]
    unfold pyStrip
    rw [show (⟨' ' :: i.data⟩ : String).data = ' ' :: i.data from rfl,
      trimCore_cons_ws _ (by decide), htrim]
  unfold Task_Formatter.updateDetail
  rw [hstrip]
  have hdash : hasPrefixS "- " (⟨"- ID: ".data ++ i.data⟩ : String) = true := by
    unfold hasPrefixS
    rw [show (⟨"- ID: ".data ++ i.data⟩ : String).data = "- ID: ".data ++ i.data from rfl,
      isPrefixCore_short _ (by decide)]
    decide
  rw [if_pos hdash, hcontent]
  simp only [hTan2, hKig2, hpreS, hpreI, htail, Bool.false_and, Bool.false_eq_true,
    if_false, if_true]

theorem UD_quote (st : Task_Formatter.DetailState) (q : String)
    (hd : cleanField q = true) :
    Task_Formatter.updateDetail st ("  - 引用: " ++ q) =
      { st with source_quote := some q } := by
  obtain ⟨hne, htrim, hnl, hTan, hKig⟩ := cleanField_parts hd
  have hstrip : pyStrip ("  - 引用: " ++ q) = ⟨"- 引用: ".data ++ q.data⟩ := by
    unfold pyStrip
    rw [show ("  - 引用: " ++ q).data = ' ' :: ' ' :: ("- 引用: ".data ++ q.data) from rfl,
      trimCore_cons_ws _ (by decide), trimCore_cons_ws _ (by decide),
      trimCore_concrete_field (p := "- 引用: ".data) (c := '-') rfl (by decide) htrim hne]
  have hcontent : pyStrip (charDrop 2 (⟨"- 引用: ".data ++ q.data⟩ : String)) =
      ⟨"引用: ".data ++ q.data⟩ := by
    rw [show charDrop 2 (⟨"- 引用: ".data ++ q.data⟩ : String) =
        ⟨"引用: ".data ++ q.data⟩ from rfl]
    unfold pyStrip
    rw [show (⟨"引用: ".data ++ q.data⟩ : String).data = "引用: ".data ++ q.data from rfl,
      trimCore_concrete_field (p := "引用: ".data) (c := '引') rfl (by decide) htrim hne]
  have hTan2 : containsS ⟨"引用: ".data ++ q.data⟩ "担当:" = false := by
    rw [containsS_eq]
    rw [show (⟨"引用: ".data ++ q.data⟩ : String).data = "引用: ".data ++ q.data from rfl]
    exact occursIn_append_false _ _ _ (by decide) hTan
      (strad_discharge_left _ _ (by decide) _)
  have hKig2 : containsS ⟨"引用: ".data ++ q.data⟩ "期限:" = false := by
    rw [containsS_eq]
    rw [show (⟨"引用: ".data ++ q.data⟩ : String).data = "引用: ".data ++ q.data from rfl]
    exact occursIn_append_false _ _ _ (by decide) hKig
      (strad_discharge_left _ _ (by decide) _)
  have hpreS : hasPrefixS "説明:" (⟨"引用: ".data ++ q.data⟩ : String) = false := by
    unfold hasPrefixS
    rw [show (⟨"引用: ".data ++ q.data⟩ : String).data = "引用: ".data ++ q.data from rfl,
      isPrefixCore_short _ (by decide)]
    decide
  have hpreI : hasPrefixS "ID:" (⟨"引用: ".data ++ q.data⟩ : String) = false := by
    unfold hasPrefixS
    rw [show (⟨"引用: ".data ++ q.data⟩ : String).data = "引用: ".data ++ q.data from rfl,
      isPrefixCore_short _ (by decide)]
    decide
  have hpreQ : hasPrefixS "引用:" (⟨"引用: ".data ++ q.data⟩ : String) = true := by
    unfold hasPrefixS
    rw [show (⟨"引用: ".data ++ q.data⟩ : String).data = "引用: ".data ++ q.data from rfl,
      isPrefixCore_short _ (by decide)]
    decide
  have htail : pyStrip (charDrop 3 (⟨"引用: ".data ++ q.data⟩ : String)) = q := by
    rw [show charDrop 3 (⟨"引用: ".data ++ q.data⟩ : String) = ⟨' ' :: q.data⟩ from rfl]
    unfold pyStrip
    rw [show (⟨' ' :: q.data⟩ : String).data = ' ' :: q.data from rfl,
      trimCore_cons_ws _ (by decide), htrim]
  unfold Task_Formatter.updateDetail
  rw [hstrip]
  have hdash : hasPrefixS "- " (⟨"- 引用: ".data ++ q.data⟩ : String) = true := by
    unfold hasPrefixS
    rw [show (⟨"- 引用: ".data ++ q.data⟩ : String).data = "- 引用: ".data ++ q.data from rfl,
      isPrefixCore_short _ (by decide)]
    decide
  rw [if_pos hdash, hcontent]
  simp only [hTan2, hKig2, hpreS, hpreI, hpreQ, htail, Bool.false_and,
    Bool.false_eq_true, if_false, if_true]

theorem UD_blank (st : Task_Formatter.DetailState) :
    Task_Formatter.updateDetail st "" = st := rfl

theorem head?_append_left {x y : List Char} {c : Char} (h : x.head? = some c) :
    (x ++ y).head? = some c := by
  rw [List.head?_append, h]
  rfl

theorem getLast?_append_right {x y : List Char} {d : Char} (h : y.getLast? = some d) :
    (x ++ y).getLast? = some d := by
  rw [List.getLast?_append, h]
  rfl

theorem not_mem_strftime {dt : PyDate} {c : Char} (h1 : isDigitC c = false) (h2 : c ≠ '-') :
    c ∉ (PyDate.strftimeISO dt).data := by
  intro hm
  rw [strftimeISO_data] at hm
  simp only [List.mem_cons, List.not_mem_nil, or_false] at hm
  rcases hm with h | h | h | h | h | h | h | h | h | h
  all_goals first
    | (subst h
       rw [(digitChar_spec _ (mod10_lt _)).1] at h1
       exact Bool.noConfusion h1)
    | exact h2 h

theorem strftime_head (dt : PyDate) :
    (PyDate.strftimeISO dt).data.head? = some (digitChar (dt.year / 1000 % 10)) := by
  rw [strftimeISO_data]
  rfl

theorem strftime_getLast (dt : PyDate) :
    (PyDate.strftimeISO dt).data.getLast? = some (digitChar (dt.day % 10)) := by
  rw [strftimeISO_data]
  rfl

theorem strftime_trim (dt : PyDate) :
    trimCore (PyDate.strftimeISO dt).data = (PyDate.strftimeISO dt).data :=
  trimCore_eq_self_parts (strftime_head dt) (digitChar_spec _ (mod10_lt _)).2.2.1
    (strftime_getLast dt) (digitChar_spec _ (mod10_lt _)).2.2.1

theorem strftime_ne_nil (dt : PyDate) : (PyDate.strftimeISO dt).data ≠ [] := by
  rw [strftimeISO_data]
  exact fun h => List.noConfusion h

theorem strftime_length (dt : PyDate) : (PyDate.strftimeISO dt).data.length = 10 := by
  rw [strftimeISO_data]
  rfl

theorem cleanDue_valid {dt : PyDate} (h : cleanDue dt = true) : dt.ValidB = true := by
  unfold cleanDue at h
  rw [Bool.and_eq_true] at h
  exact h.1

/-- The due-date capture and parse after `期限:` followed by a space and a
rendered ISO date at the end of the content. -/
theorem matchDigits_iso {dt : PyDate} (hv : dt.ValidB = true) :
    matchDateDigits (PyDate.strftimeISO dt).data = some (PyDate.strftimeISO dt).data := by
  unfold matchDateDigits
  rw [matchDate_strftimeISO hv]
  exact congrArg some (List.take_of_length_le (by rw [strftime_length]))

theorem dateFromIso_iso {dt : PyDate} (hv : dt.ValidB = true) :
    dateFromIso ⟨(PyDate.strftimeISO dt).data⟩ = some dt := by
  rw [stringEta]
  rw [dateFromIso_eval (matchDate_strftimeISO hv)]
  rw [if_pos (show dateValidB dt.year dt.month dt.day = true from hv)]

theorem searchDueDate_tail {dt : PyDate} {content : String} {b : List Char}
    (hv : dt.ValidB = true)
    (hsplit : splitAtFirstCore "期限:".data content.data =
      some (b, ' ' :: (PyDate.strftimeISO dt).data)) :
    searchDueDate content = some dt := by
  rw [searchDueDate_eval hsplit]
  rw [dropWhile_ws_cons (by decide) (fun d hd => by
    rw [strftime_head] at hd
    have hd2 : some (digitChar (dt.year / 1000 % 10)) = some d := hd
    cases Option.some.inj hd2
    exact (digitChar_spec _ (mod10_lt _)).2.2.1)]
  rw [matchDigits_iso hv]
  exact dateFromIso_iso hv

theorem isEmpty_false_of_ne_nil {l : List Char} (h : l ≠ []) : l.isEmpty = false := by
  cases hv : l with
  | nil => exact absurd hv h
  | cons c cs => rfl

/-- Capture after a label: skip one space, take the rest of a clean value. -/
theorem labelCapture_pyStrip {v : String}
    (htrim : trimCore v.data = v.data) (hne : v.data ≠ []) :
    pyStrip ⟨v.data⟩ = v := by
  unfold pyStrip
  rw [show (⟨v.data⟩ : String).data = v.data from rfl, htrim]

theorem UD_assignee (st : Task_Formatter.DetailState) (a : String)
    (hd : cleanField a = true) :
    Task_Formatter.updateDetail st ("  - " ++ joinWith ", " ["担当: " ++ a]) =
      { st with assignee := some a } := by
  obtain ⟨hne, htrim, hnl, hTan, hKig⟩ := cleanField_parts hd
  have hW : ∀ d, a.data.head? = some d → pyWS d = false :=
    (trimCore_eq_self_iff.mp htrim).1
  have hstrip : pyStrip ("  - " ++ joinWith ", " ["担当: " ++ a]) =
      ⟨"- 担当: ".data ++ a.data⟩ := by
    unfold pyStrip
    rw [show ("  - " ++ joinWith ", " ["担当: " ++ a]).data =
        ' ' :: ' ' :: ("- 担当: ".data ++ a.data) from rfl,
      trimCore_cons_ws _ (by decide), trimCore_cons_ws _ (by decide),
      trimCore_concrete_field (p := "- 担当: ".data) (c := '-') rfl (by decide) htrim hne]
  have hcontent : pyStrip (charDrop 2 (⟨"- 担当: ".data ++ a.data⟩ : String)) =
      ⟨"担当: ".data ++ a.data⟩ := by
    rw [show charDrop 2 (⟨"- 担当: ".data ++ a.data⟩ : String) =
        ⟨"担当: ".data ++ a.data⟩ from rfl]
    unfold pyStrip
    rw [show (⟨"担当: ".data ++ a.data⟩ : String).data = "担当: ".data ++ a.data from rfl,
      trimCore_concrete_field (p := "担当: ".data) (c := '担') rfl (by decide) htrim hne]
  have hsplit : splitAtFirstCore "担当:".data
      ((⟨"担当: ".data ++ a.data⟩ : String)).data = some ([], ' ' :: a.data) := by
    rw [show ((⟨"担当: ".data ++ a.data⟩ : String)).data =
        "担当:".data ++ (' ' :: a.data) from rfl]
    exact splitAtFirst_self _ _ (by decide)
  have hT : containsS ⟨"担当: ".data ++ a.data⟩ "担当:" = true := by
    rw [containsS_eq]
    unfold occursIn
    rw [hsplit]
    rfl
  have hKig2 : containsS ⟨"担当: ".data ++ a.data⟩ "期限:" = false := by
    rw [containsS_eq]
    rw [show (⟨"担当: ".data ++ a.data⟩ : String).data = "担当: ".data ++ a.data from rfl]
    exact occursIn_append_false _ _ _ (by decide) hKig
      (strad_discharge_left _ _ (by decide) _)
  have hsearch : searchLabelValue "担当:" ⟨"担当: ".data ++ a.data⟩ = some a := by
    rw [searchLabelValue_eval hsplit]
    rw [dropWhile_ws_cons (by decide) hW]
    rw [if_neg (by rw [isEmpty_false_of_ne_nil hne]; exact Bool.noConfusion)]
    rw [takeWhile_all (fun c hc => decide_eq_true (mem_of_contains_false hnl hc))]
    rw [labelCapture_pyStrip htrim hne]
  unfold Task_Formatter.updateDetail
  rw [hstrip]
  have hdash : hasPrefixS "- " (⟨"- 担当: ".data ++ a.data⟩ : String) = true := by
    unfold hasPrefixS
    rw [show (⟨"- 担当: ".data ++ a.data⟩ : String).data = "- 担当: ".data ++ a.data from rfl,
      isPrefixCore_short _ (by decide)]
    decide
  rw [if_pos hdash, hcontent]
  simp only [hT, hKig2, hsearch, Bool.true_and, Bool.false_eq_true, if_false, if_true]

theorem UD_due (st : Task_Formatter.DetailState) (dt : PyDate)
    (hd : cleanDue dt = true) :
    Task_Formatter.updateDetail st ("  - " ++ joinWith ", " ["期限: " ++ PyDate.strftimeISO dt]) =
      { st with due_date := some dt } := by
  have hv := cleanDue_valid hd
  have htrim := strftime_trim dt
  have hne := strftime_ne_nil dt
  have hstrip : pyStrip ("  - " ++ joinWith ", " ["期限: " ++ PyDate.strftimeISO dt]) =
      ⟨"- 期限: ".data ++ (PyDate.strftimeISO dt).data⟩ := by
    unfold pyStrip
    rw [show ("  - " ++ joinWith ", " ["期限: " ++ PyDate.strftimeISO dt]).data =
        ' ' :: ' ' :: ("- 期限: ".data ++ (PyDate.strftimeISO dt).data) from rfl,
      trimCore_cons_ws _ (by decide), trimCore_cons_ws _ (by decide),
      trimCore_concrete_field (p := "- 期限: ".data) (c := '-') rfl (by decide) htrim hne]
  have hcontent : pyStrip (charDrop 2
      (⟨"- 期限: ".data ++ (PyDate.strftimeISO dt).data⟩ : String)) =
      ⟨"期限: ".data ++ (PyDate.strftimeISO dt).data⟩ := by
    rw [show charDrop 2 (⟨"- 期限: ".data ++ (PyDate.strftimeISO dt).data⟩ : String) =
        ⟨"期限: ".data ++ (PyDate.strftimeISO dt).data⟩ from rfl]
    unfold pyStrip
    rw [show (⟨"期限: ".data ++ (PyDate.strftimeISO dt).data⟩ : String).data =
        "期限: ".data ++ (PyDate.strftimeISO dt).data from rfl,
      trimCore_concrete_field (p := "期限: ".data) (c := '期') rfl (by decide) htrim hne]
  have hTan2 : containsS ⟨"期限: ".data ++ (PyDate.strftimeISO dt).data⟩ "担当:" = false := by
    rw [containsS_eq]
    rw [show (⟨"期限: ".data ++ (PyDate.strftimeISO dt).data⟩ : String).data =
        "期限: ".data ++ (PyDate.strftimeISO dt).data from rfl]
    exact occursIn_append_false _ _ _ (by decide)
      (occursIn_head_notMem rfl (not_mem_strftime (by decide) (by decide)))
      (strad_discharge_left _ _ (by decide) _)
  have hsplit : splitAtFirstCore "期限:".data
      ((⟨"期限: ".data ++ (PyDate.strftimeISO dt).data⟩ : String)).data =
      some ([], ' ' :: (PyDate.strftimeISO dt).data) := by
    rw [show ((⟨"期限: ".data ++ (PyDate.strftimeISO dt).data⟩ : String)).data =
        "期限:".data ++ (' ' :: (PyDate.strftimeISO dt).data) from rfl]
    exact splitAtFirst_self _ _ (by decide)
  have hK : containsS ⟨"期限: ".data ++ (PyDate.strftimeISO dt).data⟩ "期限:" = true := by
    rw [containsS_eq]
    unfold occursIn
    rw [hsplit]
    rfl
  have hsearch : searchDueDate ⟨"期限: ".data ++ (PyDate.strftimeISO dt).data⟩ = some dt :=
    searchDueDate_tail hv hsplit
  unfold Task_Formatter.updateDetail
  rw [hstrip]
  have hdash : hasPrefixS "- "
      (⟨"- 期限: ".data ++ (PyDate.strftimeISO dt).data⟩ : String) = true := by
    unfold hasPrefixS
    rw [show (⟨"- 期限: ".data ++ (PyDate.strftimeISO dt).data⟩ : String).data =
        "- 期限: ".data ++ (PyDate.strftimeISO dt).data from rfl,
      isPrefixCore_short _ (by decide)]
    decide
  rw [if_pos hdash, hcontent]
  simp only [hTan2, hK, hsearch, Bool.false_and, Bool.false_eq_true, if_false, if_true]

theorem head_ws_append {a R : List Char} (hne : a ≠ [])
    (h : ∀ c, a.head? = some c → pyWS c = false) :
    ∀ d, (a ++ R).head? = some d → pyWS d = false := by
  intro d hd
  cases ha : a with
  | nil => exact absurd ha hne
  | cons c cs =>
    rw [ha] at hd
    have hd2 : some c = some d := hd
    cases Option.some.inj hd2
    exact h _ (by rw [ha]; rfl)

theorem UD_both (st : Task_Formatter.DetailState) (a : String) (dt : PyDate)
    (hda : cleanField a = true) (hnc : a.data.contains ',' = false)
    (hdd : cleanDue dt = true) :
    Task_Formatter.updateDetail st
      ("  - " ++ joinWith ", " ["担当: " ++ a, "期限: " ++ PyDate.strftimeISO dt]) =
      { st with assignee := some a, due_date := some dt } := by
  obtain ⟨hne, htrim, hnl, hTan, hKig⟩ := cleanField_parts hda
  have hv := cleanDue_valid hdd
  have hgl3 : ("期限: ".data ++ (PyDate.strftimeISO dt).data).getLast? =
      some (digitChar (dt.day % 10)) := getLast?_append_right (strftime_getLast dt)
  have hglW : (((a.data ++ ", ".data) ++ ("期限: ".data ++ (PyDate.strftimeISO dt).data))).getLast? =
      some (digitChar (dt.day % 10)) := getLast?_append_right hgl3
  have hstrip : pyStrip ("  - " ++ joinWith ", " ["担当: " ++ a, "期限: " ++ PyDate.strftimeISO dt]) =
      ⟨"- 担当: ".data ++ ((a.data ++ ", ".data) ++ ("期限: ".data ++ (PyDate.strftimeISO dt).data))⟩ := by
    unfold pyStrip
    rw [show ("  - " ++ joinWith ", " ["担当: " ++ a, "期限: " ++ PyDate.strftimeISO dt]).data =
        ' ' :: ' ' :: ("- 担当: ".data ++
          ((a.data ++ ", ".data) ++ ("期限: ".data ++ (PyDate.strftimeISO dt).data))) from rfl,
      trimCore_cons_ws _ (by decide), trimCore_cons_ws _ (by decide),
      trimCore_eq_self_parts
        (l := "- 担当: ".data ++ ((a.data ++ ", ".data) ++ ("期限: ".data ++ (PyDate.strftimeISO dt).data)))
        (c := '-') (d := digitChar (dt.day % 10)) rfl (by decide)
        (getLast?_append_right hglW) (digitChar_spec _ (mod10_lt _)).2.2.1]
  have hassoc : (a.data ++ ", ".data) ++ ("期限: ".data ++ (PyDate.strftimeISO dt).data) =
      a.data ++ (", 期限: ".data ++ (PyDate.strftimeISO dt).data) := by
    rw [List.append_assoc]
    rfl
  have hcontent : pyStrip (charDrop 2
      (⟨"- 担当: ".data ++ ((a.data ++ ", ".data) ++ ("期限: ".data ++ (PyDate.strftimeISO dt).data))⟩ : String)) =
      ⟨"担当: ".data ++ (a.data ++ (", 期限: ".data ++ (PyDate.strftimeISO dt).data))⟩ := by
    rw [show charDrop 2
        (⟨"- 担当: ".data ++ ((a.data ++ ", ".data) ++ ("期限: ".data ++ (PyDate.strftimeISO dt).data))⟩ : String) =
        ⟨"担当: ".data ++ ((a.data ++ ", ".data) ++ ("期限: ".data ++ (PyDate.strftimeISO dt).data))⟩ from rfl]
    unfold pyStrip
    rw [show (⟨"担当: ".data ++ ((a.data ++ ", ".data) ++ ("期限: ".data ++ (PyDate.strftimeISO dt).data))⟩ : String).data =
        "担当: ".data ++ ((a.data ++ ", ".data) ++ ("期限: ".data ++ (PyDate.strftimeISO dt).data)) from rfl,
      trimCore_eq_self_parts
        (l := "担当: ".data ++ ((a.data ++ ", ".data) ++ ("期限: ".data ++ (PyDate.strftimeISO dt).data)))
        (c := '担') (d := digitChar (dt.day % 10)) rfl (by decide)
        (getLast?_append_right hglW) (digitChar_spec _ (mod10_lt _)).2.2.1,
      hassoc]
  have hsplitT : splitAtFirstCore "担当:".data
      ((⟨"担当: ".data ++ (a.data ++ (", 期限: ".data ++ (PyDate.strftimeISO dt).data))⟩ : String)).data =
      some ([], ' ' :: (a.data ++ (", 期限: ".data ++ (PyDate.strftimeISO dt).data))) := by
    rw [show ((⟨"担当: ".data ++ (a.data ++ (", 期限: ".data ++ (PyDate.strftimeISO dt).data))⟩ : String)).data =
        "担当:".data ++ (' ' :: (a.data ++ (", 期限: ".data ++ (PyDate.strftimeISO dt).data))) from rfl]
    exact splitAtFirst_self _ _ (by decide)
  have hT : containsS ⟨"担当: ".data ++ (a.data ++ (", 期限: ".data ++ (PyDate.strftimeISO dt).data))⟩ "担当:" = true := by
    rw [containsS_eq]
    unfold occursIn
    rw [hsplitT]
    rfl
  have hoccA : occursIn "期限:".data ("担当: ".data ++ (a.data ++ ", ".data)) = false := by
    refine occursIn_append_false _ _ _ (by decide) ?_ (strad_discharge_left _ _ (by decide) _)
    refine occursIn_append_false _ _ _ hKig (by decide) ?_
    exact strad_discharge_head "期限:".data ',' [' '] (by decide) a.data
  have hreshape : "担当: ".data ++ (a.data ++ (", 期限: ".data ++ (PyDate.strftimeISO dt).data)) =
      ("担当: ".data ++ (a.data ++ ", ".data)) ++
        ("期限:".data ++ (' ' :: (PyDate.strftimeISO dt).data)) := by
    rw [List.append_assoc, List.append_assoc]
    rfl
  have hsplitK : splitAtFirstCore "期限:".data
      ((⟨"担当: ".data ++ (a.data ++ (", 期限: ".data ++ (PyDate.strftimeISO dt).data))⟩ : String)).data =
      some ("担当: ".data ++ (a.data ++ ", ".data), ' ' :: (PyDate.strftimeISO dt).data) := by
    rw [show ((⟨"担当: ".data ++ (a.data ++ (", 期限: ".data ++ (PyDate.strftimeISO dt).data))⟩ : String)).data =
        "担当: ".data ++ (a.data ++ (", 期限: ".data ++ (PyDate.strftimeISO dt).data)) from rfl,
      hreshape]
    exact splitAtFirst_found _ _ _ (by decide) hoccA
      (strad_discharge_right "期限:".data
        ("期限:".data ++ (' ' :: (PyDate.strftimeISO dt).data))
        (' ' :: (PyDate.strftimeISO dt).data) (by decide) rfl _)
  have hK : containsS ⟨"担当: ".data ++ (a.data ++ (", 期限: ".data ++ (PyDate.strftimeISO dt).data))⟩ "期限:" = true := by
    rw [containsS_eq]
    unfold occursIn
    rw [hsplitK]
    rfl
  have hassign : searchAssigneeComma
      ⟨"担当: ".data ++ (a.data ++ (", 期限: ".data ++ (PyDate.strftimeISO dt).data))⟩ = some a := by
    rw [searchAssigneeComma_eval hsplitT]
    rw [dropWhile_ws_cons (by decide)
      (head_ws_append hne (trimCore_eq_self_iff.mp htrim).1)]
    rw [show (", 期限: ".data ++ (PyDate.strftimeISO dt).data) =
        ',' :: (" 期限: ".data ++ (PyDate.strftimeISO dt).data) from rfl]
    rw [takeWhile_append_stop _ (fun x hx => decide_eq_true (mem_of_contains_false hnc hx))
      (by decide)]
    rw [if_neg (by rw [isEmpty_false_of_ne_nil hne]; exact Bool.noConfusion)]
    rw [labelCapture_pyStrip htrim hne]
  have hdue : searchDueDate
      ⟨"担当: ".data ++ (a.data ++ (", 期限: ".data ++ (PyDate.strftimeISO dt).data))⟩ = some dt :=
    searchDueDate_tail hv hsplitK
  unfold Task_Formatter.updateDetail
  rw [hstrip]
  have hdash : hasPrefixS "- "
      (⟨"- 担当: ".data ++ ((a.data ++ ", ".data) ++ ("期限: ".data ++ (PyDate.strftimeISO dt).data))⟩ : String) = true := by
    unfold hasPrefixS
    rw [show (⟨"- 担当: ".data ++ ((a.data ++ ", ".data) ++ ("期限: ".data ++ (PyDate.strftimeISO dt).data))⟩ : String).data =
        "- 担当: ".data ++ ((a.data ++ ", ".data) ++ ("期限: ".data ++ (PyDate.strftimeISO dt).data)) from rfl,
      isPrefixCore_short _ (by decide)]
    decide
  rw [if_pos hdash, hcontent]
  simp only [hT, hK, hassign, hdue, Bool.and_self, eq_self_iff_true, if_true]

/-! ### The scanning loop, one step at a time -/

theorem parseLoop_heading (cur : Priority) (l : String) (rest : List String)
    (h1 : hasPrefixS "## " (pyStrip l) = true) :
    Task_Formatter.parseLoop cur none (l :: rest) =
      Task_Formatter.parseLoop (Task_Formatter.headingPriority (pyStrip l)) none rest := by
  rw [Task_Formatter.parseLoop, if_pos h1]

theorem parseLoop_task_start (cur : Priority) (l : String) (rest : List String)
    (title : String)
    (h1 : hasPrefixS "## " (pyStrip l) = false)
    (h2 : Task_Formatter.matchTaskLine l = some title) :
    Task_Formatter.parseLoop cur none (l :: rest) =
      Task_Formatter.parseLoop cur (some (title, ⟨none, none, none, none, none⟩)) rest := by
  rw [Task_Formatter.parseLoop, if_neg (by rw [h1]; exact Bool.noConfusion), h2]

theorem parseLoop_skip (cur : Priority) (l : String) (rest : List String)
    (h1 : hasPrefixS "## " (pyStrip l) = false)
    (h2 : Task_Formatter.matchTaskLine l = none) :
    Task_Formatter.parseLoop cur none (l :: rest) =
      Task_Formatter.parseLoop cur none rest := by
  rw [Task_Formatter.parseLoop, if_neg (by rw [h1]; exact Bool.noConfusion), h2]

theorem parseLoop_step (cur : Priority) (title : String) (st : Task_Formatter.DetailState)
    (l : String) (rest : List String)
    (hb : Task_Formatter.isBoundaryLine l = false) :
    Task_Formatter.parseLoop cur (some (title, st)) (l :: rest) =
      Task_Formatter.parseLoop cur (some (title, Task_Formatter.updateDetail st l)) rest := by
  rw [Task_Formatter.parseLoop, if_neg (by rw [hb]; exact Bool.noConfusion)]

theorem parseLoop_pending_boundary (cur : Priority) (title : String)
    (st : Task_Formatter.DetailState) (l : String) (rest : List String)
    (hb : Task_Formatter.isBoundaryLine l = true) :
    Task_Formatter.parseLoop cur (some (title, st)) (l :: rest) =
      (match Task_Formatter.finalizeTask cur title st with
       | .error e => .error e
       | .ok ot => Task_Formatter.consParsed ot
           (Task_Formatter.parseLoop cur none (l :: rest))) := by
  conv_lhs => rw [Task_Formatter.parseLoop]
  rw [if_pos hb]
  conv_rhs => rw [Task_Formatter.parseLoop]
  cases hf : Task_Formatter.finalizeTask cur title st with
  | error e => rfl
  | ok ot =>
    simp only []
    by_cases h1 : hasPrefixS "## " (pyStrip l) = true
    · rw [if_pos h1, if_pos h1]
    · rw [if_neg h1, if_neg h1]
      cases hm : Task_Formatter.matchTaskLine l <;> rfl

/-! ### Classifying rendered lines -/

theorem trim_line_concrete_field (p : String) {v : String} {c : Char}
    (hp : p.data.head? = some c) (hws : pyWS c = false)
    (h1 : trimCore v.data = v.data) (h2 : v.data ≠ []) :
    trimCore (' ' :: ' ' :: (p.data ++ v.data)) = p.data ++ v.data := by
  rw [trimCore_cons_ws _ (by decide), trimCore_cons_ws _ (by decide),
    trimCore_concrete_field hp hws h1 h2]

theorem isBoundaryLine_false_short {l : String} {p tail : List Char}
    (h : trimCore l.data = p ++ tail)
    (hlen5 : ("- [ ]".data).length ≤ p.length) (hlen3 : ("## ".data).length ≤ p.length)
    (hp5 : isPrefixCore "- [ ]".data p = false) (hp3 : isPrefixCore "## ".data p = false) :
    Task_Formatter.isBoundaryLine l = false := by
  unfold Task_Formatter.isBoundaryLine hasPrefixS pyStrip
  rw [show ((⟨trimCore l.data⟩ : String)).data = trimCore l.data from rfl, h,
    isPrefixCore_short _ hlen5, hp5, isPrefixCore_short _ hlen3, hp3]
  rfl

theorem headingTest_false_short {l : String} {p tail : List Char}
    (h : trimCore l.data = p ++ tail)
    (hlen : ("## ".data).length ≤ p.length)
    (hp : isPrefixCore "## ".data p = false) :
    hasPrefixS "## " (pyStrip l) = false := by
  unfold hasPrefixS pyStrip
  rw [show ((⟨trimCore l.data⟩ : String)).data = trimCore l.data from rfl, h,
    isPrefixCore_short _ hlen, hp]

theorem matchTaskLine_none_short {l : String} {p tail : List Char}
    (h : trimCore l.data = p ++ tail)
    (hlen : 6 ≤ p.length)
    (hp : isPrefixCore ['-', ' ', '[', ' ', ']', ' '] p = false) :
    Task_Formatter.matchTaskLine l = none := by
  unfold Task_Formatter.matchTaskLine hasPrefixS pyStrip
  simp only []
  rw [h, isPrefixCore_short (p := ['-', ' ', '[', ' ', ']', ' ']) (a := p) tail hlen, hp]
  simp only [Bool.false_eq_true, if_false]

theorem matchTaskLine_render {t : String} (h1 : trimCore t.data = t.data)
    (h2 : t.data ≠ []) :
    Task_Formatter.matchTaskLine ("- [ ] " ++ t) = some t := by
  unfold Task_Formatter.matchTaskLine pyStrip
  simp only []
  rw [show ("- [ ] " ++ t).data = "- [ ] ".data ++ t.data from rfl,
    trimCore_concrete_field (p := "- [ ] ".data) (c := '-') rfl (by decide) h1 h2]
  rw [show hasPrefixS "- [ ] " (⟨"- [ ] ".data ++ t.data⟩ : String) =
      isPrefixCore "- [ ] ".data ("- [ ] ".data ++ t.data) from rfl,
    isPrefixCore_append_self]
  rw [if_pos rfl]
  rw [show charDrop 6 (⟨"- [ ] ".data ++ t.data⟩ : String) = ⟨t.data⟩ from rfl]
  simp only []
  rw [show ((⟨t.data⟩ : String)).data = t.data from rfl]
  rw [isEmpty_false_of_ne_nil h2]
  simp only [Bool.false_eq_true, if_false]
  rw [show trimCore ((⟨t.data⟩ : String)).data = trimCore t.data from rfl, h1]

theorem checkbox_boundary {t : String} (h1 : trimCore t.data = t.data)
    (h2 : t.data ≠ []) :
    Task_Formatter.isBoundaryLine ("- [ ] " ++ t) = true := by
  unfold Task_Formatter.isBoundaryLine hasPrefixS pyStrip
  rw [show ("- [ ] " ++ t).data = "- [ ] ".data ++ t.data from rfl,
    trimCore_concrete_field (p := "- [ ] ".data) (c := '-') rfl (by decide) h1 h2]
  rw [show ((⟨"- [ ] ".data ++ t.data⟩ : String)).data = "- [ ] ".data ++ t.data from rfl]
  rw [isPrefixCore_short (p := "- [ ]".data) _ (by decide),
    show isPrefixCore "- [ ]".data "- [ ] ".data = true from by decide, Bool.true_or]

theorem heading_boundary (p : Priority) :
    Task_Formatter.isBoundaryLine ("## " ++ Task_Formatter.priorityUpper p) = true := by
  cases p <;> decide

theorem heading_step (cur : Priority) (p : Priority) (rest : List String) :
    Task_Formatter.parseLoop cur none (("## " ++ Task_Formatter.priorityUpper p) :: rest) =
      Task_Formatter.parseLoop p none rest := by
  cases p
  · rw [parseLoop_heading _ _ _ (by decide),
      show Task_Formatter.headingPriority (pyStrip ("## " ++ Task_Formatter.priorityUpper .high)) =
        .high from by decide]
  · rw [parseLoop_heading _ _ _ (by decide),
      show Task_Formatter.headingPriority (pyStrip ("## " ++ Task_Formatter.priorityUpper .medium)) =
        .medium from by decide]
  · rw [parseLoop_heading _ _ _ (by decide),
      show Task_Formatter.headingPriority (pyStrip ("## " ++ Task_Formatter.priorityUpper .low)) =
        .low from by decide]

theorem blank_skip (cur : Priority) (rest : List String) :
    Task_Formatter.parseLoop cur none ("" :: rest) =
      Task_Formatter.parseLoop cur none rest :=
  parseLoop_skip cur "" rest (by decide) (by decide)

/-! ### Finalizing one item -/

theorem cleanTask_parts {t : Task} (h : cleanTask t = true) :
    cleanField t.id = true ∧ cleanField t.title = true ∧ t.title.data.length ≤ 100 ∧
    cleanField t.description = true ∧ cleanField t.source_quote = true ∧
    (match t.assignee with
     | none => True
     | some a => cleanField a = true ∧ a.data.contains ',' = false) ∧
    (match t.due_date with
     | none => True
     | some d => cleanDue d = true) := by
  unfold cleanTask at h
  simp only [Bool.and_eq_true, decide_eq_true_eq] at h
  obtain ⟨⟨⟨⟨⟨⟨h1, h2⟩, h3⟩, h4⟩, h5⟩, h6⟩, h7⟩ := h
  refine ⟨h1, h2, h3, h4, h5, ?_, ?_⟩
  · cases ha : t.assignee with
    | none => trivial
    | some a =>
      rw [ha] at h6
      simp only [Bool.and_eq_true, Bool.not_eq_true'] at h6
      exact h6
  · cases hd : t.due_date with
    | none => trivial
    | some d =>
      rw [hd] at h7
      exact h7

theorem ne_empty_of_cleanField {s : String} (h : cleanField s = true) : s ≠ "" :=
  fun he => (cleanField_parts h).1 (by rw [he])

theorem finalizeTask_stFull {t : Task} (h : cleanTask t = true) :
    Task_Formatter.finalizeTask t.priority t.title (stFull t) = .ok (some t) := by
  obtain ⟨hid, htitle, hlen, hdesc, hquote, _, _⟩ := cleanTask_parts h
  unfold Task_Formatter.finalizeTask stFull
  simp only []
  rw [decide_eq_true (ne_empty_of_cleanField hdesc),
    decide_eq_true (ne_empty_of_cleanField hquote)]
  rw [if_pos (show (true && true) = true from rfl)]
  rw [if_pos (ne_empty_of_cleanField hid)]
  unfold Task_Formatter.mkTask
  simp only []
  rw [if_neg (by
    simp only [Bool.or_eq_true, decide_eq_true_eq, not_or, not_lt]
    constructor
    · intro hz
      exact ne_empty_of_cleanField htitle (data_eq_nil_iff.mp (List.length_eq_zero.mp hz))
    · exact hlen)]
  rw [show (some t.description).getD "" = t.description from rfl,
    show (some t.source_quote).getD "" = t.source_quote from rfl]
  rw [if_neg (fun hz => ne_empty_of_cleanField hdesc
    (data_eq_nil_iff.mp (List.length_eq_zero.mp hz)))]
  rw [if_neg (fun hz => ne_empty_of_cleanField hquote
    (data_eq_nil_iff.mp (List.length_eq_zero.mp hz)))]

/-! ### Walking one rendered task -/

theorem walk_tail (cur : Priority) (title : String) (st : Task_Formatter.DetailState)
    (t : Task) (k : List String)
    (hdesc : cleanField t.description = true) (hid : cleanField t.id = true)
    (hquote : cleanField t.source_quote = true) :
    Task_Formatter.parseLoop cur (some (title, st))
      (("  - 説明: " ++ t.description) :: ("  - ID: " ++ t.id) ::
       ("  - 引用: " ++ t.source_quote) :: k) =
      Task_Formatter.parseLoop cur
        (some (title,
          { st with
            description := some t.description
            task_id := some t.id
            source_quote := some t.source_quote })) k := by
  obtain ⟨hne1, htr1, _, _, _⟩ := cleanField_parts hdesc
  obtain ⟨hne2, htr2, _, _, _⟩ := cleanField_parts hid
  obtain ⟨hne3, htr3, _, _, _⟩ := cleanField_parts hquote
  rw [parseLoop_step _ _ _ _ _ (isBoundaryLine_false_short (p := "- 説明: ".data)
      (by rw [show ("  - 説明: " ++ t.description).data =
          ' ' :: ' ' :: ("- 説明: ".data ++ t.description.data) from rfl]
          exact trim_line_concrete_field "- 説明: " rfl (by decide) htr1 hne1)
      (by decide) (by decide) (by decide) (by decide)),
    UD_desc _ _ hdesc]
  rw [parseLoop_step _ _ _ _ _ (isBoundaryLine_false_short (p := "- ID: ".data)
      (by rw [show ("  - ID: " ++ t.id).data =
          ' ' :: ' ' :: ("- ID: ".data ++ t.id.data) from rfl]
          exact trim_line_concrete_field "- ID: " rfl (by decide) htr2 hne2)
      (by decide) (by decide) (by decide) (by decide)),
    UD_id _ _ hid]
  rw [parseLoop_step _ _ _ _ _ (isBoundaryLine_false_short (p := "- 引用: ".data)
      (by rw [show ("  - 引用: " ++ t.source_quote).data =
          ' ' :: ' ' :: ("- 引用: ".data ++ t.source_quote.data) from rfl]
          exact trim_line_concrete_field "- 引用: " rfl (by decide) htr3 hne3)
      (by decide) (by decide) (by decide) (by decide)),
    UD_quote _ _ hquote]

theorem parseLoop_renderTaskInit (t : Task) (cur : Priority) (k : List String)
    (hc : cleanTask t = true) :
    Task_Formatter.parseLoop cur none (renderTaskLinesInit t ++ k) =
      Task_Formatter.parseLoop cur (some (t.title, stFull t)) k := by
  obtain ⟨hid, htitle, hlen, hdesc, hquote, hass, hdue⟩ := cleanTask_parts hc
  obtain ⟨hneT, htrT, _, _, _⟩ := cleanField_parts htitle
  have htrimTitle : trimCore ("- [ ] " ++ t.title).data =
      "- [ ] ".data ++ t.title.data := by
    rw [show ("- [ ] " ++ t.title).data = "- [ ] ".data ++ t.title.data from rfl]
    exact trimCore_concrete_field (p := "- [ ] ".data) (c := '-') rfl (by decide) htrT hneT
  have hstart : ∀ (rest : List String),
      Task_Formatter.parseLoop cur none (("- [ ] " ++ t.title) :: rest) =
        Task_Formatter.parseLoop cur
          (some (t.title, ⟨none, none, none, none, none⟩)) rest := fun rest =>
    parseLoop_task_start cur _ rest t.title
      (headingTest_false_short htrimTitle (by decide) (by decide))
      (matchTaskLine_render htrT hneT)
  cases hasm : t.assignee with
  | none =>
    cases hdum : t.due_date with
    | none =>
      have hshape : renderTaskLinesInit t = ["- [ ] " ++ t.title,
          "  - 説明: " ++ t.description, "  - ID: " ++ t.id,
          "  - 引用: " ++ t.source_quote] := by
        unfold renderTaskLinesInit
        rw [hasm, hdum]
        rfl
      rw [hshape,
        show (["- [ ] " ++ t.title, "  - 説明: " ++ t.description, "  - ID: " ++ t.id,
          "  - 引用: " ++ t.source_quote] ++ k) =
          ("- [ ] " ++ t.title) :: ("  - 説明: " ++ t.description) :: ("  - ID: " ++ t.id) ::
          ("  - 引用: " ++ t.source_quote) :: k from rfl,
        hstart, walk_tail cur t.title _ t k hdesc hid hquote]
      unfold stFull
      rw [hasm, hdum]
    | some dt =>
      rw [hdum] at hdue
      have hshape : renderTaskLinesInit t = ["- [ ] " ++ t.title,
          "  - " ++ joinWith ", " ["期限: " ++ PyDate.strftimeISO dt],
          "  - 説明: " ++ t.description, "  - ID: " ++ t.id,
          "  - 引用: " ++ t.source_quote] := by
        unfold renderTaskLinesInit
        rw [hasm, hdum]
        rfl
      rw [hshape,
        show (["- [ ] " ++ t.title, "  - " ++ joinWith ", " ["期限: " ++ PyDate.strftimeISO dt],
          "  - 説明: " ++ t.description, "  - ID: " ++ t.id,
          "  - 引用: " ++ t.source_quote] ++ k) =
          ("- [ ] " ++ t.title) :: ("  - " ++ joinWith ", " ["期限: " ++ PyDate.strftimeISO dt]) ::
          ("  - 説明: " ++ t.description) :: ("  - ID: " ++ t.id) ::
          ("  - 引用: " ++ t.source_quote) :: k from rfl,
        hstart]
      rw [parseLoop_step _ _ _ _ _ (isBoundaryLine_false_short (p := "- 期限: ".data)
          (by rw [show ("  - " ++ joinWith ", " ["期限: " ++ PyDate.strftimeISO dt]).data =
              ' ' :: ' ' :: ("- 期限: ".data ++ (PyDate.strftimeISO dt).data) from rfl]
              exact trim_line_concrete_field "- 期限: " rfl (by decide)
                (strftime_trim dt) (strftime_ne_nil dt))
          (by decide) (by decide) (by decide) (by decide)),
        UD_due _ _ hdue]
      rw [walk_tail cur t.title _ t k hdesc hid hquote]
      unfold stFull
      rw [hasm, hdum]
  | some a =>
    rw [hasm] at hass
    obtain ⟨hca, hnc⟩ := hass
    obtain ⟨hneA, htrA, _, _, _⟩ := cleanField_parts hca
    have haneq : a ≠ "" := ne_empty_of_cleanField hca
    cases hdum : t.due_date with
    | none =>
      have hshape : renderTaskLinesInit t = ["- [ ] " ++ t.title,
          "  - " ++ joinWith ", " ["担当: " ++ a],
          "  - 説明: " ++ t.description, "  - ID: " ++ t.id,
          "  - 引用: " ++ t.source_quote] := by
        unfold renderTaskLinesInit
        rw [hasm, hdum]
        simp only []
        rw [if_pos haneq]
        rfl
      rw [hshape,
        show (["- [ ] " ++ t.title, "  - " ++ joinWith ", " ["担当: " ++ a],
          "  - 説明: " ++ t.description, "  - ID: " ++ t.id,
          "  - 引用: " ++ t.source_quote] ++ k) =
          ("- [ ] " ++ t.title) :: ("  - " ++ joinWith ", " ["担当: " ++ a]) ::
          ("  - 説明: " ++ t.description) :: ("  - ID: " ++ t.id) ::
          ("  - 引用: " ++ t.source_quote) :: k from rfl,
        hstart]
      rw [parseLoop_step _ _ _ _ _ (isBoundaryLine_false_short (p := "- 担当: ".data)
          (by rw [show ("  - " ++ joinWith ", " ["担当: " ++ a]).data =
              ' ' :: ' ' :: ("- 担当: ".data ++ a.data) from rfl]
              exact trim_line_concrete_field "- 担当: " rfl (by decide) htrA hneA)
          (by decide) (by decide) (by decide) (by decide)),
        UD_assignee _ _ hca]
      rw [walk_tail cur t.title _ t k hdesc hid hquote]
      unfold stFull
      rw [hasm, hdum]
    | some dt =>
      rw [hdum] at hdue
      have hglW : (((a.data ++ ", ".data) ++
          ("期限: ".data ++ (PyDate.strftimeISO dt).data))).getLast? =
          some (digitChar (dt.day % 10)) :=
        getLast?_append_right (getLast?_append_right (strftime_getLast dt))
      have hshape : renderTaskLinesInit t = ["- [ ] " ++ t.title,
          "  - " ++ joinWith ", " ["担当: " ++ a, "期限: " ++ PyDate.strftimeISO dt],
          "  - 説明: " ++ t.description, "  - ID: " ++ t.id,
          "  - 引用: " ++ t.source_quote] := by
        unfold renderTaskLinesInit
        rw [hasm, hdum]
        simp only []
        rw [if_pos haneq]
        rfl
      rw [hshape,
        show (["- [ ] " ++ t.title,
          "  - " ++ joinWith ", " ["担当: " ++ a, "期限: " ++ PyDate.strftimeISO dt],
          "  - 説明: " ++ t.description, "  - ID: " ++ t.id,
          "  - 引用: " ++ t.source_quote] ++ k) =
          ("- [ ] " ++ t.title) ::
          ("  - " ++ joinWith ", " ["担当: " ++ a, "期限: " ++ PyDate.strftimeISO dt]) ::
          ("  - 説明: " ++ t.description) :: ("  - ID: " ++ t.id) ::
          ("  - 引用: " ++ t.source_quote) :: k from rfl,
        hstart]
      rw [parseLoop_step _ _ _ _ _ (isBoundaryLine_false_short (p := "- 担当: ".data)
          (by rw [show ("  - " ++ joinWith ", "
              ["担当: " ++ a, "期限: " ++ PyDate.strftimeISO dt]).data =
              ' ' :: ' ' :: ("- 担当: ".data ++ ((a.data ++ ", ".data) ++
                ("期限: ".data ++ (PyDate.strftimeISO dt).data))) from rfl,
              trimCore_cons_ws _ (by decide), trimCore_cons_ws _ (by decide),
              trimCore_eq_self_parts
                (l := "- 担当: ".data ++ ((a.data ++ ", ".data) ++
                  ("期限: ".data ++ (PyDate.strftimeISO dt).data)))
                (c := '-') (d := digitChar (dt.day % 10)) rfl (by decide)
                (getLast?_append_right hglW) (digitChar_spec _ (mod10_lt _)).2.2.1])
          (by decide) (by decide) (by decide) (by decide)),
        UD_both _ _ _ hca hnc hdue]
      rw [walk_tail cur t.title _ t k hdesc hid hquote]
      unfold stFull
      rw [hasm, hdum]

/-! ### The grouped task section -/

theorem renderTaskLines_eq (t : Task) :
    Task_Formatter.renderTaskLines t = renderTaskLinesInit t ++ [""] := by
  unfold Task_Formatter.renderTaskLines renderTaskLinesInit
  simp only [List.append_assoc]
  rfl

theorem grouped_nil (cur : Option Priority) :
    Task_Formatter.renderTasksGrouped cur [] = [] := rfl

theorem grouped_cons (cur : Option Priority) (t : Task) (rest : List Task) :
    Task_Formatter.renderTasksGrouped cur (t :: rest) =
      (if cur = some t.priority then ([] : List String)
       else ["## " ++ Task_Formatter.priorityUpper t.priority, ""])
      ++ Task_Formatter.renderTaskLines t ++
      Task_Formatter.renderTasksGrouped (some t.priority) rest := rfl

theorem groupedInit_single (cur : Option Priority) (t : Task) :
    renderTasksGroupedInit cur [t] =
      (if cur = some t.priority then ([] : List String)
       else ["## " ++ Task_Formatter.priorityUpper t.priority, ""])
      ++ renderTaskLinesInit t := rfl

theorem groupedInit_cons2 (cur : Option Priority) (t t2 : Task) (r2 : List Task) :
    renderTasksGroupedInit cur (t :: t2 :: r2) =
      (if cur = some t.priority then ([] : List String)
       else ["## " ++ Task_Formatter.priorityUpper t.priority, ""])
      ++ Task_Formatter.renderTaskLines t ++
      renderTasksGroupedInit (some t.priority) (t2 :: r2) := rfl

theorem renderTasksGrouped_eq (prev : Option Priority) (ts : List Task) (h : ts ≠ []) :
    Task_Formatter.renderTasksGrouped prev ts = renderTasksGroupedInit prev ts ++ [""] := by
  induction ts generalizing prev with
  | nil => exact absurd rfl h
  | cons t rest ih =>
    cases rest with
    | nil =>
      rw [grouped_cons, grouped_nil, groupedInit_single, renderTaskLines_eq]
      simp [List.append_assoc]
    | cons t2 r2 =>
      rw [grouped_cons, groupedInit_cons2, ih (some t.priority) (fun hh => List.noConfusion hh)]
      simp [List.append_assoc]

theorem pending_close (cur : Priority) (t : Task) (S : List String)
    (hc : cleanTask t = true) (hcur : cur = t.priority)
    (hS : S = [] ∨ ∃ l rest, S = l :: rest ∧ Task_Formatter.isBoundaryLine l = true) :
    Task_Formatter.parseLoop cur (some (t.title, stFull t)) S =
      Task_Formatter.consParsed (some t) (Task_Formatter.parseLoop cur none S) := by
  subst hcur
  rcases hS with h | ⟨l, rest, hS, hb⟩
  · subst h
    conv_lhs => rw [Task_Formatter.parseLoop]
    rw [finalizeTask_stFull hc]
    rfl
  · subst hS
    rw [parseLoop_pending_boundary _ _ _ _ _ hb, finalizeTask_stFull hc]

theorem renderTaskLinesInit_cons (t : Task) :
    ∃ T, renderTaskLinesInit t = ("- [ ] " ++ t.title) :: T := ⟨_, rfl⟩

theorem renderTaskLines_cons (t : Task) :
    ∃ T, Task_Formatter.renderTaskLines t = ("- [ ] " ++ t.title) :: T := ⟨_, rfl⟩

theorem groupedInit_head_boundary (p : Priority) (t2 : Task) (r2 : List Task)
    (hc2 : cleanTask t2 = true) :
    ∃ l rest2, renderTasksGroupedInit (some p) (t2 :: r2) = l :: rest2 ∧
      Task_Formatter.isBoundaryLine l = true := by
  obtain ⟨_, htitle2, _, _, _, _, _⟩ := cleanTask_parts hc2
  obtain ⟨hne2, htr2, _, _, _⟩ := cleanField_parts htitle2
  cases r2 with
  | nil =>
    by_cases hp : (some p : Option Priority) = some t2.priority
    · obtain ⟨T, hT⟩ := renderTaskLinesInit_cons t2
      refine ⟨"- [ ] " ++ t2.title, T, ?_, checkbox_boundary htr2 hne2⟩
      rw [groupedInit_single, if_pos hp, List.nil_append, hT]
    · refine ⟨"## " ++ Task_Formatter.priorityUpper t2.priority,
        "" :: renderTaskLinesInit t2, ?_, heading_boundary t2.priority⟩
      rw [groupedInit_single, if_neg hp]
      rfl
  | cons t3 r3 =>
    by_cases hp : (some p : Option Priority) = some t2.priority
    · obtain ⟨T, hT⟩ := renderTaskLines_cons t2
      refine ⟨"- [ ] " ++ t2.title,
        T ++ renderTasksGroupedInit (some t2.priority) (t3 :: r3), ?_,
        checkbox_boundary htr2 hne2⟩
      rw [groupedInit_cons2, if_pos hp, List.nil_append, hT, List.cons_append]
    · refine ⟨"## " ++ Task_Formatter.priorityUpper t2.priority,
        "" :: (Task_Formatter.renderTaskLines t2 ++
          renderTasksGroupedInit (some t2.priority) (t3 :: r3)), ?_,
        heading_boundary t2.priority⟩
      rw [groupedInit_cons2, if_neg hp]
      rfl

theorem parseLoop_groupedInit (ts : List Task) :
    ∀ (cur : Priority) (prev : Option Priority),
      (∀ t ∈ ts, cleanTask t = true) →
      (prev = none ∨ prev = some cur) →
      Task_Formatter.parseLoop cur none (renderTasksGroupedInit prev ts) = .ok ts := by
  induction ts with
  | nil =>
    intro cur prev _ _
    rfl
  | cons t rest ih =>
    intro cur prev hclean hinv
    have hct : cleanTask t = true := hclean t (List.mem_cons_self _ _)
    have hcr : ∀ x ∈ rest, cleanTask x = true :=
      fun x hx => hclean x (List.mem_cons_of_mem _ hx)
    cases rest with
    | nil =>
      have hone : ∀ cur2, cur2 = t.priority →
          Task_Formatter.parseLoop cur2 none (renderTaskLinesInit t) = .ok [t] := by
        intro cur2 hcur2
        rw [show renderTaskLinesInit t = renderTaskLinesInit t ++ [] from
          (List.append_nil _).symm]
        rw [parseLoop_renderTaskInit t cur2 [] hct,
          pending_close cur2 t [] hct hcur2 (Or.inl rfl)]
        rfl
      rw [groupedInit_single]
      by_cases hp : prev = some t.priority
      · have hcur : cur = t.priority := by
          rcases hinv with h | h
          · rw [h] at hp
            exact Option.noConfusion hp
          · rw [h] at hp
            exact Option.some.inj hp
        rw [if_pos hp, List.nil_append]
        exact hone cur hcur
      · rw [if_neg hp,
          show (["## " ++ Task_Formatter.priorityUpper t.priority, ""] ++
            renderTaskLinesInit t) =
            ("## " ++ Task_Formatter.priorityUpper t.priority) :: "" ::
            renderTaskLinesInit t from rfl,
          heading_step, blank_skip]
        exact hone t.priority rfl
    | cons t2 r2 =>
      have hct2 : cleanTask t2 = true := hcr t2 (List.mem_cons_self _ _)
      have htwo : ∀ cur2, cur2 = t.priority →
          Task_Formatter.parseLoop cur2 none
            (Task_Formatter.renderTaskLines t ++
              renderTasksGroupedInit (some t.priority) (t2 :: r2)) = .ok (t :: t2 :: r2) := by
        intro cur2 hcur2
        rw [renderTaskLines_eq, List.append_assoc,
          show ([""] ++ renderTasksGroupedInit (some t.priority) (t2 :: r2)) =
            "" :: renderTasksGroupedInit (some t.priority) (t2 :: r2) from rfl]
        rw [parseLoop_renderTaskInit t cur2 _ hct]
        rw [parseLoop_step _ _ _ _ _ (by decide), UD_blank]
        rw [pending_close cur2 t _ hct hcur2
          (Or.inr (groupedInit_head_boundary t.priority t2 r2 hct2))]
        rw [ih cur2 (some t.priority) hcr (Or.inr (by rw [hcur2]))]
        rfl
      rw [groupedInit_cons2]
      by_cases hp : prev = some t.priority
      · have hcur : cur = t.priority := by
          rcases hinv with h | h
          · rw [h] at hp
            exact Option.noConfusion hp
          · rw [h] at hp
            exact Option.some.inj hp
        rw [if_pos hp, List.nil_append]
        exact htwo cur hcur
      · rw [if_neg hp, List.append_assoc,
          show (["## " ++ Task_Formatter.priorityUpper t.priority, ""] ++
            (Task_Formatter.renderTaskLines t ++
              renderTasksGroupedInit (some t.priority) (t2 :: r2))) =
            ("## " ++ Task_Formatter.priorityUpper t.priority) :: "" ::
            (Task_Formatter.renderTaskLines t ++
              renderTasksGroupedInit (some t.priority) (t2 :: r2)) from rfl,
          heading_step, blank_skip]
        exact htwo t.priority rfl

/-! ### The metadata block of the rendered task document -/

theorem searchLabelValue_found (label : String) {md : String} (a : List Char)
    (v : String) (rest : List Char)
    (hmd : md.data = a ++ (label.data ++ (' ' :: (v.data ++ rest))))
    (hlab : label.data ≠ [])
    (ha : occursIn label.data a = false)
    (hstrad : ∀ k, k < label.data.length → 0 < k →
      ¬ ((label.data.take k) <:+ a ∧
        (label.data.drop k) <+: (label.data ++ (' ' :: (v.data ++ rest)))))
    (htrim : trimCore v.data = v.data) (hne : v.data ≠ [])
    (hnl : v.data.contains '\n' = false)
    (hrest : rest = [] ∨ ∃ x, rest = '\n' :: x) :
    searchLabelValue label md = some v := by
  have hsplit : splitAtFirstCore label.data md.data =
      some (a, ' ' :: (v.data ++ rest)) := by
    rw [hmd]
    exact splitAtFirst_found _ _ _ hlab ha hstrad
  rw [searchLabelValue_eval hsplit]
  rw [dropWhile_ws_cons (by decide) (head_ws_append hne (trimCore_eq_self_iff.mp htrim).1)]
  rw [if_neg (by
    rw [isEmpty_false_of_ne_nil (fun hh => hne (List.append_eq_nil.mp hh).1)]
    exact Bool.noConfusion)]
  have htw : (v.data ++ rest).takeWhile (fun c => decide (c ≠ '\n')) = v.data := by
    rcases hrest with h | ⟨x, h⟩
    · subst h
      rw [List.append_nil]
      exact takeWhile_all (fun c hc => decide_eq_true (mem_of_contains_false hnl hc))
    · subst h
      exact takeWhile_append_stop _
        (fun c hc => decide_eq_true (mem_of_contains_false hnl hc)) (by decide)
  rw [htw, labelCapture_pyStrip htrim hne]

theorem status_value_facts (st : TaskListStatus) :
    trimCore st.value.data = st.value.data ∧ st.value.data ≠ [] ∧
    st.value.data.contains '\n' = false ∧ TaskListStatus.ofString st.value = some st := by
  cases st <;> exact ⟨by decide, fun hh => by exact absurd hh (by decide), by decide, by decide⟩

theorem joinCore_meta (s1 s2 s3 : String) (body : List String) (hb : body ≠ []) :
    joinCore ((["# タスクリスト", "", "- **Session ID**: " ++ s1,
      "- **Minutes ID**: " ++ s2, "- **Status**: " ++ s3, ""] ++ body).map String.data) =
      "# タスクリスト\n\n- **Session ID**: ".data ++ (s1.data ++
        ("\n- **Minutes ID**: ".data ++ (s2.data ++
          ("\n- **Status**: ".data ++ (s3.data ++
            ('\n' :: '\n' :: joinCore (body.map String.data))))))) := by
  have hbm : body.map String.data ≠ [] := by
    cases hb2 : body with
    | nil => exact absurd hb2 hb
    | cons x xs => exact fun hh => List.noConfusion hh
  rw [show ((["# タスクリスト", "", "- **Session ID**: " ++ s1, "- **Minutes ID**: " ++ s2,
      "- **Status**: " ++ s3, ""] ++ body).map String.data) =
      "# タスクリスト".data :: "".data :: ("- **Session ID**: " ++ s1).data ::
      ("- **Minutes ID**: " ++ s2).data :: ("- **Status**: " ++ s3).data :: "".data ::
      body.map String.data from rfl]
  rw [joinCore_cons _ _ (fun hh => List.noConfusion hh),
    joinCore_cons _ _ (fun hh => List.noConfusion hh),
    joinCore_cons _ _ (fun hh => List.noConfusion hh),
    joinCore_cons _ _ (fun hh => List.noConfusion hh),
    joinCore_cons _ _ (fun hh => List.noConfusion hh),
    joinCore_cons _ _ hbm]
  simp only [String.data_append, List.append_assoc, List.cons_append, List.nil_append]

theorem contains_append_false {a b : List Char} {c : Char}
    (ha : a.contains c = false) (hb : b.contains c = false) :
    (a ++ b).contains c = false :=
  contains_false_iff.mpr (fun hm => (List.mem_append.mp hm).elim
    (fun h => contains_false_iff.mp ha h) (fun h => contains_false_iff.mp hb h))

theorem iso_nlfree (dt : PyDate) : (PyDate.strftimeISO dt).data.contains '\n' = false :=
  contains_false_iff.mpr (not_mem_strftime (by decide) (by decide))


theorem taskLinesInit_nlfree {t : Task} (hc : cleanTask t = true) :
    ∀ l ∈ renderTaskLinesInit t, l.data.contains '\n' = false := by
  obtain ⟨hid, htitle, _, hdesc, hquote, hass, hdue⟩ := cleanTask_parts hc
  have htail : ∀ l ∈ (["  - 説明: " ++ t.description, "  - ID: " ++ t.id,
      "  - 引用: " ++ t.source_quote] : List String), l.data.contains '\n' = false := by
    intro l hl
    simp only [List.mem_cons, List.not_mem_nil, or_false] at hl
    rcases hl with hl | hl | hl <;> subst hl
    · exact contains_append_false (by decide) (cleanField_parts hdesc).2.2.1
    · exact contains_append_false (by decide) (cleanField_parts hid).2.2.1
    · exact contains_append_false (by decide) (cleanField_parts hquote).2.2.1
  have hhead : ("- [ ] " ++ t.title).data.contains '\n' = false :=
    contains_append_false (by decide) (cleanField_parts htitle).2.2.1
  intro l hl
  cases hasm : t.assignee with
  | none =>
    cases hdum : t.due_date with
    | none =>
      rw [show renderTaskLinesInit t = ["- [ ] " ++ t.title,
          "  - 説明: " ++ t.description, "  - ID: " ++ t.id,
          "  - 引用: " ++ t.source_quote] from by
        unfold renderTaskLinesInit
        rw [hasm, hdum]
        rfl] at hl
      rcases List.mem_cons.mp hl with h | h
      · subst h
        exact hhead
      · exact htail l h
    | some dt =>
      rw [show renderTaskLinesInit t = ["- [ ] " ++ t.title,
          "  - " ++ joinWith ", " ["期限: " ++ PyDate.strftimeISO dt],
          "  - 説明: " ++ t.description, "  - ID: " ++ t.id,
          "  - 引用: " ++ t.source_quote] from by
        unfold renderTaskLinesInit
        rw [hasm, hdum]
        rfl] at hl
      rcases List.mem_cons.mp hl with h | h
      · subst h
        exact hhead
      rcases List.mem_cons.mp h with h2 | h2
      · subst h2
        rw [show ("  - " ++ joinWith ", " ["期限: " ++ PyDate.strftimeISO dt]).data =
            "  - 期限: ".data ++ (PyDate.strftimeISO dt).data from rfl]
        exact contains_append_false (by decide) (iso_nlfree dt)
      · exact htail l h2
  | some a =>
    rw [hasm] at hass
    have hanl := (cleanField_parts hass.1).2.2.1
    have haneq : a ≠ "" := ne_empty_of_cleanField hass.1
    cases hdum : t.due_date with
    | none =>
      rw [show renderTaskLinesInit t = ["- [ ] " ++ t.title,
          "  - " ++ joinWith ", " ["担当: " ++ a],
          "  - 説明: " ++ t.description, "  - ID: " ++ t.id,
          "  - 引用: " ++ t.source_quote] from by
        unfold renderTaskLinesInit
        rw [hasm, hdum]
        simp only []
        rw [if_pos haneq]
        rfl] at hl
      rcases List.mem_cons.mp hl with h | h
      · subst h
        exact hhead
      rcases List.mem_cons.mp h with h2 | h2
      · subst h2
        rw [show ("  - " ++ joinWith ", " ["担当: " ++ a]).data =
            "  - 担当: ".data ++ a.data from rfl]
        exact contains_append_false (by decide) hanl
      · exact htail l h2
    | some dt =>
      rw [show renderTaskLinesInit t = ["- [ ] " ++ t.title,
          "  - " ++ joinWith ", " ["担当: " ++ a, "期限: " ++ PyDate.strftimeISO dt],
          "  - 説明: " ++ t.description, "  - ID: " ++ t.id,
          "  - 引用: " ++ t.source_quote] from by
        unfold renderTaskLinesInit
        rw [hasm, hdum]
        simp only []
        rw [if_pos haneq]
        rfl] at hl
      rcases List.mem_cons.mp hl with h | h
      · subst h
        exact hhead
      rcases List.mem_cons.mp h with h2 | h2
      · subst h2
        rw [show ("  - " ++ joinWith ", "
            ["担当: " ++ a, "期限: " ++ PyDate.strftimeISO dt]).data =
            "  - 担当: ".data ++ ((a.data ++ ", ".data) ++ ("期限: ".data ++
              (PyDate.strftimeISO dt).data)) from rfl]
        exact contains_append_false (by decide) (contains_append_false
          (contains_append_false hanl (by decide))
          (contains_append_false (by decide) (iso_nlfree dt)))
      · exact htail l h2

theorem heading_nlfree (p : Priority) :
    ("## " ++ Task_Formatter.priorityUpper p).data.contains '\n' = false := by
  cases p <;> decide

theorem groupedInit_nlfree (ts : List Task) :
    ∀ (p : Option Priority), (∀ t ∈ ts, cleanTask t = true) →
    ∀ l ∈ renderTasksGroupedInit p ts, l.data.contains '\n' = false := by
  induction ts with
  | nil =>
    intro p _ l hl
    exact absurd hl (List.not_mem_nil l)
  | cons t rest ih =>
    intro p hclean l hl
    have hct : cleanTask t = true := hclean t (List.mem_cons_self _ _)
    have hcr : ∀ x ∈ rest, cleanTask x = true :=
      fun x hx => hclean x (List.mem_cons_of_mem _ hx)
    have hhd : ∀ l2 ∈ (if p = some t.priority then ([] : List String)
        else ["## " ++ Task_Formatter.priorityUpper t.priority, ""]),
        l2.data.contains '\n' = false := by
      intro l2 hl2
      by_cases hp : p = some t.priority
      · rw [if_pos hp] at hl2
        exact absurd hl2 (List.not_mem_nil l2)
      · rw [if_neg hp] at hl2
        rcases List.mem_cons.mp hl2 with h | h
        · subst h
          exact heading_nlfree t.priority
        · rcases List.mem_cons.mp h with h2 | h2
          · subst h2
            decide
          · exact absurd h2 (List.not_mem_nil l2)
    cases rest with
    | nil =>
      rw [groupedInit_single] at hl
      rcases List.mem_append.mp hl with h | h
      · exact hhd l h
      · exact taskLinesInit_nlfree hct l h
    | cons t2 r2 =>
      rw [groupedInit_cons2] at hl
      rcases List.mem_append.mp hl with h | h
      · rcases List.mem_append.mp h with h2 | h2
        · exact hhd l h2
        · rw [renderTaskLines_eq] at h2
          rcases List.mem_append.mp h2 with h3 | h3
          · exact taskLinesInit_nlfree hct l h3
          · rcases List.mem_cons.mp h3 with h4 | h4
            · subst h4
              decide
            · exact absurd h4 (List.not_mem_nil l)
      · exact ih (some t.priority) hcr l h

theorem getLast?_append_right2 {α : Type} {x y : List α} {d : α}
    (h : y.getLast? = some d) : (x ++ y).getLast? = some d := by
  rw [List.getLast?_append, h]
  rfl

theorem renderTaskLinesInit_getLast (t : Task) :
    (renderTaskLinesInit t).getLast? = some ("  - 引用: " ++ t.source_quote) := by
  unfold renderTaskLinesInit
  refine getLast?_append_right2 ?_
  rfl

theorem groupedInit_getLast (ts : List Task) :
    ∀ (p : Option Priority) (t : Task),
    ∃ x, x ∈ t :: ts ∧ (renderTasksGroupedInit p (t :: ts)).getLast? =
      some ("  - 引用: " ++ x.source_quote) := by
  induction ts with
  | nil =>
    intro p t
    refine ⟨t, List.mem_cons_self _ _, ?_⟩
    rw [groupedInit_single]
    exact getLast?_append_right2 (renderTaskLinesInit_getLast t)
  | cons t2 r2 ih =>
    intro p t
    obtain ⟨x, hx, hlast⟩ := ih (some t.priority) t2
    refine ⟨x, List.mem_cons_of_mem t hx, ?_⟩
    rw [groupedInit_cons2]
    exact getLast?_append_right2 hlast

theorem prioSorted_rest {a : Task} {l : List Task}
    (h : prioritySorted (a :: l) = true) : prioritySorted l = true := by
  cases l with
  | nil => rfl
  | cons b r =>
    rw [prioritySorted, Bool.and_eq_true] at h
    exact h.2

theorem prioSorted_le {a : Task} {l : List Task}
    (h : prioritySorted (a :: l) = true) :
    ∀ b ∈ l, Task_Formatter.PRIORITY_ORDER a.priority ≤
      Task_Formatter.PRIORITY_ORDER b.priority := by
  induction l generalizing a with
  | nil =>
    intro b hb
    exact absurd hb (List.not_mem_nil b)
  | cons c r ih =>
    intro b hb
    rw [prioritySorted, Bool.and_eq_true, decide_eq_true_eq] at h
    rcases List.mem_cons.mp hb with hbc | hbr
    · subst hbc
      exact h.1
    · exact Nat.le_trans h.1 (ih h.2 b hbr)

theorem prioritySorted_sorted {ts : List Task} (h : prioritySorted ts = true) :
    List.Sorted (fun a b => Task_Formatter.PRIORITY_ORDER a.priority ≤
      Task_Formatter.PRIORITY_ORDER b.priority) ts := by
  induction ts with
  | nil => exact List.sorted_nil
  | cons a l ih =>
    exact List.Pairwise.cons (prioSorted_le h) (ih (prioSorted_rest h))

theorem sortedByPriority_eq {ts : List Task} (h : prioritySorted ts = true) :
    Task_Formatter.sortedByPriority ts = ts := by
  unfold Task_Formatter.sortedByPriority
  exact List.Sorted.insertionSort_eq (prioritySorted_sorted h)

theorem cleanSessionId_parts {s : String} (h : cleanSessionId s = true) :
    s.data ≠ [] ∧ trimCore s.data = s.data ∧ s.data.contains '\n' = false ∧
    occursIn "**Minutes ID**:".data s.data = false ∧
    occursIn "**Status**:".data s.data = false := by
  unfold cleanSessionId at h
  simp only [Bool.and_eq_true, Bool.not_eq_true', decide_eq_true_eq] at h
  obtain ⟨⟨⟨⟨h1, h2⟩, h3⟩, h4⟩, h5⟩ := h
  exact ⟨fun hh => h1 (data_eq_nil_iff.mp hh), congrArg String.data h2, h3, h4, h5⟩

theorem cleanMinutesId_parts {s : String} (h : cleanMinutesId s = true) :
    s.data ≠ [] ∧ trimCore s.data = s.data ∧ s.data.contains '\n' = false ∧
    occursIn "**Status**:".data s.data = false := by
  unfold cleanMinutesId at h
  simp only [Bool.and_eq_true, Bool.not_eq_true', decide_eq_true_eq] at h
  obtain ⟨⟨⟨h1, h2⟩, h3⟩, h4⟩ := h
  exact ⟨fun hh => h1 (data_eq_nil_iff.mp hh), congrArg String.data h2, h3, h4⟩

/-- The scanner ignores the five metadata lines and the blank after them. -/
theorem parseLoop_meta (cur : Priority) (s1 s2 s3 : String) (rest : List String)
    (htr1 : trimCore s1.data = s1.data) (hne1 : s1.data ≠ [])
    (htr2 : trimCore s2.data = s2.data) (hne2 : s2.data ≠ [])
    (htr3 : trimCore s3.data = s3.data) (hne3 : s3.data ≠ []) :
    Task_Formatter.parseLoop cur none ("# タスクリスト" :: "" ::
      ("- **Session ID**: " ++ s1) :: ("- **Minutes ID**: " ++ s2) ::
      ("- **Status**: " ++ s3) :: "" :: rest) =
      Task_Formatter.parseLoop cur none rest := by
  have hl1 : trimCore ("- **Session ID**: " ++ s1).data =
      "- **Session ID**: ".data ++ s1.data := by
    rw [show ("- **Session ID**: " ++ s1).data = "- **Session ID**: ".data ++ s1.data from rfl]
    exact trimCore_concrete_field (p := "- **Session ID**: ".data) (c := '-') rfl
      (by decide) htr1 hne1
  have hl2 : trimCore ("- **Minutes ID**: " ++ s2).data =
      "- **Minutes ID**: ".data ++ s2.data := by
    rw [show ("- **Minutes ID**: " ++ s2).data = "- **Minutes ID**: ".data ++ s2.data from rfl]
    exact trimCore_concrete_field (p := "- **Minutes ID**: ".data) (c := '-') rfl
      (by decide) htr2 hne2
  have hl3 : trimCore ("- **Status**: " ++ s3).data =
      "- **Status**: ".data ++ s3.data := by
    rw [show ("- **Status**: " ++ s3).data = "- **Status**: ".data ++ s3.data from rfl]
    exact trimCore_concrete_field (p := "- **Status**: ".data) (c := '-') rfl
      (by decide) htr3 hne3
  rw [parseLoop_skip _ _ _ (by decide) (by decide), blank_skip,
    parseLoop_skip _ _ _ (headingTest_false_short hl1 (by decide) (by decide))
      (matchTaskLine_none_short hl1 (by decide) (by decide)),
    parseLoop_skip _ _ _ (headingTest_false_short hl2 (by decide) (by decide))
      (matchTaskLine_none_short hl2 (by decide) (by decide)),
    parseLoop_skip _ _ _ (headingTest_false_short hl3 (by decide) (by decide))
      (matchTaskLine_none_short hl3 (by decide) (by decide)),
    blank_skip]

/-- Stripping and resplitting the rendered document recovers the rendered
lines, with the final blank line removed when one is rendered. -/
theorem strip_split_doc (L2 : List String) {c d : Char}
    (hne : L2 ≠ [])
    (hnl : ∀ l ∈ L2, l.data.contains '\n' = false)
    (hh : (joinCore (L2.map String.data)).head? = some c) (hcw : pyWS c = false)
    (hg : (joinCore (L2.map String.data)).getLast? = some d) (hdw : pyWS d = false) :
    pySplitLines (pyStrip (pyJoinLines (L2 ++ [""]))) = L2 := by
  have hmapne : L2.map String.data ≠ [] := by
    cases h2 : L2 with
    | nil => exact absurd h2 hne
    | cons x xs => exact fun hh2 => List.noConfusion hh2
  have hjoin : (pyJoinLines (L2 ++ [""])).data =
      joinCore (L2.map String.data) ++ ['\n'] := by
    rw [show (pyJoinLines (L2 ++ [""])).data = joinCore ((L2 ++ [""]).map String.data) from rfl,
      List.map_append]
    rw [show (([""] : List String).map String.data) = [[]] from rfl]
    exact joinCore_concat_nil hmapne
  have hstrip : pyStrip (pyJoinLines (L2 ++ [""])) = ⟨joinCore (L2.map String.data)⟩ := by
    unfold pyStrip
    rw [hjoin, trimCore_concat_ws _ (by decide),
      trimCore_eq_self_parts hh hcw hg hdw]
  rw [hstrip]
  rw [show pySplitLines ⟨joinCore (L2.map String.data)⟩ =
      (linesCore (joinCore (L2.map String.data))).map String.mk from rfl]
  rw [linesCore_joinCore hmapne (by
    intro x hx
    obtain ⟨l, hl, hlx⟩ := List.mem_map.mp hx
    rw [← hlx]
    exact hnl l hl)]
  rw [show (L2.map String.data).map String.mk = L2.map (fun l => ⟨l.data⟩) from by
    rw [List.map_map]
    rfl]
  rw [show L2.map (fun l => (⟨l.data⟩ : String)) = L2.map id from by
    refine List.map_congr_left ?_
    intro x _
    exact stringEta x]
  rw [List.map_id]

/-- The unstripped variant: the rendered minutes document and the empty-task
document end in a non-blank line pattern handled separately. -/
theorem split_doc_nostrip (L2 : List String) {c d : Char}
    (hne : L2 ≠ [])
    (hnl : ∀ l ∈ L2, l.data.contains '\n' = false)
    (hh : (joinCore (L2.map String.data)).head? = some c) (hcw : pyWS c = false)
    (hg : (joinCore (L2.map String.data)).getLast? = some d) (hdw : pyWS d = false) :
    pySplitLines (pyStrip (pyJoinLines L2)) = L2 := by
  have hmapne : L2.map String.data ≠ [] := by
    cases h2 : L2 with
    | nil => exact absurd h2 hne
    | cons x xs => exact fun hh2 => List.noConfusion hh2
  have hstrip : pyStrip (pyJoinLines L2) = ⟨joinCore (L2.map String.data)⟩ := by
    unfold pyStrip
    rw [show (pyJoinLines L2).data = joinCore (L2.map String.data) from rfl,
      trimCore_eq_self_parts hh hcw hg hdw]
  rw [hstrip]
  rw [show pySplitLines ⟨joinCore (L2.map String.data)⟩ =
      (linesCore (joinCore (L2.map String.data))).map String.mk from rfl]
  rw [linesCore_joinCore hmapne (by
    intro x hx
    obtain ⟨l, hl, hlx⟩ := List.mem_map.mp hx
    rw [← hlx]
    exact hnl l hl)]
  rw [show (L2.map String.data).map String.mk = L2.map (fun l => ⟨l.data⟩) from by
    rw [List.map_map]
    rfl]
  rw [show L2.map (fun l => (⟨l.data⟩ : String)) = L2.map id from by
    refine List.map_congr_left ?_
    intro x _
    exact stringEta x]
  rw [List.map_id]

theorem joinCore_getLast2 {M : List (List Char)} {x : List Char} {d : Char}
    (hM : M.getLast? = some x) (hx : x.getLast? = some d) :
    (joinCore M).getLast? = some d := by
  have hMne : M ≠ [] := fun h => by rw [h] at hM; exact Option.noConfusion hM
  have hgl : M.getLast hMne = x := by
    rw [List.getLast?_eq_getLast M hMne] at hM
    exact Option.some.inj hM
  have hxne : x ≠ [] := fun h => by rw [h] at hx; exact Option.noConfusion hx
  rw [joinCore_getLast? hMne hgl hxne, hx]

theorem clean_getLast {s : String} (htr : trimCore s.data = s.data) (hne : s.data ≠ []) :
    ∃ e, s.data.getLast? = some e ∧ pyWS e = false := by
  obtain ⟨e, he⟩ : ∃ e, s.data.getLast? = some e := by
    cases hv : s.data.getLast? with
    | none => exact absurd (List.getLast?_eq_none_iff.mp hv) hne
    | some e => exact ⟨e, rfl⟩
  exact ⟨e, he, (trimCore_eq_self_iff.mp htr).2 e he⟩

/-- The task codec round trip on its clean domain: `created_at`/`updated_at`
are re-defaulted (modelled 0), every other field is recovered. -/
theorem task_roundtrip {tl : TaskList} (h : cleanTaskList tl = true) :
    Task_Formatter.from_markdown (Task_Formatter.to_markdown tl) =
      .ok ⟨tl.session_id, tl.minutes_id, tl.tasks, tl.status, 0, 0⟩ := by
  unfold cleanTaskList at h
  simp only [Bool.and_eq_true] at h
  obtain ⟨⟨⟨hsid, hmid⟩, htasks⟩, hsort⟩ := h
  obtain ⟨hneS1, htrS1, hnlS1, hfreeMin, hfreeSt1⟩ := cleanSessionId_parts hsid
  obtain ⟨hneS2, htrS2, hnlS2, hfreeSt2⟩ := cleanMinutesId_parts hmid
  obtain ⟨htrS3, hneS3, hnlS3, hofS⟩ := status_value_facts tl.status
  have htasksAll : ∀ t ∈ tl.tasks, cleanTask t = true := by
    rw [List.all_eq_true] at htasks
    intro t ht
    exact htasks t ht
  have hBne : (if tl.tasks.isEmpty then (["タスクはありません。"] : List String)
      else Task_Formatter.renderTasksGrouped none
        (Task_Formatter.sortedByPriority tl.tasks)) ≠ [] := by
    rw [sortedByPriority_eq hsort]
    cases hemp : tl.tasks with
    | nil =>
      rw [if_pos (show (([] : List Task)).isEmpty = true from rfl)]
      exact fun hh => List.noConfusion hh
    | cons t0 ts0 =>
      rw [if_neg (fun hh => Bool.noConfusion hh),
        renderTasksGrouped_eq none (t0 :: ts0) (fun hh => List.noConfusion hh)]
      exact fun hh => List.noConfusion (List.append_eq_nil.mp hh).2
  have hD : (Task_Formatter.to_markdown tl).data =
      "# タスクリスト\n\n- **Session ID**: ".data ++ (tl.session_id.data ++
        ("\n- **Minutes ID**: ".data ++ (tl.minutes_id.data ++
          ("\n- **Status**: ".data ++ (tl.status.value.data ++
            ('\n' :: '\n' :: joinCore ((if tl.tasks.isEmpty
              then (["タスクはありません。"] : List String)
              else Task_Formatter.renderTasksGrouped none
                (Task_Formatter.sortedByPriority tl.tasks)).map String.data))))))) := by
    rw [show (Task_Formatter.to_markdown tl).data =
      joinCore (((["# タスクリスト", "", "- **Session ID**: " ++ tl.session_id,
        "- **Minutes ID**: " ++ tl.minutes_id, "- **Status**: " ++ tl.status.value, ""]
        ++ (if tl.tasks.isEmpty then (["タスクはありません。"] : List String)
          else Task_Formatter.renderTasksGrouped none
            (Task_Formatter.sortedByPriority tl.tasks)))).map String.data) from rfl]
    exact joinCore_meta _ _ _ _ hBne
  have hs1 : searchLabelValue "**Session ID**:" (Task_Formatter.to_markdown tl) =
      some tl.session_id := by
    refine searchLabelValue_found _ "# タスクリスト\n\n- ".data _
      ("\n- **Minutes ID**: ".data ++ (tl.minutes_id.data ++
        ("\n- **Status**: ".data ++ (tl.status.value.data ++
          ('\n' :: '\n' :: joinCore ((if tl.tasks.isEmpty
            then (["タスクはありません。"] : List String)
            else Task_Formatter.renderTasksGrouped none
              (Task_Formatter.sortedByPriority tl.tasks)).map String.data))))))
      (by rw [hD]; rfl) (by decide) (by decide)
      (strad_discharge_right _ _ _ (by decide) rfl _)
      htrS1 hneS1 hnlS1 (Or.inr ⟨_, rfl⟩)
  have hs2 : searchLabelValue "**Minutes ID**:" (Task_Formatter.to_markdown tl) =
      some tl.minutes_id := by
    refine searchLabelValue_found _
      ("# タスクリスト\n\n- **Session ID**: ".data ++ (tl.session_id.data ++ "\n- ".data)) _
      ("\n- **Status**: ".data ++ (tl.status.value.data ++
        ('\n' :: '\n' :: joinCore ((if tl.tasks.isEmpty
          then (["タスクはありません。"] : List String)
          else Task_Formatter.renderTasksGrouped none
            (Task_Formatter.sortedByPriority tl.tasks)).map String.data))))
      ?_ (by decide) ?_
      (strad_discharge_right _ _ _ (by decide) rfl _)
      htrS2 hneS2 hnlS2 (Or.inr ⟨_, rfl⟩)
    · rw [hD, List.append_assoc, List.append_assoc]
      rfl
    · refine occursIn_append_false _ _ _ (by decide) ?_
        (strad_discharge_left _ _ (by decide) _)
      refine occursIn_append_false _ _ _ hfreeMin (by decide) ?_
      exact strad_discharge_head "**Minutes ID**:".data '\n' "- ".data (by decide)
        tl.session_id.data
  have hs3 : searchLabelValue "**Status**:" (Task_Formatter.to_markdown tl) =
      some tl.status.value := by
    refine searchLabelValue_found _
      ("# タスクリスト\n\n- **Session ID**: ".data ++ (tl.session_id.data ++
        ("\n- **Minutes ID**: ".data ++ (tl.minutes_id.data ++ "\n- ".data)))) _
      ('\n' :: '\n' :: joinCore ((if tl.tasks.isEmpty
        then (["タスクはありません。"] : List String)
        else Task_Formatter.renderTasksGrouped none
          (Task_Formatter.sortedByPriority tl.tasks)).map String.data))
      ?_ (by decide) ?_
      (strad_discharge_right _ _ _ (by decide) rfl _)
      htrS3 hneS3 hnlS3 (Or.inr ⟨_, rfl⟩)
    · rw [hD]
      simp only [List.append_assoc]
      rfl
    · refine occursIn_append_false _ _ _ (by decide) ?_
        (strad_discharge_left _ _ (by decide) _)
      refine occursIn_append_false _ _ _ hfreeSt1 ?_
        (strad_discharge_head "**Status**:".data '\n'
          ("- **Minutes ID**: ".data ++ (tl.minutes_id.data ++ "\n- ".data))
          (by decide) tl.session_id.data)
      refine occursIn_append_false _ _ _ (by decide) ?_
        (strad_discharge_left _ _ (by decide) _)
      refine occursIn_append_false _ _ _ hfreeSt2 (by decide) ?_
      exact strad_discharge_head "**Status**:".data '\n' "- ".data (by decide)
        tl.minutes_id.data
  have hparse : Task_Formatter.parseLoop .medium none
      (pySplitLines (pyStrip (Task_Formatter.to_markdown tl))) = .ok tl.tasks := by
    cases hemp : tl.tasks with
    | nil =>
      have hml : Task_Formatter.to_markdown tl = pyJoinLines
          ["# タスクリスト", "", "- **Session ID**: " ++ tl.session_id,
           "- **Minutes ID**: " ++ tl.minutes_id, "- **Status**: " ++ tl.status.value, "",
           "タスクはありません。"] := by
        unfold Task_Formatter.to_markdown Task_Formatter.to_markdown_lines
        rw [hemp, if_pos (show (([] : List Task)).isEmpty = true from rfl)]
        rfl
      rw [hml, split_doc_nostrip _ (fun hh => List.noConfusion hh)
        (by
          intro l hl
          simp only [List.mem_cons, List.not_mem_nil, or_false] at hl
          rcases hl with h1 | h1 | h1 | h1 | h1 | h1 | h1 <;> subst h1
          · decide
          · decide
          · exact contains_append_false (by decide) hnlS1
          · exact contains_append_false (by decide) hnlS2
          · exact contains_append_false (by decide) hnlS3
          · decide
          · decide)
        (by
          rw [show (["# タスクリスト", "", "- **Session ID**: " ++ tl.session_id,
            "- **Minutes ID**: " ++ tl.minutes_id, "- **Status**: " ++ tl.status.value, "",
            "タスクはありません。"] : List String).map String.data =
            "# タスクリスト".data :: "".data :: ("- **Session ID**: " ++ tl.session_id).data ::
            ("- **Minutes ID**: " ++ tl.minutes_id).data ::
            ("- **Status**: " ++ tl.status.value).data :: "".data ::
            "タスクはありません。".data :: [] from rfl,
            joinCore_head? (show "# タスクリスト".data ≠ [] from by decide)]
          rfl)
        (by decide)
        (joinCore_getLast2 (by rfl) (show "タスクはありません。".data.getLast? =
          some '。' from by decide))
        (by decide)]
      rw [show (["# タスクリスト", "", "- **Session ID**: " ++ tl.session_id,
        "- **Minutes ID**: " ++ tl.minutes_id, "- **Status**: " ++ tl.status.value, "",
        "タスクはありません。"] : List String) =
        "# タスクリスト" :: "" :: ("- **Session ID**: " ++ tl.session_id) ::
        ("- **Minutes ID**: " ++ tl.minutes_id) :: ("- **Status**: " ++ tl.status.value) ::
        "" :: ["タスクはありません。"] from rfl,
        parseLoop_meta _ _ _ _ _ htrS1 hneS1 htrS2 hneS2 htrS3 hneS3,
        parseLoop_skip _ _ _ (by decide) (by decide)]
      rfl
    | cons t0 ts0 =>
      have hne2 : tl.tasks ≠ [] := by
        rw [hemp]
        exact fun hh => List.noConfusion hh
      have hml : Task_Formatter.to_markdown tl = pyJoinLines
          ((["# タスクリスト", "", "- **Session ID**: " ++ tl.session_id,
            "- **Minutes ID**: " ++ tl.minutes_id, "- **Status**: " ++ tl.status.value, ""]
            ++ renderTasksGroupedInit none tl.tasks) ++ [""]) := by
        unfold Task_Formatter.to_markdown Task_Formatter.to_markdown_lines
        rw [if_neg (fun hh => by rw [hemp] at hh; exact Bool.noConfusion hh),
          sortedByPriority_eq hsort, renderTasksGrouped_eq none tl.tasks hne2,
          ← List.append_assoc]
      obtain ⟨xq, hxq0, hlastInit0⟩ := groupedInit_getLast ts0 none t0
      have hxq : xq ∈ tl.tasks := by
        rw [hemp]
        exact hxq0
      have hlastInit : (renderTasksGroupedInit none tl.tasks).getLast? =
          some ("  - 引用: " ++ xq.source_quote) := by
        rw [hemp]
        exact hlastInit0
      have hxqc : cleanTask xq = true := htasksAll xq hxq
      obtain ⟨_, _, _, _, hquoteC, _, _⟩ := cleanTask_parts hxqc
      obtain ⟨hqne, hqtr, _, _, _⟩ := cleanField_parts hquoteC
      obtain ⟨e, heq, hews⟩ := clean_getLast hqtr hqne
      rw [hml, strip_split_doc _
        (fun hh => List.noConfusion (List.append_eq_nil.mp hh).1)
        (by
          intro l hl
          rcases List.mem_append.mp hl with h1 | h1
          · simp only [List.mem_cons, List.not_mem_nil, or_false] at h1
            rcases h1 with h2 | h2 | h2 | h2 | h2 | h2 <;> subst h2
            · decide
            · decide
            · exact contains_append_false (by decide) hnlS1
            · exact contains_append_false (by decide) hnlS2
            · exact contains_append_false (by decide) hnlS3
            · decide
          · exact groupedInit_nlfree tl.tasks none htasksAll l h1)
        (by
          rw [show ((["# タスクリスト", "", "- **Session ID**: " ++ tl.session_id,
            "- **Minutes ID**: " ++ tl.minutes_id, "- **Status**: " ++ tl.status.value, ""]
            ++ renderTasksGroupedInit none tl.tasks) : List String).map String.data =
            "# タスクリスト".data :: "".data :: ("- **Session ID**: " ++ tl.session_id).data ::
            ("- **Minutes ID**: " ++ tl.minutes_id).data ::
            ("- **Status**: " ++ tl.status.value).data :: "".data ::
            (renderTasksGroupedInit none tl.tasks).map String.data from by
              rw [List.map_append]
              rfl,
            joinCore_head? (show "# タスクリスト".data ≠ [] from by decide)]
          rfl)
        (by decide)
        (joinCore_getLast2
          (by
            rw [List.map_append, List.getLast?_append, List.getLast?_map, hlastInit]
            rfl)
          (by
            rw [show ("  - 引用: " ++ xq.source_quote).data =
              "  - 引用: ".data ++ xq.source_quote.data from rfl]
            exact getLast?_append_right heq))
        hews]
      rw [show ((["# タスクリスト", "", "- **Session ID**: " ++ tl.session_id,
        "- **Minutes ID**: " ++ tl.minutes_id, "- **Status**: " ++ tl.status.value, ""]
        ++ renderTasksGroupedInit none tl.tasks) : List String) =
        "# タスクリスト" :: "" :: ("- **Session ID**: " ++ tl.session_id) ::
        ("- **Minutes ID**: " ++ tl.minutes_id) :: ("- **Status**: " ++ tl.status.value) ::
        "" :: renderTasksGroupedInit none tl.tasks from rfl,
        parseLoop_meta _ _ _ _ _ htrS1 hneS1 htrS2 hneS2 htrS3 hneS3,
        ← hemp]
      exact parseLoop_groupedInit tl.tasks .medium none htasksAll (Or.inl rfl)
  unfold Task_Formatter.from_markdown
  rw [hs1, hs2, hs3]
  simp only []
  rw [hofS]
  simp only []
  rw [hparse]

/-! ### Generic list scan helpers for the minutes parser -/

theorem takeWhileG_all {α : Type} {p : α → Bool} {l : List α}
    (h : ∀ c ∈ l, p c = true) : l.takeWhile p = l := by
  induction l with
  | nil => rfl
  | cons x xs ih =>
    rw [List.takeWhile_cons, if_pos (h x (List.mem_cons_self _ _)),
      ih (fun c hc => h c (List.mem_cons_of_mem x hc))]

theorem takeWhileG_append_stop {α : Type} {p : α → Bool} {a : List α} {c : α}
    (t : List α) (ha : ∀ x ∈ a, p x = true) (hc : p c = false) :
    (a ++ c :: t).takeWhile p = a := by
  induction a with
  | nil =>
    rw [List.nil_append, List.takeWhile_cons,
      if_neg (by rw [hc]; exact Bool.noConfusion)]
  | cons x xs ih =>
    rw [List.cons_append, List.takeWhile_cons, if_pos (ha x (List.mem_cons_self _ _)),
      ih (fun y hy => ha y (List.mem_cons_of_mem x hy))]

theorem isEmptyG_false {α : Type} {l : List α} (h : l ≠ []) : l.isEmpty = false := by
  cases hv : l with
  | nil => exact absurd hv h
  | cons c cs => rfl

theorem ne_empty_of_head {s : String} {c : Char} (h : s.data.head? = some c) :
    s ≠ "" := by
  intro he
  rw [he] at h
  exact Option.noConfusion h

theorem ne_of_headChar {x y : String} {c d : Char} (hx : x.data.head? = some c)
    (hy : y.data.head? = some d) (hcd : c ≠ d) : x ≠ y := by
  intro he
  rw [he] at hx
  exact hcd (Option.some.inj (hx.symm.trans hy))

theorem map_mk_data (L : List String) : (L.map String.data).map String.mk = L := by
  induction L with
  | nil => rfl
  | cons x xs ih =>
    rw [List.map_cons, List.map_cons, ih]

theorem pySplit_pyJoin (L : List String) (hne : L ≠ [])
    (h : ∀ x ∈ L, x.data.contains '\n' = false) :
    pySplitLines (pyJoinLines L) = L := by
  unfold pySplitLines pyJoinLines
  rw [show (⟨joinCore (L.map String.data)⟩ : String).data =
    joinCore (L.map String.data) from rfl]
  rw [linesCore_joinCore (fun hh => hne (List.map_eq_nil_iff.mp hh))
    (fun x hx => by
      obtain ⟨y, hy, hyx⟩ := List.mem_map.mp hx
      rw [← hyx]
      exact h y hy)]
  exact map_mk_data L

theorem strip_join_blank (A : List String) (hne : A ≠ [])
    (hh : ∃ c, (joinCore (A.map String.data)).head? = some c ∧ pyWS c = false)
    (hg : ∃ d, (joinCore (A.map String.data)).getLast? = some d ∧ pyWS d = false) :
    pyStrip (pyJoinLines (A ++ [""])) = pyJoinLines A := by
  obtain ⟨c, hc1, hc2⟩ := hh
  obtain ⟨d, hd1, hd2⟩ := hg
  unfold pyStrip pyJoinLines
  rw [show ((A ++ [""]).map String.data) = A.map String.data ++ [[]] from by
    rw [List.map_append]
    rfl]
  rw [show (⟨joinCore (A.map String.data ++ [[]])⟩ : String).data =
    joinCore (A.map String.data ++ [[]]) from rfl]
  rw [joinCore_concat_nil (fun hh2 => hne (List.map_eq_nil_iff.mp hh2))]
  rw [trimCore_concat_ws _ (by decide)]
  rw [trimCore_eq_self_parts hc1 hc2 hd1 hd2]

/-! ### Cleanliness unpackers for the minutes record -/

theorem cleanTitle_parts {s : String} (h : cleanTitle s = true) :
    s.data ≠ [] ∧ trimCore s.data = s.data ∧ s.data.contains '\n' = false :=
  cleanItem_parts h

theorem cleanDiscussion_parts {s : String} (h : cleanDiscussion s = true) :
    s.data ≠ [] ∧ trimCore s.data = s.data ∧ s.data.contains '\n' = false ∧
    hasPrefixS "## " s = false := by
  unfold cleanDiscussion at h
  rw [Bool.and_eq_true] at h
  obtain ⟨h1, h2⟩ := h
  obtain ⟨a, b, c⟩ := cleanItem_parts h1
  rw [Bool.not_eq_true'] at h2
  exact ⟨a, b, c, h2⟩

theorem cleanActionDesc_parts {s : String} (h : cleanActionDesc s = true) :
    s.data ≠ [] ∧ trimCore s.data = s.data ∧ s.data.contains '\n' = false ∧
    s.data.contains '(' = false := by
  unfold cleanActionDesc at h
  rw [Bool.and_eq_true] at h
  obtain ⟨h1, h2⟩ := h
  obtain ⟨a, b, c⟩ := cleanItem_parts h1
  rw [Bool.not_eq_true'] at h2
  exact ⟨a, b, c, h2⟩

theorem cleanActionAssignee_parts {s : String} (h : cleanActionAssignee s = true) :
    s.data ≠ [] ∧ trimCore s.data = s.data ∧ s.data.contains '\n' = false ∧
    s.data.contains ',' = false ∧ s.data.contains ')' = false ∧
    occursIn "期限:".data s.data = false := by
  unfold cleanActionAssignee at h
  simp only [Bool.and_eq_true, Bool.not_eq_true'] at h
  obtain ⟨⟨⟨h1, h2⟩, h3⟩, h4⟩ := h
  obtain ⟨a, b, c⟩ := cleanItem_parts h1
  rw [containsS_eq] at h4
  exact ⟨a, b, c, h2, h3, h4⟩

theorem cleanActionItem_parts {a : ActionItem} (h : cleanActionItem a = true) :
    cleanActionDesc a.description = true ∧
    (∀ x, a.assignee = some x → cleanActionAssignee x = true) ∧
    (∀ d, a.due_date = some d → cleanActionDue d = true) := by
  unfold cleanActionItem at h
  simp only [Bool.and_eq_true] at h
  obtain ⟨⟨h1, h2⟩, h3⟩ := h
  refine ⟨h1, ?_, ?_⟩
  · intro x hx
    rw [hx] at h2
    exact h2
  · intro d hd
    rw [hd] at h3
    exact h3

theorem cleanMinutes_parts {m : Minutes} (h : cleanMinutes m = true) :
    cleanTitle m.title = true ∧ m.date.ValidB = true ∧ 1000 ≤ m.date.year ∧
    m.date.second = 0 ∧ (∀ p ∈ m.participants, cleanItem p = true) ∧
    (∀ a ∈ m.agenda, cleanItem a = true) ∧ cleanDiscussion m.discussion = true ∧
    (∀ d ∈ m.decisions, cleanItem d = true) ∧
    (∀ a ∈ m.action_items, cleanActionItem a = true) := by
  unfold cleanMinutes at h
  simp only [Bool.and_eq_true, decide_eq_true_eq, List.all_eq_true] at h
  obtain ⟨⟨⟨⟨⟨⟨⟨⟨h1, h2⟩, h3⟩, h4⟩, h5⟩, h6⟩, h7⟩, h8⟩, h9⟩ := h
  exact ⟨h1, h2, h3, h4, h5, h6, h7, h8, h9⟩

theorem cleanActionDue_inv {s : String} (h : cleanActionDue s = true) :
    ∃ v, matchDateCore s.data = some (v, []) := by
  unfold cleanActionDue at h
  split at h
  · rename_i v heq
    exact ⟨v, heq⟩
  · exact Bool.noConfusion h

theorem dueStr_facts {s : String} (h : cleanActionDue s = true) :
    trimCore s.data = s.data ∧ s.data ≠ [] ∧ s.data.contains '\n' = false ∧
    s.data.contains '(' = false ∧ s.data.contains ')' = false ∧
    ('担' ∉ s.data) ∧ ('期' ∉ s.data) ∧
    matchDateDigits s.data = some s.data ∧
    (∀ c, s.data.head? = some c → pyWS c = false) := by
  obtain ⟨v, hv⟩ := cleanActionDue_inv h
  obtain ⟨y1, y2, y3, y4, m1, m2, d1, d2, hsh, hy1, hy2, hy3, hy4, hm1, hm2, hd1, hd2⟩ :=
    matchDateCore_shape hv
  have hmem : ∀ x ∈ s.data, isDigitC x = true ∨ x = '-' := by
    intro x hx
    rw [hsh] at hx
    simp only [List.mem_cons, List.not_mem_nil, or_false] at hx
    rcases hx with h' | h' | h' | h' | h' | h' | h' | h' | h' | h'
    · exact Or.inl (h' ▸ hy1)
    · exact Or.inl (h' ▸ hy2)
    · exact Or.inl (h' ▸ hy3)
    · exact Or.inl (h' ▸ hy4)
    · exact Or.inr h'
    · exact Or.inl (h' ▸ hm1)
    · exact Or.inl (h' ▸ hm2)
    · exact Or.inr h'
    · exact Or.inl (h' ▸ hd1)
    · exact Or.inl (h' ▸ hd2)
  have hnm : ∀ (c : Char), isDigitC c = false → c ≠ '-' → c ∉ s.data := by
    intro c hc1 hc2 hmm
    rcases hmem c hmm with h' | h'
    · rw [h'] at hc1
      exact Bool.noConfusion hc1
    · exact hc2 h'
  refine ⟨?_, ?_, ?_, ?_, ?_, ?_, ?_, ?_, ?_⟩
  · rw [hsh]
    exact trimCore_eq_self_parts (c := y1) (d := d2) rfl (isDigitC_props hy1).1 rfl
      (isDigitC_props hd2).1
  · rw [hsh]
    exact fun hh => List.noConfusion hh
  · exact contains_false_iff.mpr (hnm '\n' (by decide) (by decide))
  · exact contains_false_iff.mpr (hnm '(' (by decide) (by decide))
  · exact contains_false_iff.mpr (hnm ')' (by decide) (by decide))
  · exact hnm '担' (by decide) (by decide)
  · exact hnm '期' (by decide) (by decide)
  · unfold matchDateDigits
    rw [hv]
    refine congrArg some ?_
    rw [hsh]
    rfl
  · intro c hc
    rw [hsh] at hc
    have hc2 : some y1 = some c := hc
    cases Option.some.inj hc2
    exact (isDigitC_props hy1).1

/-! ### Heading classification for the minutes section scanner -/

theorem hasPrefixS_head_ne {l : String} {c : Char} {x : List Char}
    (h : l.data = c :: x) (hc : c ≠ '#') : hasPrefixS "## " l = false := by
  unfold hasPrefixS
  rw [h]
  exact isPrefixCore_cons_ne _ _ (fun he => hc he.symm)

theorem hasPrefixS_h1 (t : String) : hasPrefixS "## " ("# " ++ t) = false := by
  unfold hasPrefixS
  rw [show ("# " ++ t).data = '#' :: ' ' :: t.data from rfl,
    show ("## " : String).data = '#' :: '#' :: [' '] from rfl,
    isPrefixCore_cons₂, isPrefixCore_cons_ne _ _ (by decide), Bool.and_false]

theorem isHeadingLine_false_of_pfx {name l : String}
    (h : hasPrefixS "## " l = false) :
    MinutesFormatter.isHeadingLine name l = false := by
  unfold MinutesFormatter.isHeadingLine
  rw [hasPrefixS_trans_false h (isPrefixCore_append_self _ _), Bool.false_and]

theorem sectionLinesAux_skip (name l : String) (rest : List String)
    (h : MinutesFormatter.isHeadingLine name l = false) :
    MinutesFormatter.sectionLinesAux name (l :: rest) =
      MinutesFormatter.sectionLinesAux name rest := by
  rw [MinutesFormatter.sectionLinesAux, h, Bool.false_and,
    if_neg (fun hh => Bool.noConfusion hh)]

theorem sectionLinesAux_skip_all (name : String) (A rest : List String)
    (h : ∀ l ∈ A, MinutesFormatter.isHeadingLine name l = false) :
    MinutesFormatter.sectionLinesAux name (A ++ rest) =
      MinutesFormatter.sectionLinesAux name rest := by
  induction A with
  | nil => rfl
  | cons x xs ih =>
    rw [List.cons_append, sectionLinesAux_skip _ _ _ (h x (List.mem_cons_self _ _)),
      ih (fun l hl => h l (List.mem_cons_of_mem x hl))]

theorem sectionLinesAux_found (name l : String) (rest : List String)
    (h : MinutesFormatter.isHeadingLine name l = true) (hr : rest ≠ []) :
    MinutesFormatter.sectionLinesAux name (l :: rest) =
      some (rest.takeWhile (fun x => !(hasPrefixS "## " x))) := by
  rw [MinutesFormatter.sectionLinesAux, h, isEmptyG_false hr]
  rw [if_pos (show (true && !false) = true from rfl)]

theorem searchAssigneeParen_none {details : String}
    (h : occursIn "担当:".data details.data = false) :
    MinutesFormatter.searchAssigneeParen details = none := by
  unfold MinutesFormatter.searchAssigneeParen
  rw [splitAtFirst_eq_none h]

theorem strftimeMin_facts (t : PyDateTime) :
    trimCore t.strftimeMinute.data = t.strftimeMinute.data ∧
    t.strftimeMinute.data ≠ [] ∧
    t.strftimeMinute.data.contains '\n' = false ∧
    hasPrefixS "## " t.strftimeMinute = false := by
  have hmem : ∀ (c : Char), isDigitC c = false → c ≠ '-' → c ≠ ' ' → c ≠ ':' →
      c ∉ t.strftimeMinute.data := by
    intro c h1 h2 h3 h4 hm
    rw [strftimeMinute_data] at hm
    simp only [List.mem_cons, List.not_mem_nil, or_false] at hm
    rcases hm with h' | h' | h' | h' | h' | h' | h' | h' | h' | h' | h' | h' | h' | h' | h' | h'
    all_goals first
      | (subst h'
         rw [(digitChar_spec _ (mod10_lt _)).1] at h1
         exact Bool.noConfusion h1)
      | exact h2 h'
      | exact h3 h'
      | exact h4 h'
  refine ⟨?_, ?_, ?_, ?_⟩
  · rw [strftimeMinute_data]
    exact trimCore_eq_self_parts (c := digitChar (t.year / 1000 % 10))
      (d := digitChar (t.minute % 10)) rfl (digitChar_spec _ (mod10_lt _)).2.2.1 rfl
      (digitChar_spec _ (mod10_lt _)).2.2.1
  · rw [strftimeMinute_data]
    exact fun hh => List.noConfusion hh
  · exact contains_false_iff.mpr (hmem '\n' (by decide) (by decide) (by decide) (by decide))
  · refine hasPrefixS_head_ne (c := digitChar (t.year / 1000 % 10))
      (x := (t.strftimeMinute.data).tail) ?_ ?_
    · rw [strftimeMinute_data]
      rfl
    · intro he
      have := (digitChar_spec (t.year / 1000 % 10) (mod10_lt _)).2.2.2.2.1
      exact this he

/-! ### Bullet lines -/

theorem bullet_line_facts {p : String} (h : cleanItem p = true) :
    trimCore ("- " ++ p).data = ("- " ++ p).data ∧
    ("- " ++ p).data.contains '\n' = false ∧
    ("- " ++ p).data.head? = some '-' ∧
    hasPrefixS "## " ("- " ++ p) = false := by
  obtain ⟨hne, htr, hnl⟩ := cleanItem_parts h
  have hd : ("- " ++ p).data = "- ".data ++ p.data := rfl
  refine ⟨?_, ?_, ?_, ?_⟩
  · rw [hd]
    exact trimCore_concrete_field (c := '-') rfl (by decide) htr hne
  · rw [hd]
    exact contains_append_false (by decide) hnl
  · rfl
  · exact hasPrefixS_head_ne (x := ' ' :: p.data) rfl (by decide)

theorem searchTitle_render {t : String} (ht : cleanTitle t = true) (rest : List String) :
    MinutesFormatter.searchTitleAux (("# " ++ t) :: rest) = some t := by
  obtain ⟨hne, htrim, hnl⟩ := cleanTitle_parts ht
  rw [MinutesFormatter.searchTitleAux]
  rw [show hasPrefixS "# " ("# " ++ t) = true from isPrefixCore_append_self _ _]
  rw [show (charDrop 2 ("# " ++ t)) = ⟨t.data⟩ from rfl]
  rw [isEmptyG_false hne]
  rw [if_pos (show (true && !false) = true from rfl)]
  rw [labelCapture_pyStrip (v := t) htrim hne]

theorem filterMap_bullets (ps : List String) (h : ∀ p ∈ ps, cleanItem p = true) :
    List.filterMap
      (fun l => if hasPrefixS "- " (pyStrip l) then some (pyStrip (charDrop 2 (pyStrip l)))
                else none)
      (ps.map (fun p => "- " ++ p)) = ps := by
  induction ps with
  | nil => rfl
  | cons p ps2 ih =>
    have hp := h p (List.mem_cons_self _ _)
    obtain ⟨hpne, hptr, hpnl⟩ := cleanItem_parts hp
    rw [List.map_cons, List.filterMap_cons]
    have hstrip : pyStrip ("- " ++ p) = "- " ++ p := by
      unfold pyStrip
      rw [(bullet_line_facts hp).1, stringEta]
    have hf : (if hasPrefixS "- " (pyStrip ("- " ++ p)) then
        some (pyStrip (charDrop 2 (pyStrip ("- " ++ p)))) else none) = some p := by
      rw [hstrip]
      rw [show hasPrefixS "- " ("- " ++ p) = true from isPrefixCore_append_self _ _]
      rw [if_pos rfl]
      rw [show (charDrop 2 ("- " ++ p)) = ⟨p.data⟩ from rfl]
      rw [labelCapture_pyStrip (v := p) hptr hpne]
    rw [hf, ih (fun q hq => h q (List.mem_cons_of_mem p hq))]

theorem bullet_harvest (ps : List String) (hne : ps ≠ [])
    (h : ∀ p ∈ ps, cleanItem p = true) :
    MinutesFormatter.parseBulletItems (pyJoinLines (ps.map (fun p => "- " ++ p))) = ps := by
  unfold MinutesFormatter.parseBulletItems
  rw [pySplit_pyJoin _ (fun hh => hne (List.map_eq_nil_iff.mp hh))
    (fun x hx => by
      obtain ⟨y, hy, hyx⟩ := List.mem_map.mp hx
      rw [← hyx]
      exact (bullet_line_facts (h y hy)).2.1)]
  exact filterMap_bullets ps h

/-! ### Rendered action-item lines -/

theorem renderAI_data_none {a : ActionItem} (ha : a.assignee = none)
    (hd : a.due_date = none) :
    (MinutesFormatter.renderActionItem a).data =
      '-' :: ' ' :: '[' :: (if a.completed then 'x' else ' ') :: ']' :: ' ' ::
        a.description.data := by
  unfold MinutesFormatter.renderActionItem
  simp only []
  rw [ha, hd]
  rw [if_pos (show (((match (none : Option String) with
    | some a => if a ≠ "" then ["担当: " ++ a] else []
    | none => []) ++ (match (none : Option String) with
    | some d => if d ≠ "" then ["期限: " ++ d] else []
    | none => [])) : List String).isEmpty = true from rfl)]
  cases a.completed
  · rfl
  · rfl

theorem renderAI_data_assignee {a : ActionItem} {x : String} (ha : a.assignee = some x)
    (hxne : x ≠ "") (hd : a.due_date = none) :
    (MinutesFormatter.renderActionItem a).data =
      '-' :: ' ' :: '[' :: (if a.completed then 'x' else ' ') :: ']' :: ' ' ::
        (a.description.data ++ (' ' :: '(' ::
          (("担当: ".data ++ x.data) ++ [')']))) := by
  unfold MinutesFormatter.renderActionItem
  simp only []
  rw [ha, hd]
  simp only []
  rw [if_pos hxne]
  rw [if_neg (show ¬ (((["担当: " ++ x] ++ []) : List String).isEmpty = true) from
    fun hh => Bool.noConfusion hh)]
  cases a.completed
  · simp only [String.data_append, List.append_assoc]
    rfl
  · simp only [String.data_append, List.append_assoc]
    rfl

theorem renderAI_data_due {a : ActionItem} {d : String} (ha : a.assignee = none)
    (hd : a.due_date = some d) (hdne : d ≠ "") :
    (MinutesFormatter.renderActionItem a).data =
      '-' :: ' ' :: '[' :: (if a.completed then 'x' else ' ') :: ']' :: ' ' ::
        (a.description.data ++ (' ' :: '(' ::
          (("期限: ".data ++ d.data) ++ [')']))) := by
  unfold MinutesFormatter.renderActionItem
  simp only []
  rw [ha, hd]
  simp only []
  rw [if_pos hdne]
  rw [if_neg (show ¬ ((([] ++ ["期限: " ++ d]) : List String).isEmpty = true) from
    fun hh => Bool.noConfusion hh)]
  cases a.completed
  · simp only [String.data_append, List.append_assoc]
    rfl
  · simp only [String.data_append, List.append_assoc]
    rfl

theorem renderAI_data_both {a : ActionItem} {x d : String} (ha : a.assignee = some x)
    (hxne : x ≠ "") (hd : a.due_date = some d) (hdne : d ≠ "") :
    (MinutesFormatter.renderActionItem a).data =
      '-' :: ' ' :: '[' :: (if a.completed then 'x' else ' ') :: ']' :: ' ' ::
        (a.description.data ++ (' ' :: '(' ::
          (("担当: ".data ++ (x.data ++ (',' :: ' ' :: ("期限: ".data ++ d.data))))
            ++ [')']))) := by
  unfold MinutesFormatter.renderActionItem
  simp only []
  rw [ha, hd]
  simp only []
  rw [if_pos hxne, if_pos hdne]
  rw [if_neg (show ¬ (((["担当: " ++ x] ++ ["期限: " ++ d]) : List String).isEmpty = true) from
    fun hh => Bool.noConfusion hh)]
  rw [show (joinWith ", " (["担当: " ++ x] ++ ["期限: " ++ d])) =
    ("担当: " ++ x) ++ ", " ++ ("期限: " ++ d) from rfl]
  cases a.completed
  · simp only [String.data_append, List.append_assoc]
    rfl
  · simp only [String.data_append, List.append_assoc]
    rfl

theorem pyStrip_self {s : String} {c d : Char} (hh : s.data.head? = some c)
    (hc : pyWS c = false) (hg : s.data.getLast? = some d) (hd2 : pyWS d = false) :
    pyStrip s = s := by
  unfold pyStrip
  rw [trimCore_eq_self_parts hh hc hg hd2, stringEta]

theorem matchCheckbox_eval {s : String} {c : Char} {rest : List Char}
    (hs : s.data = '-' :: ' ' :: '[' :: c :: ']' :: ' ' :: rest)
    (hc : (c = ' ' || c = 'x') = true) (hrest : rest ≠ []) :
    MinutesFormatter.matchCheckbox s = some ((decide (c = 'x')), pyStrip ⟨rest⟩) := by
  unfold MinutesFormatter.matchCheckbox
  rw [hs]
  simp only []
  rw [isEmpty_false_of_ne_nil hrest]
  rw [if_pos (by rw [hc]; rfl)]

theorem splitDetailsParen_none {r : String} (h : r.data.contains '(' = false) :
    MinutesFormatter.splitDetailsParen r = none := by
  unfold MinutesFormatter.splitDetailsParen
  have ho : occursIn ['('] r.data = false :=
    occursIn_head_notMem rfl (contains_false_iff.mp h)
  by_cases hl : r.data.getLast? = some ')'
  · rw [if_pos hl, splitAtFirst_eq_none ho]
  · rw [if_neg hl]

theorem splitDetailsParen_found {r v : String} {J : List Char}
    (hr : r.data = v.data ++ (' ' :: '(' :: (J ++ [')'])))
    (hdpar : v.data.contains '(' = false) (hJne : J ≠ [])
    (htrim : trimCore v.data = v.data) (hdne : v.data ≠ []) :
    MinutesFormatter.splitDetailsParen r = some (v, ⟨J⟩) := by
  unfold MinutesFormatter.splitDetailsParen
  rw [hr]
  rw [if_pos (show (v.data ++ (' ' :: '(' :: (J ++ [')']))).getLast? = some ')' from by
    refine getLast?_append_right ?_
    rw [show (' ' :: '(' :: (J ++ [')'])) = [' ', '('] ++ (J ++ [')']) from rfl]
    exact getLast?_append_right (getLast?_append_right rfl))]
  rw [show v.data ++ (' ' :: '(' :: (J ++ [')'])) =
      (v.data ++ [' ']) ++ ('(' :: (J ++ [')'])) from by
    rw [List.append_assoc]
    rfl]
  have hsf := splitAtFirst_found ['('] (v.data ++ [' ']) (J ++ [')'])
    (fun hh => List.noConfusion hh)
    (occursIn_head_notMem rfl (fun hm => by
      rcases List.mem_append.mp hm with h1 | h1
      · exact contains_false_iff.mp hdpar h1
      · simp only [List.mem_cons, List.not_mem_nil, or_false] at h1
        exact absurd h1 (by decide)))
    (fun k h1 h2 => by
      simp only [List.length_cons, List.length_nil] at h1
      exact absurd h2 (by omega))
  rw [show (v.data ++ [' ']) ++ ('(' :: (J ++ [')'])) =
    (v.data ++ [' ']) ++ (['('] ++ (J ++ [')'])) from rfl, hsf]
  simp only []
  rw [if_pos (show 2 ≤ (J ++ [')']).length from by
    rw [List.length_append]
    have : 0 < J.length := List.length_pos.mpr hJne
    simp only [List.length_cons, List.length_nil]
    omega)]
  rw [show pyStrip ⟨v.data ++ [' ']⟩ = v from by
    unfold pyStrip
    rw [show ((⟨v.data ++ [' ']⟩ : String)).data = v.data ++ [' '] from rfl,
      trimCore_concat_ws _ (by decide), htrim, stringEta]]
  rw [show (J ++ [')']).dropLast = J from List.dropLast_concat]

theorem assigneeParen_some {s x : String} {u t : List Char}
    (hd : s.data = "担当:".data ++ (' ' :: u))
    (hrest2 : u = x.data ++ t)
    (hx : cleanActionAssignee x = true)
    (htail : t = [] ∨ ∃ t2, t = ',' :: t2) :
    MinutesFormatter.searchAssigneeParen s = some x := by
  obtain ⟨hne, htr, hnl, hcm, hpr, hkg⟩ := cleanActionAssignee_parts hx
  obtain ⟨c0, hc0⟩ : ∃ c0, x.data.head? = some c0 := by
    cases hv : x.data.head? with
    | none => exact absurd (List.head?_eq_none_iff.mp hv) hne
    | some c0 => exact ⟨c0, rfl⟩
  have hsplit : splitAtFirstCore "担当:".data s.data =
      some ([], ' ' :: u) := by
    rw [hd]
    exact splitAtFirst_self _ _ (by decide)
  rw [searchAssigneeParen_eval hsplit]
  rw [dropWhile_ws_cons (by decide) (fun e he => by
    rw [hrest2, head?_append_left hc0] at he
    cases Option.some.inj he
    exact (trimCore_eq_self_iff.mp htr).1 _ hc0)]
  rw [hrest2]
  have hall : ∀ e ∈ x.data, ((fun c => c ≠ ',' && c ≠ ')') : Char → Bool) e = true := by
    intro e he
    simp only []
    rw [decide_eq_true (mem_of_contains_false hcm he),
      decide_eq_true (mem_of_contains_false hpr he)]
    rfl
  have hcap : (x.data ++ t).takeWhile (fun c => c ≠ ',' && c ≠ ')') = x.data := by
    rcases htail with h1 | ⟨t2, h1⟩
    · rw [h1, List.append_nil]
      exact takeWhileG_all hall
    · rw [h1]
      exact takeWhileG_append_stop _ hall (by decide)
  rw [hcap, isEmpty_false_of_ne_nil hne]
  rw [if_neg (fun hh => Bool.noConfusion hh)]
  rw [labelCapture_pyStrip (v := x) htr hne]

theorem dueParen_some {s d : String} {p : List Char}
    (hd : s.data = p ++ ("期限:".data ++ (' ' :: d.data)))
    (hpre : occursIn "期限:".data p = false)
    (hstrad : ∀ k, k < ("期限:".data).length → 0 < k →
      ¬ ((("期限:".data).take k) <:+ p ∧
         (("期限:".data).drop k) <+: ("期限:".data ++ (' ' :: d.data))))
    (hdue : cleanActionDue d = true) :
    MinutesFormatter.searchDueStr s = some d := by
  obtain ⟨htr, hne, _, _, _, _, _, hmdd, hws⟩ := dueStr_facts hdue
  have hsplit : splitAtFirstCore "期限:".data s.data = some (p, ' ' :: d.data) := by
    rw [hd]
    exact splitAtFirst_found _ _ _ (by decide) hpre hstrad
  rw [searchDueStr_eval hsplit]
  rw [dropWhile_ws_cons (by decide) hws]
  rw [hmdd]
  rw [show (some d.data).map (fun cs => pyStrip (⟨cs⟩ : String)) =
    some (pyStrip ⟨d.data⟩) from rfl]
  rw [labelCapture_pyStrip (v := d) htr hne]

theorem data_shape_of_head {s : String} {c : Char} (h : s.data.head? = some c) :
    s.data = c :: s.data.tail := by
  cases hv : s.data with
  | nil =>
    rw [hv] at h
    exact Option.noConfusion h
  | cons d t =>
    rw [hv] at h
    cases Option.some.inj h
    rfl

theorem renderAI_head (a : ActionItem) :
    (MinutesFormatter.renderActionItem a).data.head? = some '-' := by
  unfold MinutesFormatter.renderActionItem
  simp only []
  split
  · rfl
  · rfl

theorem renderAI_noheading (a : ActionItem) :
    hasPrefixS "## " (MinutesFormatter.renderActionItem a) = false :=
  hasPrefixS_head_ne (data_shape_of_head (renderAI_head a)) (by decide)

theorem parenTail_getLast (D Y : List Char) :
    (D ++ (' ' :: '(' :: (Y ++ [')']))).getLast? = some ')' := by
  refine getLast?_append_right ?_
  rw [show (' ' :: '(' :: (Y ++ [')'])) = [' ', '('] ++ (Y ++ [')']) from rfl]
  exact getLast?_append_right (getLast?_append_right rfl)

theorem renderAI_line_facts {a : ActionItem} (h : cleanActionItem a = true) :
    (MinutesFormatter.renderActionItem a).data.contains '\n' = false ∧
    (∃ e, (MinutesFormatter.renderActionItem a).data.getLast? = some e ∧
      pyWS e = false) := by
  obtain ⟨hdc, hac, hduc⟩ := cleanActionItem_parts h
  obtain ⟨hdne, hdtr, hdnl, hdpar⟩ := cleanActionDesc_parts hdc
  obtain ⟨e1, he1, he1w⟩ := clean_getLast hdtr hdne
  have hcnl : (if a.completed then 'x' else ' ') ≠ '\n' := by
    cases a.completed
    · exact (by decide : (' ' : Char) ≠ '\n')
    · exact (by decide : ('x' : Char) ≠ '\n')
  have hlitBody : ∀ (X : List Char), X.contains '\n' = false →
      ('-' :: ' ' :: '[' :: (if a.completed then 'x' else ' ') :: ']' :: ' ' :: X).contains
        '\n' = false := by
    intro X hX
    refine contains_false_iff.mpr ?_
    intro hm
    simp only [List.mem_cons] at hm
    rcases hm with h1 | h1 | h1 | h1 | h1 | h1 | h1
    · exact absurd h1 (by decide)
    · exact absurd h1 (by decide)
    · exact absurd h1 (by decide)
    · exact hcnl h1.symm
    · exact absurd h1 (by decide)
    · exact absurd h1 (by decide)
    · exact contains_false_iff.mp hX h1
  have hparen : ∀ (J : List Char), J.contains '\n' = false →
      (a.description.data ++ (' ' :: '(' :: (J ++ [')']))).contains '\n' = false := by
    intro J hJ
    refine contains_append_false hdnl ?_
    rw [show (' ' :: '(' :: (J ++ [')'])) = [' ', '('] ++ (J ++ [')']) from rfl]
    exact contains_append_false (by decide) (contains_append_false hJ (by decide))
  rcases hA : a.assignee with _ | x
  · rcases hD : a.due_date with _ | d
    · rw [renderAI_data_none hA hD]
      refine ⟨hlitBody _ hdnl, e1, ?_, he1w⟩
      rw [show ('-' :: ' ' :: '[' :: (if a.completed then 'x' else ' ') :: ']' :: ' ' ::
        a.description.data) = ['-', ' ', '[', (if a.completed then 'x' else ' '), ']', ' ']
        ++ a.description.data from rfl]
      exact getLast?_append_right he1
    · obtain ⟨hdd2, hddne, hddnl, _, _, _, _, _, _⟩ := dueStr_facts (hduc d hD)
      rw [renderAI_data_due hA hD (fun he => hddne (by rw [he]))]
      refine ⟨hlitBody _ (hparen _ (contains_append_false (by decide) hddnl)), ')', ?_,
        by decide⟩
      rw [show ('-' :: ' ' :: '[' :: (if a.completed then 'x' else ' ') :: ']' :: ' ' ::
        (a.description.data ++ (' ' :: '(' :: (("期限: ".data ++ d.data) ++ [')'])))) =
        ['-', ' ', '[', (if a.completed then 'x' else ' '), ']', ' ']
        ++ (a.description.data ++ (' ' :: '(' :: (("期限: ".data ++ d.data) ++ [')'])))
        from rfl]
      exact getLast?_append_right (parenTail_getLast _ _)
  · obtain ⟨hxne2, hxtr, hxnl, hxcm, hxpr, hxkg⟩ := cleanActionAssignee_parts (hac x hA)
    have hxne : x ≠ "" := fun he => hxne2 (by rw [he])
    rcases hD : a.due_date with _ | d
    · rw [renderAI_data_assignee hA hxne hD]
      refine ⟨hlitBody _ (hparen _ (contains_append_false (by decide) hxnl)), ')', ?_,
        by decide⟩
      rw [show ('-' :: ' ' :: '[' :: (if a.completed then 'x' else ' ') :: ']' :: ' ' ::
        (a.description.data ++ (' ' :: '(' :: (("担当: ".data ++ x.data) ++ [')'])))) =
        ['-', ' ', '[', (if a.completed then 'x' else ' '), ']', ' ']
        ++ (a.description.data ++ (' ' :: '(' :: (("担当: ".data ++ x.data) ++ [')'])))
        from rfl]
      exact getLast?_append_right (parenTail_getLast _ _)
    · obtain ⟨hdd2, hddne, hddnl, _, _, _, _, _, _⟩ := dueStr_facts (hduc d hD)
      rw [renderAI_data_both hA hxne hD (fun he => hddne (by rw [he]))]
      have hJ : (("担当: ".data ++ (x.data ++ (',' :: ' ' ::
          ("期限: ".data ++ d.data))))).contains '\n' = false := by
        refine contains_append_false (by decide) ?_
        refine contains_append_false hxnl ?_
        rw [show (',' :: ' ' :: ("期限: ".data ++ d.data)) =
          [',', ' '] ++ ("期限: ".data ++ d.data) from rfl]
        exact contains_append_false (by decide) (contains_append_false (by decide) hddnl)
      refine ⟨hlitBody _ (hparen _ hJ), ')', ?_, by decide⟩
      rw [show ('-' :: ' ' :: '[' :: (if a.completed then 'x' else ' ') :: ']' :: ' ' ::
        (a.description.data ++ (' ' :: '(' :: (("担当: ".data ++ (x.data ++ (',' :: ' ' ::
          ("期限: ".data ++ d.data)))) ++ [')'])))) =
        ['-', ' ', '[', (if a.completed then 'x' else ' '), ']', ' ']
        ++ (a.description.data ++ (' ' :: '(' :: (("担当: ".data ++ (x.data ++ (',' :: ' ' ::
          ("期限: ".data ++ d.data)))) ++ [')'])))
        from rfl]
      exact getLast?_append_right (parenTail_getLast _ _)

theorem actionItem_step (a : ActionItem) (h : cleanActionItem a = true)
    (rest : List String) :
    MinutesFormatter.parseActionItemsAux (MinutesFormatter.renderActionItem a :: rest) =
      (match MinutesFormatter.parseActionItemsAux rest with
       | .error e => .error e
       | .ok more => .ok (a :: more)) := by
  obtain ⟨hdc, hac, hduc⟩ := cleanActionItem_parts h
  obtain ⟨hdne, hdtr, hdnl, hdpar⟩ := cleanActionDesc_parts hdc
  obtain ⟨e0, he0⟩ : ∃ e0, a.description.data.head? = some e0 := by
    cases hv : a.description.data.head? with
    | none => exact absurd (List.head?_eq_none_iff.mp hv) hdne
    | some e0 => exact ⟨e0, rfl⟩
  have he0w : pyWS e0 = false := (trimCore_eq_self_iff.mp hdtr).1 _ he0
  obtain ⟨e1, he1, he1w⟩ := clean_getLast hdtr hdne
  have hdneS : ¬ (a.description = "") := fun he => hdne (by rw [he])
  have hcb : ((if a.completed then 'x' else ' ') = ' ' ||
      (if a.completed then 'x' else ' ') = 'x') = true := by
    cases a.completed
    · decide
    · decide
  have hcd : (decide ((if a.completed then 'x' else ' ') = 'x')) = a.completed := by
    cases a.completed
    · decide
    · decide
  rw [MinutesFormatter.parseActionItemsAux]
  rcases hA : a.assignee with _ | x
  · rcases hD : a.due_date with _ | d
    · have hdata := renderAI_data_none hA hD
      have hstrip : pyStrip (MinutesFormatter.renderActionItem a) =
          MinutesFormatter.renderActionItem a := by
        refine pyStrip_self (c := '-') (d := e1) (by rw [hdata]; rfl) (by decide) ?_ he1w
        rw [hdata, show ('-' :: ' ' :: '[' :: (if a.completed then 'x' else ' ') :: ']' ::
          ' ' :: a.description.data) =
          ['-', ' ', '[', (if a.completed then 'x' else ' '), ']', ' ']
          ++ a.description.data from rfl]
        exact getLast?_append_right he1
      rw [hstrip, matchCheckbox_eval hdata hcb hdne, hcd,
        labelCapture_pyStrip (v := a.description) hdtr hdne]
      simp only []
      rw [splitDetailsParen_none hdpar]
      simp only []
      rw [if_neg hdneS]
      rw [show (⟨a.description, none, none, a.completed⟩ : ActionItem) = a from by
        nth_rewrite 2 [← hD]
        rw [← hA]]
    · obtain ⟨hddtr, hddne, hddnl, _, _, hddTan, hddKig, hddm, hddws⟩ :=
        dueStr_facts (hduc d hD)
      have hdata := renderAI_data_due hA hD (fun he => hddne (by rw [he]))
      have hrestne : a.description.data ++ (' ' :: '(' ::
          (("期限: ".data ++ d.data) ++ [')'])) ≠ [] :=
        fun hh => hdne (List.append_eq_nil.mp hh).1
      have hstrip : pyStrip (MinutesFormatter.renderActionItem a) =
          MinutesFormatter.renderActionItem a := by
        refine pyStrip_self (c := '-') (d := ')') (by rw [hdata]; rfl) (by decide) ?_
          (by decide)
        rw [hdata, show ('-' :: ' ' :: '[' :: (if a.completed then 'x' else ' ') :: ']' ::
          ' ' :: (a.description.data ++ (' ' :: '(' ::
            (("期限: ".data ++ d.data) ++ [')'])))) =
          ['-', ' ', '[', (if a.completed then 'x' else ' '), ']', ' ']
          ++ (a.description.data ++ (' ' :: '(' ::
            (("期限: ".data ++ d.data) ++ [')']))) from rfl]
        exact getLast?_append_right (parenTail_getLast _ _)
      rw [hstrip, matchCheckbox_eval hdata hcb hrestne, hcd]
      rw [show pyStrip ⟨a.description.data ++ (' ' :: '(' ::
          (("期限: ".data ++ d.data) ++ [')']))⟩ =
          ⟨a.description.data ++ (' ' :: '(' :: (("期限: ".data ++ d.data) ++ [')']))⟩ from
        pyStrip_self (head?_append_left he0) he0w (parenTail_getLast _ _) (by decide)]
      simp only []
      rw [splitDetailsParen_found (v := a.description)
        (J := "期限: ".data ++ d.data) rfl hdpar
        (fun hh => List.noConfusion (List.append_eq_nil.mp hh).1) hdtr hdne]
      simp only []
      rw [searchAssigneeParen_none (occursIn_head_notMem rfl (fun hm => by
        rcases List.mem_append.mp hm with h1 | h1
        · exact absurd h1 (by decide)
        · exact hddTan h1))]
      rw [dueParen_some (s := ⟨['期', '限', ':', ' '] ++ d.data⟩) (d := d) (p := [])
        rfl
        (by decide)
        (strad_discharge_left _ [] (by decide) _)
        (hduc d hD)]
      rw [if_neg hdneS]
      rw [show (⟨a.description, none, some d, a.completed⟩ : ActionItem) = a from by
        rw [← hA, ← hD]]
  · obtain ⟨hxne2, hxtr, hxnl, hxcm, hxpr, hxkg⟩ := cleanActionAssignee_parts (hac x hA)
    have hxne : x ≠ "" := fun he => hxne2 (by rw [he])
    rcases hD : a.due_date with _ | d
    · have hdata := renderAI_data_assignee hA hxne hD
      have hrestne : a.description.data ++ (' ' :: '(' ::
          (("担当: ".data ++ x.data) ++ [')'])) ≠ [] :=
        fun hh => hdne (List.append_eq_nil.mp hh).1
      have hstrip : pyStrip (MinutesFormatter.renderActionItem a) =
          MinutesFormatter.renderActionItem a := by
        refine pyStrip_self (c := '-') (d := ')') (by rw [hdata]; rfl) (by decide) ?_
          (by decide)
        rw [hdata, show ('-' :: ' ' :: '[' :: (if a.completed then 'x' else ' ') :: ']' ::
          ' ' :: (a.description.data ++ (' ' :: '(' ::
            (("担当: ".data ++ x.data) ++ [')'])))) =
          ['-', ' ', '[', (if a.completed then 'x' else ' '), ']', ' ']
          ++ (a.description.data ++ (' ' :: '(' ::
            (("担当: ".data ++ x.data) ++ [')']))) from rfl]
        exact getLast?_append_right (parenTail_getLast _ _)
      rw [hstrip, matchCheckbox_eval hdata hcb hrestne, hcd]
      rw [show pyStrip ⟨a.description.data ++ (' ' :: '(' ::
          (("担当: ".data ++ x.data) ++ [')']))⟩ =
          ⟨a.description.data ++ (' ' :: '(' :: (("担当: ".data ++ x.data) ++ [')']))⟩ from
        pyStrip_self (head?_append_left he0) he0w (parenTail_getLast _ _) (by decide)]
      simp only []
      rw [splitDetailsParen_found (v := a.description)
        (J := "担当: ".data ++ x.data) rfl hdpar
        (fun hh => List.noConfusion (List.append_eq_nil.mp hh).1) hdtr hdne]
      simp only []
      rw [assigneeParen_some (s := ⟨['担', '当', ':', ' '] ++ x.data⟩) (x := x)
        (u := x.data) (t := []) rfl
        (List.append_nil _).symm (hac x hA) (Or.inl rfl)]
      rw [searchDueStr_none (occursIn_append_false _ "担当: ".data x.data (by decide) hxkg
        (strad_discharge_left _ _ (by decide) _))]
      rw [if_neg hdneS]
      rw [show (⟨a.description, some x, none, a.completed⟩ : ActionItem) = a from by
        rw [← hA, ← hD]]
    · obtain ⟨hddtr, hddne, hddnl, _, _, hddTan, hddKig, hddm, hddws⟩ :=
        dueStr_facts (hduc d hD)
      have hdata := renderAI_data_both hA hxne hD (fun he => hddne (by rw [he]))
      have hrestne : a.description.data ++ (' ' :: '(' ::
          (("担当: ".data ++ (x.data ++ (',' :: ' ' :: ("期限: ".data ++ d.data))))
            ++ [')'])) ≠ [] :=
        fun hh => hdne (List.append_eq_nil.mp hh).1
      have hstrip : pyStrip (MinutesFormatter.renderActionItem a) =
          MinutesFormatter.renderActionItem a := by
        refine pyStrip_self (c := '-') (d := ')') (by rw [hdata]; rfl) (by decide) ?_
          (by decide)
        rw [hdata, show ('-' :: ' ' :: '[' :: (if a.completed then 'x' else ' ') :: ']' ::
          ' ' :: (a.description.data ++ (' ' :: '(' ::
            (("担当: ".data ++ (x.data ++ (',' :: ' ' :: ("期限: ".data ++ d.data))))
              ++ [')'])))) =
          ['-', ' ', '[', (if a.completed then 'x' else ' '), ']', ' ']
          ++ (a.description.data ++ (' ' :: '(' ::
            (("担当: ".data ++ (x.data ++ (',' :: ' ' :: ("期限: ".data ++ d.data))))
              ++ [')']))) from rfl]
        exact getLast?_append_right (parenTail_getLast _ _)
      rw [hstrip, matchCheckbox_eval hdata hcb hrestne, hcd]
      rw [show pyStrip ⟨a.description.data ++ (' ' :: '(' ::
          (("担当: ".data ++ (x.data ++ (',' :: ' ' :: ("期限: ".data ++ d.data))))
            ++ [')']))⟩ =
          ⟨a.description.data ++ (' ' :: '(' ::
            (("担当: ".data ++ (x.data ++ (',' :: ' ' :: ("期限: ".data ++ d.data))))
              ++ [')']))⟩ from
        pyStrip_self (head?_append_left he0) he0w (parenTail_getLast _ _) (by decide)]
      simp only []
      rw [splitDetailsParen_found (v := a.description)
        (J := "担当: ".data ++ (x.data ++ (',' :: ' ' :: ("期限: ".data ++ d.data))))
        rfl hdpar (fun hh => List.noConfusion (List.append_eq_nil.mp hh).1) hdtr hdne]
      simp only []
      rw [assigneeParen_some
        (s := ⟨['担', '当', ':', ' '] ++ (x.data ++ (',' :: ' ' ::
          (['期', '限', ':', ' '] ++ d.data)))⟩) (x := x)
        (u := x.data ++ (',' :: ' ' :: (['期', '限', ':', ' '] ++ d.data)))
        (t := ',' :: ' ' :: (['期', '限', ':', ' '] ++ d.data)) rfl rfl (hac x hA)
        (Or.inr ⟨_, rfl⟩)]
      rw [dueParen_some
        (s := ⟨['担', '当', ':', ' '] ++ (x.data ++ (',' :: ' ' ::
          (['期', '限', ':', ' '] ++ d.data)))⟩) (d := d)
        (p := ['担', '当', ':', ' '] ++ (x.data ++ [',', ' ']))
        (by simp only [List.append_assoc]; rfl)
        (occursIn_append_false _ "担当: ".data (x.data ++ [',', ' ']) (by decide)
          (occursIn_append_false _ x.data [',', ' '] hxkg (by decide)
            (strad_discharge_head "期限:".data ',' [' '] (by decide) x.data))
          (strad_discharge_left _ _ (by decide) _))
        (strad_discharge_right "期限:".data ("期限:".data ++ (' ' :: d.data))
          (' ' :: d.data) (by decide) rfl _)
        (hduc d hD)]
      rw [if_neg hdneS]
      rw [show (⟨a.description, some x, some d, a.completed⟩ : ActionItem) = a from by
        rw [← hA, ← hD]]

theorem parseActionItems_render (items : List ActionItem)
    (h : ∀ a ∈ items, cleanActionItem a = true) :
    MinutesFormatter.parseActionItemsAux
      (items.map MinutesFormatter.renderActionItem) = .ok items := by
  induction items with
  | nil => rfl
  | cons a as ih =>
    rw [List.map_cons, actionItem_step a (h a (List.mem_cons_self _ _)) _,
      ih (fun b hb => h b (List.mem_cons_of_mem a hb))]

/-! ### Segment-level facts for the minutes document -/

theorem predT {l : String} (h : hasPrefixS "## " l = false) :
    (!(hasPrefixS "## " l)) = true := by
  rw [h]
  rfl

theorem seg_ne {α : Type} (ps : List α) (mk : String) (f : α → String) :
    (if ps.isEmpty then [mk] else ps.map f) ≠ [] := by
  split
  · exact fun hh => List.noConfusion hh
  · rename_i hemp
    intro hh
    rw [List.map_eq_nil_iff] at hh
    rw [hh] at hemp
    exact hemp rfl

theorem listSeg_nopfx (ps : List String) (mk : String)
    (hmk : hasPrefixS "## " mk = false)
    (h : ∀ p ∈ ps, cleanItem p = true) :
    ∀ l ∈ (if ps.isEmpty then [mk] else ps.map (fun p => "- " ++ p)),
      hasPrefixS "## " l = false := by
  intro l hl
  split at hl
  · simp only [List.mem_cons, List.not_mem_nil, or_false] at hl
    rw [hl]
    exact hmk
  · obtain ⟨y, hy, hyx⟩ := List.mem_map.mp hl
    rw [← hyx]
    exact (bullet_line_facts (h y hy)).2.2.2

theorem listSeg_nlfree (ps : List String) (mk : String)
    (hmk : mk.data.contains '\n' = false)
    (h : ∀ p ∈ ps, cleanItem p = true) :
    ∀ l ∈ (if ps.isEmpty then [mk] else ps.map (fun p => "- " ++ p)),
      l.data.contains '\n' = false := by
  intro l hl
  split at hl
  · simp only [List.mem_cons, List.not_mem_nil, or_false] at hl
    rw [hl]
    exact hmk
  · obtain ⟨y, hy, hyx⟩ := List.mem_map.mp hl
    rw [← hyx]
    exact (bullet_line_facts (h y hy)).2.1

theorem aiSeg_nopfx (items : List ActionItem) :
    ∀ l ∈ (if items.isEmpty then ["なし"]
        else items.map MinutesFormatter.renderActionItem),
      hasPrefixS "## " l = false := by
  intro l hl
  split at hl
  · simp only [List.mem_cons, List.not_mem_nil, or_false] at hl
    rw [hl]
    decide
  · obtain ⟨y, hy, hyx⟩ := List.mem_map.mp hl
    rw [← hyx]
    exact renderAI_noheading y

theorem aiSeg_nlfree (items : List ActionItem)
    (h : ∀ a ∈ items, cleanActionItem a = true) :
    ∀ l ∈ (if items.isEmpty then ["なし"]
        else items.map MinutesFormatter.renderActionItem),
      l.data.contains '\n' = false := by
  intro l hl
  split at hl
  · simp only [List.mem_cons, List.not_mem_nil, or_false] at hl
    rw [hl]
    decide
  · obtain ⟨y, hy, hyx⟩ := List.mem_map.mp hl
    rw [← hyx]
    exact (renderAI_line_facts (h y hy)).1

theorem getLast?_mem_of {α : Type} {l : List α} {a : α} (h : l.getLast? = some a) :
    a ∈ l := by
  have hne : l ≠ [] := fun hh => by
    rw [hh] at h
    exact Option.noConfusion h
  rw [List.getLast?_eq_getLast _ hne] at h
  rw [← Option.some.inj h]
  exact List.getLast_mem hne

theorem listSeg_strip (ps : List String) (mk : String)
    (hmkh : ∃ c, mk.data.head? = some c ∧ pyWS c = false)
    (hmkg : ∃ e, mk.data.getLast? = some e ∧ pyWS e = false)
    (h : ∀ p ∈ ps, cleanItem p = true) :
    pyStrip (pyJoinLines ((if ps.isEmpty then [mk]
      else ps.map (fun p => "- " ++ p)) ++ [""])) =
    pyJoinLines (if ps.isEmpty then [mk] else ps.map (fun p => "- " ++ p)) := by
  refine strip_join_blank _ (seg_ne ps mk _) ?_ ?_
  · split
    · obtain ⟨c, hc, hcw⟩ := hmkh
      exact ⟨c, hc, hcw⟩
    · rename_i hemp
      cases hps : ps with
      | nil =>
        rw [hps] at hemp
        exact absurd rfl hemp
      | cons p0 rest =>
        refine ⟨'-', ?_, by decide⟩
        rw [List.map_cons, List.map_cons,
          joinCore_head? (show ("- " ++ p0).data ≠ [] from fun hh => List.noConfusion hh)]
        rfl
  · split
    · obtain ⟨e, he, hew⟩ := hmkg
      exact ⟨e, he, hew⟩
    · rename_i hemp
      have hne : ps ≠ [] := fun hh => by
        rw [hh] at hemp
        exact hemp rfl
      obtain ⟨pl, hpl⟩ : ∃ pl, ps.getLast? = some pl := by
        cases hv : ps.getLast? with
        | none => exact absurd (List.getLast?_eq_none_iff.mp hv) hne
        | some pl => exact ⟨pl, rfl⟩
      obtain ⟨hplne, hpltr, _⟩ := cleanItem_parts (h pl (getLast?_mem_of hpl))
      obtain ⟨e, he, hew⟩ := clean_getLast hpltr hplne
      refine ⟨e, ?_, hew⟩
      refine joinCore_getLast2 ?_ (show ("- " ++ pl).data.getLast? = some e from
        getLast?_append_right he)
      rw [List.getLast?_map, List.getLast?_map, hpl]
      rfl

theorem aiSeg_strip (items : List ActionItem)
    (h : ∀ a ∈ items, cleanActionItem a = true) :
    pyStrip (pyJoinLines ((if items.isEmpty then ["なし"]
      else items.map MinutesFormatter.renderActionItem) ++ [""])) =
    pyJoinLines (if items.isEmpty then ["なし"]
      else items.map MinutesFormatter.renderActionItem) := by
  refine strip_join_blank _ (seg_ne items _ _) ?_ ?_
  · split
    · exact ⟨'な', rfl, by decide⟩
    · rename_i hemp
      cases hii : items with
      | nil =>
        rw [hii] at hemp
        exact absurd rfl hemp
      | cons a0 rest =>
        refine ⟨'-', ?_, by decide⟩
        rw [List.map_cons, List.map_cons,
          joinCore_head? (show (MinutesFormatter.renderActionItem a0).data ≠ [] from
            fun hh => by
              have := renderAI_head a0
              rw [hh] at this
              exact Option.noConfusion this)]
        exact renderAI_head a0
  · split
    · exact ⟨'し', rfl, by decide⟩
    · rename_i hemp
      have hne : items ≠ [] := fun hh => by
        rw [hh] at hemp
        exact hemp rfl
      obtain ⟨al, hal⟩ : ∃ al, items.getLast? = some al := by
        cases hv : items.getLast? with
        | none => exact absurd (List.getLast?_eq_none_iff.mp hv) hne
        | some al => exact ⟨al, rfl⟩
      obtain ⟨e, he, hew⟩ := (renderAI_line_facts (h al (getLast?_mem_of hal))).2
      refine ⟨e, ?_, hew⟩
      refine joinCore_getLast2 ?_ he
      rw [List.getLast?_map, List.getLast?_map, hal]
      rfl

theorem minutes_lines_shape (m : Minutes) :
    MinutesFormatter.to_markdown_lines m =
      ("# " ++ m.title) :: "" :: "## 日時" :: m.date.strftimeMinute :: "" :: "## 参加者" ::
        ((if m.participants.isEmpty then ["不明"]
          else m.participants.map (fun p => "- " ++ p)) ++
        ("" :: "## 議題" ::
          ((if m.agenda.isEmpty then ["なし"] else m.agenda.map (fun a => "- " ++ a)) ++
          ("" :: "## 議論内容" :: m.discussion :: "" :: "## 決定事項" ::
            ((if m.decisions.isEmpty then ["なし"]
              else m.decisions.map (fun d => "- " ++ d)) ++
            ("" :: "## アクションアイテム" ::
              ((if m.action_items.isEmpty then ["なし"]
                else m.action_items.map MinutesFormatter.renderActionItem) ++ [""]))))))) := by
  unfold MinutesFormatter.to_markdown_lines
  simp only [List.append_assoc]
  rfl

theorem minutes_lines_nlfree {m : Minutes} (h : cleanMinutes m = true) :
    ∀ l ∈ MinutesFormatter.to_markdown_lines m, l.data.contains '\n' = false := by
  obtain ⟨ht, hv, hy, hsec, hps, hag, hdi, hde, hai⟩ := cleanMinutes_parts h
  obtain ⟨htne, httr, htnl⟩ := cleanTitle_parts ht
  obtain ⟨hdne2, hdtr2, hdnl2, hdpf⟩ := cleanDiscussion_parts hdi
  intro l hl
  rw [minutes_lines_shape] at hl
  simp only [List.mem_cons] at hl
  rcases hl with h1 | h1 | h1 | h1 | h1 | h1 | h1
  · rw [h1]
    exact contains_append_false (by decide) htnl
  · rw [h1]
    decide
  · rw [h1]
    decide
  · rw [h1]
    exact (strftimeMin_facts m.date).2.2.1
  · rw [h1]
    decide
  · rw [h1]
    decide
  rcases List.mem_append.mp h1 with h2 | h2
  · exact listSeg_nlfree _ _ (by decide) hps l h2
  simp only [List.mem_cons] at h2
  rcases h2 with h1 | h1 | h1
  · rw [h1]
    decide
  · rw [h1]
    decide
  rcases List.mem_append.mp h1 with h2 | h2
  · exact listSeg_nlfree _ _ (by decide) hag l h2
  simp only [List.mem_cons] at h2
  rcases h2 with h1 | h1 | h1 | h1 | h1 | h1
  · rw [h1]
    decide
  · rw [h1]
    decide
  · rw [h1]
    exact hdnl2
  · rw [h1]
    decide
  · rw [h1]
    decide
  rcases List.mem_append.mp h1 with h2 | h2
  · exact listSeg_nlfree _ _ (by decide) hde l h2
  simp only [List.mem_cons] at h2
  rcases h2 with h1 | h1 | h1
  · rw [h1]
    decide
  · rw [h1]
    decide
  rcases List.mem_append.mp h1 with h2 | h2
  · exact aiSeg_nlfree _ hai l h2
  simp only [List.mem_cons, List.not_mem_nil, or_false] at h2
  rw [h2]
  decide

theorem minutes_split {m : Minutes} (h : cleanMinutes m = true) :
    pySplitLines (MinutesFormatter.to_markdown m) = MinutesFormatter.to_markdown_lines m := by
  unfold MinutesFormatter.to_markdown
  refine pySplit_pyJoin _ ?_ (minutes_lines_nlfree h)
  rw [minutes_lines_shape]
  exact fun hh => List.noConfusion hh

theorem takeWhileG_seg {α : Type} {q : α → Bool} {P : List α} {b c : α} (T : List α)
    (hP : ∀ x ∈ P, q x = true) (hb : q b = true) (hc : q c = false) :
    (P ++ (b :: c :: T)).takeWhile q = P ++ [b] := by
  induction P with
  | nil =>
    rw [List.nil_append, List.takeWhile_cons, if_pos hb, List.takeWhile_cons,
      if_neg (by rw [hc]; exact Bool.noConfusion)]
    rfl
  | cons x xs ih =>
    rw [List.cons_append, List.takeWhile_cons, if_pos (hP x (List.mem_cons_self _ _)),
      ih (fun y hy => hP y (List.mem_cons_of_mem x hy)), List.cons_append]

theorem minutes_title_eval {m : Minutes} (h : cleanMinutes m = true) :
    MinutesFormatter.searchTitle (MinutesFormatter.to_markdown m) = some m.title := by
  obtain ⟨ht, _, _, _, _, _, _, _, _⟩ := cleanMinutes_parts h
  unfold MinutesFormatter.searchTitle
  rw [minutes_split h, minutes_lines_shape]
  exact searchTitle_render ht _

theorem extract_date_eval {m : Minutes} (h : cleanMinutes m = true) :
    MinutesFormatter.extract_section "日時" (MinutesFormatter.to_markdown m) =
      m.date.strftimeMinute := by
  unfold MinutesFormatter.extract_section
  rw [minutes_split h, minutes_lines_shape]
  rw [sectionLinesAux_skip _ _ _ (isHeadingLine_false_of_pfx (hasPrefixS_h1 m.title)),
    sectionLinesAux_skip _ _ _ (isHeadingLine_false_of_pfx (by decide)),
    sectionLinesAux_found _ _ _ (by decide) (fun hh => List.noConfusion hh)]
  rw [List.takeWhile_cons, if_pos (predT (strftimeMin_facts m.date).2.2.2),
    List.takeWhile_cons, if_pos (by decide), List.takeWhile_cons,
    if_neg (show ¬ ((!(hasPrefixS "## " "## 参加者")) = true) from by decide)]
  rw [show ([m.date.strftimeMinute, ""] : List String) =
    [m.date.strftimeMinute] ++ [""] from rfl]
  simp only []
  rw [strip_join_blank [m.date.strftimeMinute] (fun hh => List.noConfusion hh)
    ⟨digitChar (m.date.year / 1000 % 10),
      by
        rw [show (([m.date.strftimeMinute].map String.data)) =
          [m.date.strftimeMinute.data] from rfl,
          show joinCore [m.date.strftimeMinute.data] = m.date.strftimeMinute.data from rfl,
          strftimeMinute_data]
        rfl,
      (digitChar_spec _ (mod10_lt _)).2.2.1⟩
    ⟨digitChar (m.date.minute % 10),
      by
        rw [show (([m.date.strftimeMinute].map String.data)) =
          [m.date.strftimeMinute.data] from rfl,
          show joinCore [m.date.strftimeMinute.data] = m.date.strftimeMinute.data from rfl,
          strftimeMinute_data]
        rfl,
      (digitChar_spec _ (mod10_lt _)).2.2.1⟩]
  rw [show pyJoinLines [m.date.strftimeMinute] = ⟨m.date.strftimeMinute.data⟩ from rfl,
    stringEta]

theorem extract_part_eval {m : Minutes} (h : cleanMinutes m = true) :
    MinutesFormatter.extract_section "参加者" (MinutesFormatter.to_markdown m) =
      pyJoinLines (if m.participants.isEmpty then ["不明"]
        else m.participants.map (fun p => "- " ++ p)) := by
  obtain ⟨ht, hv, hy, hsec, hps, hag, hdi, hde, hai⟩ := cleanMinutes_parts h
  unfold MinutesFormatter.extract_section
  rw [minutes_split h, minutes_lines_shape]
  rw [sectionLinesAux_skip _ _ _ (isHeadingLine_false_of_pfx (hasPrefixS_h1 m.title)),
    sectionLinesAux_skip _ _ _ (isHeadingLine_false_of_pfx (by decide)),
    sectionLinesAux_skip _ _ _ (by decide),
    sectionLinesAux_skip _ _ _
      (isHeadingLine_false_of_pfx (strftimeMin_facts m.date).2.2.2),
    sectionLinesAux_skip _ _ _ (isHeadingLine_false_of_pfx (by decide)),
    sectionLinesAux_found _ _ _ (by decide)
      (fun hh => List.noConfusion (List.append_eq_nil.mp hh).2)]
  rw [takeWhileG_seg _ (fun x hx => predT (listSeg_nopfx _ _ (by decide) hps x hx))
    (by decide)
    (show (!(hasPrefixS "## " "## 議題")) = false from by decide)]
  simp only []
  exact listSeg_strip _ _ ⟨'不', rfl, by decide⟩ ⟨'明', rfl, by decide⟩ hps

theorem extract_agenda_eval {m : Minutes} (h : cleanMinutes m = true) :
    MinutesFormatter.extract_section "議題" (MinutesFormatter.to_markdown m) =
      pyJoinLines (if m.agenda.isEmpty then ["なし"]
        else m.agenda.map (fun a => "- " ++ a)) := by
  obtain ⟨ht, hv, hy, hsec, hps, hag, hdi, hde, hai⟩ := cleanMinutes_parts h
  unfold MinutesFormatter.extract_section
  rw [minutes_split h, minutes_lines_shape]
  rw [sectionLinesAux_skip _ _ _ (isHeadingLine_false_of_pfx (hasPrefixS_h1 m.title)),
    sectionLinesAux_skip _ _ _ (isHeadingLine_false_of_pfx (by decide)),
    sectionLinesAux_skip _ _ _ (by decide),
    sectionLinesAux_skip _ _ _
      (isHeadingLine_false_of_pfx (strftimeMin_facts m.date).2.2.2),
    sectionLinesAux_skip _ _ _ (isHeadingLine_false_of_pfx (by decide)),
    sectionLinesAux_skip _ _ _ (by decide),
    sectionLinesAux_skip_all _ _ _
      (fun l hl => isHeadingLine_false_of_pfx (listSeg_nopfx _ _ (by decide) hps l hl)),
    sectionLinesAux_skip _ _ _ (isHeadingLine_false_of_pfx (by decide)),
    sectionLinesAux_found _ _ _ (by decide)
      (fun hh => List.noConfusion (List.append_eq_nil.mp hh).2)]
  rw [takeWhileG_seg _ (fun x hx => predT (listSeg_nopfx _ _ (by decide) hag x hx))
    (by decide)
    (show (!(hasPrefixS "## " "## 議論内容")) = false from by decide)]
  simp only []
  exact listSeg_strip _ _ ⟨'な', rfl, by decide⟩ ⟨'し', rfl, by decide⟩ hag

theorem extract_disc_eval {m : Minutes} (h : cleanMinutes m = true) :
    MinutesFormatter.extract_section "議論内容" (MinutesFormatter.to_markdown m) =
      m.discussion := by
  obtain ⟨ht, hv, hy, hsec, hps, hag, hdi, hde, hai⟩ := cleanMinutes_parts h
  obtain ⟨hdne2, hdtr2, hdnl2, hdpf⟩ := cleanDiscussion_parts hdi
  obtain ⟨c0, hc0⟩ : ∃ c0, m.discussion.data.head? = some c0 := by
    cases hvv : m.discussion.data.head? with
    | none => exact absurd (List.head?_eq_none_iff.mp hvv) hdne2
    | some c0 => exact ⟨c0, rfl⟩
  have hc0w : pyWS c0 = false := (trimCore_eq_self_iff.mp hdtr2).1 _ hc0
  obtain ⟨e1, he1, he1w⟩ := clean_getLast hdtr2 hdne2
  unfold MinutesFormatter.extract_section
  rw [minutes_split h, minutes_lines_shape]
  rw [sectionLinesAux_skip _ _ _ (isHeadingLine_false_of_pfx (hasPrefixS_h1 m.title)),
    sectionLinesAux_skip _ _ _ (isHeadingLine_false_of_pfx (by decide)),
    sectionLinesAux_skip _ _ _ (by decide),
    sectionLinesAux_skip _ _ _
      (isHeadingLine_false_of_pfx (strftimeMin_facts m.date).2.2.2),
    sectionLinesAux_skip _ _ _ (isHeadingLine_false_of_pfx (by decide)),
    sectionLinesAux_skip _ _ _ (by decide),
    sectionLinesAux_skip_all _ _ _
      (fun l hl => isHeadingLine_false_of_pfx (listSeg_nopfx _ _ (by decide) hps l hl)),
    sectionLinesAux_skip _ _ _ (isHeadingLine_false_of_pfx (by decide)),
    sectionLinesAux_skip _ _ _ (by decide),
    sectionLinesAux_skip_all _ _ _
      (fun l hl => isHeadingLine_false_of_pfx (listSeg_nopfx _ _ (by decide) hag l hl)),
    sectionLinesAux_skip _ _ _ (isHeadingLine_false_of_pfx (by decide)),
    sectionLinesAux_found _ _ _ (by decide) (fun hh => List.noConfusion hh)]
  rw [List.takeWhile_cons, if_pos (predT hdpf), List.takeWhile_cons, if_pos (by decide),
    List.takeWhile_cons,
    if_neg (show ¬ ((!(hasPrefixS "## " "## 決定事項")) = true) from by decide)]
  rw [show (m.discussion :: "" :: []) = [m.discussion] ++ [""] from rfl]
  simp only []
  rw [strip_join_blank [m.discussion] (fun hh => List.noConfusion hh)
    ⟨c0, by
      rw [show (([m.discussion].map String.data)) = [m.discussion.data] from rfl,
        show joinCore [m.discussion.data] = m.discussion.data from rfl]
      exact hc0, hc0w⟩
    ⟨e1, by
      rw [show (([m.discussion].map String.data)) = [m.discussion.data] from rfl,
        show joinCore [m.discussion.data] = m.discussion.data from rfl]
      exact he1, he1w⟩]
  rw [show pyJoinLines [m.discussion] = ⟨m.discussion.data⟩ from rfl, stringEta]

theorem extract_dec_eval {m : Minutes} (h : cleanMinutes m = true) :
    MinutesFormatter.extract_section "決定事項" (MinutesFormatter.to_markdown m) =
      pyJoinLines (if m.decisions.isEmpty then ["なし"]
        else m.decisions.map (fun d => "- " ++ d)) := by
  obtain ⟨ht, hv, hy, hsec, hps, hag, hdi, hde, hai⟩ := cleanMinutes_parts h
  obtain ⟨hdne2, hdtr2, hdnl2, hdpf⟩ := cleanDiscussion_parts hdi
  unfold MinutesFormatter.extract_section
  rw [minutes_split h, minutes_lines_shape]
  rw [sectionLinesAux_skip _ _ _ (isHeadingLine_false_of_pfx (hasPrefixS_h1 m.title)),
    sectionLinesAux_skip _ _ _ (isHeadingLine_false_of_pfx (by decide)),
    sectionLinesAux_skip _ _ _ (by decide),
    sectionLinesAux_skip _ _ _
      (isHeadingLine_false_of_pfx (strftimeMin_facts m.date).2.2.2),
    sectionLinesAux_skip _ _ _ (isHeadingLine_false_of_pfx (by decide)),
    sectionLinesAux_skip _ _ _ (by decide),
    sectionLinesAux_skip_all _ _ _
      (fun l hl => isHeadingLine_false_of_pfx (listSeg_nopfx _ _ (by decide) hps l hl)),
    sectionLinesAux_skip _ _ _ (isHeadingLine_false_of_pfx (by decide)),
    sectionLinesAux_skip _ _ _ (by decide),
    sectionLinesAux_skip_all _ _ _
      (fun l hl => isHeadingLine_false_of_pfx (listSeg_nopfx _ _ (by decide) hag l hl)),
    sectionLinesAux_skip _ _ _ (isHeadingLine_false_of_pfx (by decide)),
    sectionLinesAux_skip _ _ _ (by decide),
    sectionLinesAux_skip _ _ _ (isHeadingLine_false_of_pfx hdpf),
    sectionLinesAux_skip _ _ _ (isHeadingLine_false_of_pfx (by decide)),
    sectionLinesAux_found _ _ _ (by decide)
      (fun hh => List.noConfusion (List.append_eq_nil.mp hh).2)]
  rw [takeWhileG_seg _ (fun x hx => predT (listSeg_nopfx _ _ (by decide) hde x hx))
    (by decide)
    (show (!(hasPrefixS "## " "## アクションアイテム")) = false from by decide)]
  simp only []
  exact listSeg_strip _ _ ⟨'な', rfl, by decide⟩ ⟨'し', rfl, by decide⟩ hde

theorem extract_ai_eval {m : Minutes} (h : cleanMinutes m = true) :
    MinutesFormatter.extract_section "アクションアイテム" (MinutesFormatter.to_markdown m) =
      pyJoinLines (if m.action_items.isEmpty then ["なし"]
        else m.action_items.map MinutesFormatter.renderActionItem) := by
  obtain ⟨ht, hv, hy, hsec, hps, hag, hdi, hde, hai⟩ := cleanMinutes_parts h
  obtain ⟨hdne2, hdtr2, hdnl2, hdpf⟩ := cleanDiscussion_parts hdi
  unfold MinutesFormatter.extract_section
  rw [minutes_split h, minutes_lines_shape]
  rw [sectionLinesAux_skip _ _ _ (isHeadingLine_false_of_pfx (hasPrefixS_h1 m.title)),
    sectionLinesAux_skip _ _ _ (isHeadingLine_false_of_pfx (by decide)),
    sectionLinesAux_skip _ _ _ (by decide),
    sectionLinesAux_skip _ _ _
      (isHeadingLine_false_of_pfx (strftimeMin_facts m.date).2.2.2),
    sectionLinesAux_skip _ _ _ (isHeadingLine_false_of_pfx (by decide)),
    sectionLinesAux_skip _ _ _ (by decide),
    sectionLinesAux_skip_all _ _ _
      (fun l hl => isHeadingLine_false_of_pfx (listSeg_nopfx _ _ (by decide) hps l hl)),
    sectionLinesAux_skip _ _ _ (isHeadingLine_false_of_pfx (by decide)),
    sectionLinesAux_skip _ _ _ (by decide),
    sectionLinesAux_skip_all _ _ _
      (fun l hl => isHeadingLine_false_of_pfx (listSeg_nopfx _ _ (by decide) hag l hl)),
    sectionLinesAux_skip _ _ _ (isHeadingLine_false_of_pfx (by decide)),
    sectionLinesAux_skip _ _ _ (by decide),
    sectionLinesAux_skip _ _ _ (isHeadingLine_false_of_pfx hdpf),
    sectionLinesAux_skip _ _ _ (isHeadingLine_false_of_pfx (by decide)),
    sectionLinesAux_skip _ _ _ (by decide),
    sectionLinesAux_skip_all _ _ _
      (fun l hl => isHeadingLine_false_of_pfx (listSeg_nopfx _ _ (by decide) hde l hl)),
    sectionLinesAux_skip _ _ _ (isHeadingLine_false_of_pfx (by decide)),
    sectionLinesAux_found _ _ _ (by decide)
      (fun hh => List.noConfusion (List.append_eq_nil.mp hh).2)]
  rw [takeWhileG_all (fun x hx => by
    rcases List.mem_append.mp hx with h1 | h1
    · exact predT (aiSeg_nopfx _ x h1)
    · simp only [List.mem_cons, List.not_mem_nil, or_false] at h1
      rw [h1]
      decide)]
  simp only []
  exact aiSeg_strip _ hai

set_option maxHeartbeats 2000000 in
/-- The minutes codec round trip on its clean domain. -/
theorem minutes_roundtrip {m : Minutes} (h : cleanMinutes m = true) :
    MinutesFormatter.from_markdown (MinutesFormatter.to_markdown m) = .ok m := by
  obtain ⟨ht, hv, hy, hsec, hps, hag, hdi, hde, hai⟩ := cleanMinutes_parts h
  obtain ⟨htne, httr, htnl⟩ := cleanTitle_parts ht
  obtain ⟨hdne2, hdtr2, hdnl2, hdpf⟩ := cleanDiscussion_parts hdi
  have hmf := strftimeMin_facts m.date
  have hdatene : ¬ (m.date.strftimeMinute = "") := fun he => hmf.2.1 (by rw [he])
  have hstripdate : pyStrip m.date.strftimeMinute = m.date.strftimeMinute := by
    unfold pyStrip
    rw [hmf.1, stringEta]
  have hPval : (if pyJoinLines (if m.participants.isEmpty then ["不明"]
        else m.participants.map (fun p => "- " ++ p)) ≠ "" &&
        pyJoinLines (if m.participants.isEmpty then ["不明"]
        else m.participants.map (fun p => "- " ++ p)) ≠ "不明" then
      MinutesFormatter.parseBulletItems (pyJoinLines
        (if m.participants.isEmpty then ["不明"]
        else m.participants.map (fun p => "- " ++ p)))
      else []) = m.participants := by
    cases hpe : m.participants with
    | nil =>
      rw [if_pos (show (([] : List String)).isEmpty = true from rfl),
        show pyJoinLines ["不明"] = "不明" from rfl, if_neg (by decide)]
    | cons p0 ps2 =>
      rw [if_neg (show ¬ ((p0 :: ps2).isEmpty = true) from fun hh => Bool.noConfusion hh)]
      have hps2 : ∀ p ∈ p0 :: ps2, cleanItem p = true := fun q hq =>
        hps q (by rw [hpe]; exact hq)
      have hhd : (pyJoinLines ((p0 :: ps2).map (fun p => "- " ++ p))).data.head? =
          some '-' := by
        rw [show (pyJoinLines ((p0 :: ps2).map (fun p => "- " ++ p))).data =
          joinCore (((p0 :: ps2).map (fun p => "- " ++ p)).map String.data) from rfl,
          List.map_cons, List.map_cons,
          joinCore_head? (show ("- " ++ p0).data ≠ [] from fun hh => List.noConfusion hh)]
        rfl
      have hh1 : pyJoinLines ((p0 :: ps2).map (fun p => "- " ++ p)) ≠ "" :=
        ne_empty_of_head hhd
      have hh2 : pyJoinLines ((p0 :: ps2).map (fun p => "- " ++ p)) ≠ "不明" :=
        ne_of_headChar hhd rfl (by decide)
      rw [if_pos (by rw [decide_eq_true hh1, decide_eq_true hh2]; rfl)]
      exact bullet_harvest _ (fun hh => List.noConfusion hh) hps2
  have hAval : (if pyJoinLines (if m.agenda.isEmpty then ["なし"]
        else m.agenda.map (fun a => "- " ++ a)) ≠ "" &&
        pyJoinLines (if m.agenda.isEmpty then ["なし"]
        else m.agenda.map (fun a => "- " ++ a)) ≠ "なし" then
      MinutesFormatter.parseBulletItems (pyJoinLines
        (if m.agenda.isEmpty then ["なし"]
        else m.agenda.map (fun a => "- " ++ a)))
      else []) = m.agenda := by
    cases hpe : m.agenda with
    | nil =>
      rw [if_pos (show (([] : List String)).isEmpty = true from rfl),
        show pyJoinLines ["なし"] = "なし" from rfl, if_neg (by decide)]
    | cons p0 ps2 =>
      rw [if_neg (show ¬ ((p0 :: ps2).isEmpty = true) from fun hh => Bool.noConfusion hh)]
      have hps2 : ∀ p ∈ p0 :: ps2, cleanItem p = true := fun q hq =>
        hag q (by rw [hpe]; exact hq)
      have hhd : (pyJoinLines ((p0 :: ps2).map (fun a => "- " ++ a))).data.head? =
          some '-' := by
        rw [show (pyJoinLines ((p0 :: ps2).map (fun a => "- " ++ a))).data =
          joinCore (((p0 :: ps2).map (fun a => "- " ++ a)).map String.data) from rfl,
          List.map_cons, List.map_cons,
          joinCore_head? (show ("- " ++ p0).data ≠ [] from fun hh => List.noConfusion hh)]
        rfl
      have hh1 : pyJoinLines ((p0 :: ps2).map (fun a => "- " ++ a)) ≠ "" :=
        ne_empty_of_head hhd
      have hh2 : pyJoinLines ((p0 :: ps2).map (fun a => "- " ++ a)) ≠ "なし" :=
        ne_of_headChar hhd rfl (by decide)
      rw [if_pos (by rw [decide_eq_true hh1, decide_eq_true hh2]; rfl)]
      exact bullet_harvest _ (fun hh => List.noConfusion hh) hps2
  have hDecval : (if pyJoinLines (if m.decisions.isEmpty then ["なし"]
        else m.decisions.map (fun d => "- " ++ d)) ≠ "" &&
        pyJoinLines (if m.decisions.isEmpty then ["なし"]
        else m.decisions.map (fun d => "- " ++ d)) ≠ "なし" then
      MinutesFormatter.parseBulletItems (pyJoinLines
        (if m.decisions.isEmpty then ["なし"]
        else m.decisions.map (fun d => "- " ++ d)))
      else []) = m.decisions := by
    cases hpe : m.decisions with
    | nil =>
      rw [if_pos (show (([] : List String)).isEmpty = true from rfl),
        show pyJoinLines ["なし"] = "なし" from rfl, if_neg (by decide)]
    | cons p0 ps2 =>
      rw [if_neg (show ¬ ((p0 :: ps2).isEmpty = true) from fun hh => Bool.noConfusion hh)]
      have hps2 : ∀ p ∈ p0 :: ps2, cleanItem p = true := fun q hq =>
        hde q (by rw [hpe]; exact hq)
      have hhd : (pyJoinLines ((p0 :: ps2).map (fun d => "- " ++ d))).data.head? =
          some '-' := by
        rw [show (pyJoinLines ((p0 :: ps2).map (fun d => "- " ++ d))).data =
          joinCore (((p0 :: ps2).map (fun d => "- " ++ d)).map String.data) from rfl,
          List.map_cons, List.map_cons,
          joinCore_head? (show ("- " ++ p0).data ≠ [] from fun hh => List.noConfusion hh)]
        rfl
      have hh1 : pyJoinLines ((p0 :: ps2).map (fun d => "- " ++ d)) ≠ "" :=
        ne_empty_of_head hhd
      have hh2 : pyJoinLines ((p0 :: ps2).map (fun d => "- " ++ d)) ≠ "なし" :=
        ne_of_headChar hhd rfl (by decide)
      rw [if_pos (by rw [decide_eq_true hh1, decide_eq_true hh2]; rfl)]
      exact bullet_harvest _ (fun hh => List.noConfusion hh) hps2
  have hAIval : (if pyJoinLines (if m.action_items.isEmpty then ["なし"]
        else m.action_items.map MinutesFormatter.renderActionItem) ≠ "" &&
        pyJoinLines (if m.action_items.isEmpty then ["なし"]
        else m.action_items.map MinutesFormatter.renderActionItem) ≠ "なし" then
      MinutesFormatter.parseActionItemsAux (pySplitLines (pyJoinLines
        (if m.action_items.isEmpty then ["なし"]
        else m.action_items.map MinutesFormatter.renderActionItem)))
      else .ok []) = .ok m.action_items := by
    cases hpe : m.action_items with
    | nil =>
      rw [if_pos (show (([] : List ActionItem)).isEmpty = true from rfl),
        show pyJoinLines ["なし"] = "なし" from rfl, if_neg (by decide)]
    | cons a0 as2 =>
      rw [if_neg (show ¬ ((a0 :: as2).isEmpty = true) from fun hh => Bool.noConfusion hh)]
      have has2 : ∀ a ∈ a0 :: as2, cleanActionItem a = true := fun q hq =>
        hai q (by rw [hpe]; exact hq)
      have hhd : (pyJoinLines ((a0 :: as2).map MinutesFormatter.renderActionItem)).data.head? =
          some '-' := by
        rw [show (pyJoinLines ((a0 :: as2).map MinutesFormatter.renderActionItem)).data =
          joinCore (((a0 :: as2).map MinutesFormatter.renderActionItem).map String.data)
          from rfl, List.map_cons, List.map_cons,
          joinCore_head? (show (MinutesFormatter.renderActionItem a0).data ≠ [] from
            fun hh => by
              have := renderAI_head a0
              rw [hh] at this
              exact Option.noConfusion this)]
        exact renderAI_head a0
      have hh1 : pyJoinLines ((a0 :: as2).map MinutesFormatter.renderActionItem) ≠ "" :=
        ne_empty_of_head hhd
      have hh2 : pyJoinLines ((a0 :: as2).map MinutesFormatter.renderActionItem) ≠ "なし" :=
        ne_of_headChar hhd rfl (by decide)
      rw [if_pos (by rw [decide_eq_true hh1, decide_eq_true hh2]; rfl)]
      rw [pySplit_pyJoin _ (fun hh => List.noConfusion hh) (fun x hx => by
        obtain ⟨y, hy, hyx⟩ := List.mem_map.mp hx
        rw [← hyx]
        exact (renderAI_line_facts (has2 y hy)).1)]
      exact parseActionItems_render _ has2
  unfold MinutesFormatter.from_markdown
  rw [minutes_title_eval h]
  simp only []
  rw [extract_date_eval h, if_neg hdatene, hstripdate, strptime_strftimeMinute hv hsec]
  simp only []
  rw [extract_part_eval h, extract_agenda_eval h, hPval, hAval, extract_disc_eval h,
    if_neg (show ¬ (m.discussion = "") from fun he => hdne2 (by rw [he])),
    extract_dec_eval h, hDecval, extract_ai_eval h, hAIval]
  simp only []
  rw [if_neg (show ¬ (m.title = "") from fun he => htne (by rw [he]))]

/-- C3 (amended).  The round-trip law does hold on the clean domain: for a
task batch whose fields are non-empty, trimmed, single-line, free of the
parser's label strings, and listed in priority order, `from_markdown ∘
to_markdown` recovers every layout-carried field (the timestamps are
re-defaulted, modelled as 0); and for a clean minutes record the round trip
recovers the record exactly, including empty lists rendered as the explicit
不明/なし markers. -/
theorem roundtrip_clean (tl : TaskList) (m : Minutes)
    (h1 : cleanTaskList tl = true) (h2 : cleanMinutes m = true) :
    Task_Formatter.from_markdown (Task_Formatter.to_markdown tl) =
      .ok ⟨tl.session_id, tl.minutes_id, tl.tasks, tl.status, 0, 0⟩ ∧
    MinutesFormatter.from_markdown (MinutesFormatter.to_markdown m) = .ok m :=
  ⟨task_roundtrip h1, minutes_roundtrip h2⟩

theorem roundtrip_clean_witness :
    cleanTaskList richBatch = true ∧ cleanMinutes richMinutes = true ∧
    (Task_Formatter.from_markdown (Task_Formatter.to_markdown richBatch) =
      .ok ⟨richBatch.session_id, richBatch.minutes_id, richBatch.tasks,
        richBatch.status, 0, 0⟩ ∧
     MinutesFormatter.from_markdown (MinutesFormatter.to_markdown richMinutes) =
      .ok richMinutes) :=
  ⟨by decide, by decide, roundtrip_clean richBatch richMinutes (by decide) (by decide)⟩

end Agents
